import Mathlib

/-!
# Identity bridge and authorization gateway

A shallow embedding of the backend's identity code:

* `src/backend/models/User.js` (the `userSchema` and its statics),
* `src/backend/config/clerk.js` (`extractUserData`),
* `src/backend/controllers/authController.js` (all seven handlers) and
  `src/backend/controllers/userController.js` (`verifyNGO`, `updateUserStatus`),
* `src/backend/routes/users.js` (the admin routes),
* `src/backend/middleware/auth.js` (`verifyToken`, `optionalAuth`, `requireRole`,
  `requireVerifiedNGO`).

Modelling conventions.

* A property that may be absent (`undefined`) is an `Option`; for the string-valued
  properties `null` behaves like `undefined` in this code and is `none` as well. Payload
  properties have the types of the provider's event format (strings, epoch seconds).
* The collection is a list of documents in insertion order; `findOne` returns the first match.
  The store is always reachable, and requests are processed one at a time, except in the
  section on concurrent create calls, where two calls are interleaved at their `await`s.
* A handler is a function of the clock, the directory and the request; it returns the new
  directory and what the handler did (a JSON response, or a thrown error, which the
  surrounding `asyncHandler` receives).
* The schema options of `User.js` are part of the model: `required`, `enum`, `default`,
  `trim`, `lowercase`, `unique` and `timestamps: true`.
* `jwt.verify` is a parameter of the model (`AuthConfig.jwtVerify`).
* Strings are lists of code points. `String.prototype.toLowerCase` is a parameter of the
  model (`CaseMapping`): every theorem holds for every case mapping, and where a property of
  the mapping is needed it is a hypothesis (`LowercaseStable`). The sample data are ASCII and
  are evaluated with the ASCII case mapping.
-/

namespace Backend

/-! ## Data model (`models/User.js`) -/

/-- The `profile.address` sub-object of the schema. -/
structure Address where
  street : Option String
  city : Option String
  state : Option String
  country : Option String
  zipCode : Option String
  deriving DecidableEq, Repr

/-- The `profile` sub-object of the schema. -/
structure Profile where
  phone : Option String
  address : Address
  avatar : Option String
  bio : Option String
  deriving DecidableEq, Repr

/-- One entry of `ngoDetails.documents`. -/
structure NgoDocument where
  name : Option String
  url : Option String
  uploadedAt : Option Int
  deriving DecidableEq, Repr

/-- The `ngoDetails` sub-object of the schema. -/
structure NgoDetails where
  organizationName : Option String
  registrationNumber : Option String
  website : Option String
  mission : Option String
  foundedYear : Option Int
  category : Option String
  verified : Option Bool
  documents : List NgoDocument
  deriving DecidableEq, Repr

/-- The `donorDetails` sub-object of the schema. -/
structure DonorDetails where
  preferredCategories : List String
  totalDonations : Option Int
  anonymousDonations : Option Bool
  deriving DecidableEq, Repr

/-- A stored document of the `User` model. Dates are milliseconds since the epoch.
`createdAt` and `updatedAt` are the paths added by the schema option `timestamps: true`. -/
structure User where
  _id : Nat
  clerkId : String
  firstName : String
  lastName : Option String
  email : String
  userType : String
  emailVerified : Bool
  profile : Profile
  ngoDetails : NgoDetails
  donorDetails : DonorDetails
  isActive : Bool
  lastLogin : Option Int
  lastActivity : Option Int
  createdAt : Int
  updatedAt : Int
  deriving DecidableEq, Repr

/-- The directory: the documents of the `users` collection, in insertion order. -/
abbrev Directory := List User

/-- Errors a store operation can throw. -/
inductive StoreError where
  | validationError
  | duplicateKey
  | documentNotFound
  | typeError
  deriving DecidableEq, Repr

/-- The body of a JSON response: `success` and, when present, `message`. -/
structure JsonBody where
  success : Bool
  message : Option String
  deriving DecidableEq, Repr

/-- What a controller wrapped in `asyncHandler` did: it sent `res.status(s).json(b)`, or its
promise rejected with an error (handed to `asyncHandler`, whose code is not part of the
sources). -/
inductive HandlerResult where
  | json (status : Nat) (body : JsonBody)
  | threw (e : StoreError)
  deriving DecidableEq, Repr

/-! ## Schema setters, defaults and validators -/

/-- The code points `String.prototype.trim` strips: white space and line terminators. -/
def isWhiteSpace (c : Char) : Bool :=
  let n := c.toNat
  (9 ≤ n && n ≤ 13) || n == 32 || n == 160 || n == 5760 || (8192 ≤ n && n ≤ 8202) ||
  n == 8232 || n == 8233 || n == 8239 || n == 8287 || n == 12288 || n == 65279

/-- JavaScript `String.prototype.trim`. -/
def trim (s : String) : String :=
  String.mk ((s.data.dropWhile isWhiteSpace).reverse.dropWhile isWhiteSpace).reverse

/-- The case mapping of the platform: `String.prototype.toLowerCase`, which is also what the
schema option `lowercase: true` applies. It follows the Unicode tables of the runtime, so it
is a parameter of the model, as `jwt.verify` is. -/
class CaseMapping where
  /-- The lower-case form of a string. -/
  lower : String → String

/-- JavaScript `String.prototype.toLowerCase`. -/
def toLowerCase [CaseMapping] (s : String) : String :=
  CaseMapping.lower s

/-- The setters of the `email` path: `lowercase: true, trim: true`. -/
def setEmail [CaseMapping] (s : String) : String :=
  trim (toLowerCase s)

/-- The property of the case mapping that makes a written address a fixed point of the
setters: a lower-cased, trimmed string is in lower case. It holds of
`String.prototype.toLowerCase`, which is idempotent, maps no character to white space and
leaves white space as it is. -/
def LowercaseStable [CaseMapping] : Prop :=
  ∀ s : String, toLowerCase (trim (toLowerCase s)) = trim (toLowerCase s)

/-- The enum of `ngoDetails.category` and of the entries of `donorDetails.preferredCategories`. -/
def categories : List String :=
  ["education", "healthcare", "environment", "poverty", "human-rights", "animals", "other"]

/-- The enum of `userType`. -/
def userTypes : List String :=
  ["donor", "ngo"]

/-- The schema defaults of `profile`: every path is absent. -/
def defaultProfile : Profile :=
  { phone := none,
    address := { street := none, city := none, state := none, country := none, zipCode := none },
    avatar := none, bio := none }

/-- The schema defaults of `ngoDetails`: `verified` defaults to `false`, `documents` to `[]`. -/
def defaultNgoDetails : NgoDetails :=
  { organizationName := none, registrationNumber := none, website := none, mission := none,
    foundedYear := none, category := none, verified := some false, documents := [] }

/-- The schema defaults of `donorDetails`: `totalDonations` is 0, `anonymousDonations` false. -/
def defaultDonorDetails : DonorDetails :=
  { preferredCategories := [], totalDonations := some 0, anonymousDonations := some false }

/-- Document validation as run by `save`: the `required` validators of `clerkId`, `firstName`,
`email` and `userType` (a required string must be non-empty) and the `enum` validators. -/
def validate (u : User) : Bool :=
  u.clerkId != "" && u.firstName != "" && u.email != "" &&
  userTypes.contains u.userType &&
  (match u.ngoDetails.category with
   | none => true
   | some c => categories.contains c) &&
  u.donorDetails.preferredCategories.all (fun c => categories.contains c)

/-- Every stored document passes the schema validators (all writes go through `save`). -/
def SchemaValid (d : Directory) : Prop :=
  ∀ u ∈ d, validate u = true

/-- Instance deciding `SchemaValid` on a concrete directory. -/
instance (d : Directory) : Decidable (SchemaValid d) :=
  inferInstanceAs (Decidable (∀ u ∈ d, validate u = true))

/-- The unique indexes of the collection: `_id`, `clerkId` and `email`. -/
def UniqueKeys (d : Directory) : Prop :=
  (d.map (fun u => u._id)).Nodup ∧ (d.map (fun u => u.clerkId)).Nodup ∧
  (d.map (fun u => u.email)).Nodup

/-! ## Store operations (`models/User.js`, Mongoose `create` and `save`) -/

/-- `User.findByClerkId(clerkId)`, that is `findOne({ clerkId })`. An absent `clerkId` matches
no document, since the path is required. -/
def findByClerkId (d : Directory) (clerkId : Option String) : Option User :=
  match clerkId with
  | none => none
  | some c => d.find? (fun u => u.clerkId == c)

/-- A fresh `_id` for an inserted document. -/
def nextId (d : Directory) : Nat :=
  (d.map (fun u => u._id)).foldr max 0 + 1

/-- A JavaScript `Date`: `none` is the invalid date. -/
abbrev JsDate := Option Int

/-- `new Date(seconds * 1000)`: an absent operand gives `NaN`, hence the invalid date, and so
does a time value beyond 8.64e15 ms. -/
def dateOfSeconds (seconds : Option Int) : JsDate :=
  match seconds with
  | none => none
  | some s => if (s * 1000).natAbs ≤ 8640000000000000 then some (s * 1000) else none

/-- The object passed to `User.create`. An outer `none` is an absent (undefined) property. -/
structure UserInput where
  clerkId : Option String
  firstName : Option String
  lastName : Option String
  email : Option String
  userType : Option String
  emailVerified : Option Bool
  createdAt : Option JsDate
  updatedAt : Option JsDate
  deriving DecidableEq, Repr

/-- The document `new User(input)` builds: setters applied, defaults filled in. `none` when a
provided date fails to cast, or a required path is absent (both fail validation). On a new
document the timestamps hook keeps a provided `createdAt`, else uses the clock, and sets
`updatedAt` to the `createdAt` value. -/
def buildUser [CaseMapping] (now : Int) (id : Nat) (i : UserInput) : Option User :=
  match i.clerkId, i.firstName, i.email, i.userType with
  | some clerkId, some firstName, some email, some userType =>
    if i.createdAt = some none ∨ i.updatedAt = some none then none
    else
      let created : Int := match i.createdAt with
        | some (some t) => t
        | _ => now
      some { _id := id, clerkId := clerkId, firstName := trim firstName,
             lastName := i.lastName.map trim, email := setEmail email, userType := userType,
             emailVerified := i.emailVerified.getD false, profile := defaultProfile,
             ngoDetails := defaultNgoDetails, donorDetails := defaultDonorDetails,
             isActive := true, lastLogin := none, lastActivity := none,
             createdAt := created, updatedAt := created }
  | _, _, _, _ => none

/-- `User.create(input)`: build and validate the document, then insert it; the unique indexes
on `clerkId` and `email` reject a duplicate. Returns the new directory and the document. -/
def create [CaseMapping] (now : Int) (d : Directory) (i : UserInput) :
    Except StoreError (Directory × User) :=
  match buildUser now (nextId d) i with
  | none => .error .validationError
  | some u =>
    if validate u = false then .error .validationError
    else if d.any (fun v => v.clerkId == u.clerkId || v.email == u.email) then
      .error .duplicateKey
    else .ok (d ++ [u], u)

/-- `doc.save()` on a document loaded from the directory as `orig` and since assigned to,
giving `doc`. Validation runs first. Without a modified path nothing is written. Otherwise the
modified paths and a fresh `updatedAt` are written to the document with that `_id`; the unique
index on `email` rejects a changed email that another document holds. -/
def save (now : Int) (d : Directory) (orig doc : User) : Except StoreError Directory :=
  if validate doc = false then .error .validationError
  else if doc = orig then .ok d
  else if d.all (fun v => v._id != doc._id) then .error .documentNotFound
  else if doc.email != orig.email && d.any (fun v => v._id != doc._id && v.email == doc.email) then
    .error .duplicateKey
  else .ok (d.map (fun v => if v._id = doc._id then { doc with updatedAt := now } else v))

/-- The directory once `r` has been soft-deleted at time `now`: an inactive `r` leaves it as it
is; for an active `r` the document with the `_id` of `r` gets `isActive = false` and
`updatedAt = now`, every other document stays in place. -/
def softDeleted (now : Int) (d : Directory) (r : User) : Directory :=
  if r.isActive = true then
    d.map (fun v => if v._id = r._id then { r with isActive := false, updatedAt := now } else v)
  else d

/-! ## Lifecycle payloads (`config/clerk.js`) -/

/-- The `verification` object of an email address of the payload. -/
structure Verification where
  status : Option String
  deriving DecidableEq, Repr

/-- One entry of `data.email_addresses`. -/
structure EmailAddress where
  email_address : Option String
  verification : Option Verification
  deriving DecidableEq, Repr

/-- The `data` object of a lifecycle event. Timestamps are epoch seconds. -/
structure ClerkUser where
  id : Option String
  email_addresses : Option (List EmailAddress)
  first_name : Option String
  last_name : Option String
  created_at : Option Int
  updated_at : Option Int
  deriving DecidableEq, Repr

/-- The request body of the webhook route: `{ type, data }`. -/
structure WebhookBody where
  type : Option String
  data : Option ClerkUser
  deriving DecidableEq, Repr

/-- The object `extractUserData` returns. -/
structure UserData where
  clerkId : Option String
  email : String
  firstName : String
  lastName : String
  emailVerified : Bool
  createdAt : JsDate
  updatedAt : JsDate
  deriving DecidableEq, Repr

/-- JavaScript truthiness of a possibly absent string: absent and `''` are falsy. -/
def truthy (s : Option String) : Bool :=
  match s with
  | none => false
  | some v => v != ""

/-- The expression `s || ''`. -/
def orEmpty (s : Option String) : String :=
  s.getD ""

/-- The expression `a || b` on possibly absent strings. -/
def orElse (a b : Option String) : Option String :=
  if truthy a then a else b

/-- The expression `email_addresses?.[0]`. -/
def firstEmailAddress (data : ClerkUser) : Option EmailAddress :=
  data.email_addresses.bind List.head?

/-- `extractUserData(payload)`: destructuring an absent `payload.data` throws, which the
`catch` turns into `null`. -/
def extractUserData (payload : WebhookBody) : Option UserData :=
  match payload.data with
  | none => none
  | some data =>
    some { clerkId := data.id,
           email := orEmpty ((firstEmailAddress data).bind (fun e => e.email_address)),
           firstName := orEmpty data.first_name,
           lastName := orEmpty data.last_name,
           emailVerified :=
             ((firstEmailAddress data).bind (fun e => e.verification)).bind (fun v => v.status)
               == some "verified",
           createdAt := dateOfSeconds data.created_at,
           updatedAt := dateOfSeconds data.updated_at }

/-- The first email address of the payload as `extractUserData` reads it:
`email_addresses?.[0]?.email_address || ''`. -/
def firstEmail (data : ClerkUser) : String :=
  orEmpty ((firstEmailAddress data).bind (fun e => e.email_address))

/-- Whether the first email address of the payload is verified, as `extractUserData` reads it:
`email_addresses?.[0]?.verification?.status === 'verified'`. -/
def firstEmailVerified (data : ClerkUser) : Bool :=
  ((firstEmailAddress data).bind (fun e => e.verification)).bind (fun v => v.status)
    == some "verified"

/-! ## Controllers (`controllers/authController.js`) -/

/-- The response `res.status(200).json({ success: true })`. -/
def ok200 : HandlerResult :=
  .json 200 { success := true, message := none }

/-- The argument of `User.create` in the `user.created` case:
`{ ...userData, userType: 'donor' }`. -/
def createdInput (userData : UserData) : UserInput :=
  { clerkId := userData.clerkId, firstName := some userData.firstName,
    lastName := some userData.lastName, email := some userData.email,
    userType := some "donor", emailVerified := some userData.emailVerified,
    createdAt := some userData.createdAt, updatedAt := some userData.updatedAt }

/-- The assignments of the `user.updated` case; each goes through the path's setters. -/
def applyUpdate [CaseMapping] (user : User) (userData : UserData) : User :=
  { user with email := setEmail userData.email, firstName := trim userData.firstName,
              lastName := some (trim userData.lastName),
              emailVerified := userData.emailVerified }

/-- The handler `handleWebhook`: a switch over `type`, then `200 { success: true }`. An error
thrown by the store leaves the directory as it was and rejects the handler's promise. -/
def handleWebhook [CaseMapping] (now : Int) (d : Directory) (body : WebhookBody) :
    Directory × HandlerResult :=
  if body.type = some "user.created" then
    match extractUserData body with
    | none => (d, ok200)
    | some userData =>
      match findByClerkId d userData.clerkId with
      | some _ => (d, ok200)
      | none =>
        match create now d (createdInput userData) with
        | .ok r => (r.1, ok200)
        | .error e => (d, .threw e)
  else if body.type = some "user.updated" then
    match extractUserData body with
    | none => (d, ok200)
    | some updatedUserData =>
      match findByClerkId d updatedUserData.clerkId with
      | none => (d, ok200)
      | some user =>
        match save now d user (applyUpdate user updatedUserData) with
        | .ok d' => (d', ok200)
        | .error e => (d, .threw e)
  else if body.type = some "user.deleted" then
    match extractUserData body with
    | none => (d, ok200)
    | some deletedUserData =>
      match findByClerkId d deletedUserData.clerkId with
      | none => (d, ok200)
      | some user =>
        match save now d user { user with isActive := false } with
        | .ok d' => (d', ok200)
        | .error e => (d, .threw e)
  else (d, ok200)

/-! ## Authentication middleware (`middleware/auth.js`) -/

/-- The decoded payload of a verified token: the two claims the middleware reads. -/
structure DecodedToken where
  sub : Option String
  user_id : Option String
  deriving DecidableEq, Repr

/-- Process configuration and the token verifier. `jwtVerify token secret` stands for
`jwt.verify(token, secret, { algorithms: ['HS256'] })`: it returns the decoded payload or
throws an error, of which the model keeps `error.name`. -/
structure AuthConfig where
  CLERK_SECRET_KEY : Option String
  jwtVerify : String → String → Except String DecodedToken

/-- The parts of the Express request the middleware reads and writes. -/
structure Request where
  authorization : Option String
  user : Option User
  clerkId : Option String
  deriving DecidableEq, Repr

/-- What a middleware did: it sent a response, or it called `next()` with the request. -/
inductive MiddlewareResult where
  | json (status : Nat) (body : JsonBody)
  | next (req : Request)
  deriving DecidableEq, Repr

/-- A failure response `{ success: false, message }`. -/
def failure (status : Nat) (message : String) : MiddlewareResult :=
  .json status { success := false, message := some message }

/-- The test `authHeader.startsWith('Bearer ')`. -/
def startsWithBearer (authHeader : String) : Bool :=
  "Bearer ".data.isPrefixOf authHeader.data

/-- The expression `authHeader.substring(7)`. -/
def substring7 (authHeader : String) : String :=
  String.mk (authHeader.data.drop 7)

/-- The middleware `verifyToken`. -/
def verifyToken (cfg : AuthConfig) (d : Directory) (req : Request) : MiddlewareResult :=
  match req.authorization with
  | none => failure 401 "Access token required"
  | some authHeader =>
    if !startsWithBearer authHeader then failure 401 "Access token required"
    else
      let token := substring7 authHeader
      match cfg.CLERK_SECRET_KEY with
      | none => failure 500 "Server configuration error"
      | some secret =>
        if secret = "" then failure 500 "Server configuration error"
        else
          match cfg.jwtVerify token secret with
          | .error name =>
            if name = "JsonWebTokenError" then failure 401 "Invalid token"
            else if name = "TokenExpiredError" then failure 401 "Token expired"
            else failure 500 "Authentication error"
          | .ok decoded =>
            let clerkId := orElse decoded.sub decoded.user_id
            if !truthy clerkId then failure 401 "Invalid token format"
            else
              match findByClerkId d clerkId with
              | none => failure 404 "User not found"
              | some user =>
                if !user.isActive then failure 403 "User account is deactivated"
                else .next { req with user := some user, clerkId := clerkId }

/-- The handler `deleteAccount`, reached behind `verifyToken`: a soft delete of `req.user`. -/
def deleteAccount (now : Int) (d : Directory) (req : Request) : Directory × HandlerResult :=
  match req.user with
  | none => (d, .threw .typeError)
  | some user =>
    match save now d user { user with isActive := false } with
    | .ok d' => (d', .json 200 { success := true, message := some "Account deleted successfully" })
    | .error e => (d, .threw e)

/-- A call a middleware makes to one of its collaborators: the token verifier, a read of the
directory, a write to it. -/
inductive Call where
  | jwtVerify (token secret : String)
  | findByClerkId (clerkId : Option String)
  | save (doc : User)
  deriving DecidableEq, Repr

/-- Whether the call writes to the directory. -/
def Call.isWrite (c : Call) : Bool :=
  match c with
  | .save _ => true
  | _ => false

/-- The middleware `verifyToken` together with the calls it makes, in order. -/
def verifyTokenRun (cfg : AuthConfig) (d : Directory) (req : Request) :
    List Call × MiddlewareResult :=
  match req.authorization with
  | none => ([], failure 401 "Access token required")
  | some authHeader =>
    if !startsWithBearer authHeader then ([], failure 401 "Access token required")
    else
      match cfg.CLERK_SECRET_KEY with
      | none => ([], failure 500 "Server configuration error")
      | some secret =>
        if secret = "" then ([], failure 500 "Server configuration error")
        else
          match cfg.jwtVerify (substring7 authHeader) secret with
          | .error name =>
            ([.jwtVerify (substring7 authHeader) secret],
             if name = "JsonWebTokenError" then failure 401 "Invalid token"
             else if name = "TokenExpiredError" then failure 401 "Token expired"
             else failure 500 "Authentication error")
          | .ok decoded =>
            if !truthy (orElse decoded.sub decoded.user_id) then
              ([.jwtVerify (substring7 authHeader) secret], failure 401 "Invalid token format")
            else
              ([.jwtVerify (substring7 authHeader) secret,
                .findByClerkId (orElse decoded.sub decoded.user_id)],
               match findByClerkId d (orElse decoded.sub decoded.user_id) with
               | none => failure 404 "User not found"
               | some user =>
                 if !user.isActive then failure 403 "User account is deactivated"
                 else .next { req with user := some user,
                                       clerkId := orElse decoded.sub decoded.user_id })

/-- The middleware `optionalAuth` together with the calls it makes, in order. Every early
exit and the `catch` block call `next()` with the request as it came in. -/
def optionalAuthRun (cfg : AuthConfig) (d : Directory) (req : Request) :
    List Call × MiddlewareResult :=
  match req.authorization with
  | none => ([], .next req)
  | some authHeader =>
    if !startsWithBearer authHeader then ([], .next req)
    else
      match cfg.CLERK_SECRET_KEY with
      | none => ([], .next req)
      | some secret =>
        if secret = "" then ([], .next req)
        else
          match cfg.jwtVerify (substring7 authHeader) secret with
          | .error _ => ([.jwtVerify (substring7 authHeader) secret], .next req)
          | .ok decoded =>
            if truthy (orElse decoded.sub decoded.user_id) then
              ([.jwtVerify (substring7 authHeader) secret,
                .findByClerkId (orElse decoded.sub decoded.user_id)],
               match findByClerkId d (orElse decoded.sub decoded.user_id) with
               | none => .next req
               | some user =>
                 if user.isActive then
                   .next { req with user := some user,
                                    clerkId := orElse decoded.sub decoded.user_id }
                 else .next req)
            else ([.jwtVerify (substring7 authHeader) secret], .next req)

/-- The middleware `optionalAuth`. -/
def optionalAuth (cfg : AuthConfig) (d : Directory) (req : Request) : MiddlewareResult :=
  (optionalAuthRun cfg d req).2

/-- The middleware `requireRole(roles)`. -/
def requireRole (roles : List String) (req : Request) : MiddlewareResult :=
  match req.user with
  | none => failure 401 "Authentication required"
  | some user =>
    if !roles.contains user.userType then failure 403 "Insufficient permissions"
    else .next req

/-- The middleware `requireVerifiedNGO`. The test `!req.user.ngoDetails?.verified` passes
unless the flag is `true`. -/
def requireVerifiedNGO (req : Request) : MiddlewareResult :=
  match req.user with
  | none => failure 401 "Authentication required"
  | some user =>
    if user.userType != "ngo" then failure 403 "NGO access required"
    else if user.ngoDetails.verified != some true then failure 403 "NGO verification required"
    else .next req

/-- The request authenticates as `user` with subject `subject`: the header carries a bearer
credential, the secret is configured, the verifier accepts the credential, its claims give
the non-empty subject, and the directory holds an active record for it. -/
def Authenticates (cfg : AuthConfig) (d : Directory) (req : Request) (user : User)
    (subject : String) : Prop :=
  ∃ authHeader secret decoded,
    req.authorization = some authHeader ∧ startsWithBearer authHeader = true ∧
    cfg.CLERK_SECRET_KEY = some secret ∧ secret ≠ "" ∧
    cfg.jwtVerify (substring7 authHeader) secret = .ok decoded ∧
    orElse decoded.sub decoded.user_id = some subject ∧ subject ≠ "" ∧
    findByClerkId d (some subject) = some user ∧ user.isActive = true

/-! ## Further store operations and controllers (`models/User.js`, `authController.js`,
`userController.js`) -/

/-- `User.findByEmail(email)`, that is `findOne({ email: email.toLowerCase() })`; the filter
value is cast through the setters of the `email` path. -/
def findByEmail [CaseMapping] (d : Directory) (email : String) : Option User :=
  d.find? (fun u => u.email == setEmail (toLowerCase email))

/-- `User.findById(id)`. -/
def findById (d : Directory) (id : Nat) : Option User :=
  d.find? (fun u => u._id == id)

/-- The in-memory document once `doc.save()` has succeeded: with a modified path it carries
the fresh `updatedAt`. -/
def saved (now : Int) (orig doc : User) : User :=
  if doc = orig then doc else { doc with updatedAt := now }

/-- `doc.save()` after a path that has a schema default was assigned `undefined`: the path is
unset, which counts as a modification whatever the path held, so the `$unset` and a fresh
`updatedAt` are always written. `doc` is the document as it reads afterwards, with the path
at its default. Validation runs first. -/
def saveUnset (now : Int) (d : Directory) (doc : User) : Except StoreError Directory :=
  if validate doc = false then .error .validationError
  else if d.all (fun v => v._id != doc._id) then .error .documentNotFound
  else .ok (d.map (fun v => if v._id = doc._id then { doc with updatedAt := now } else v))

/-- The method `updateLastActivity`: set `lastActivity` to the clock and `save`. Returns the
new directory and the in-memory document. -/
def updateLastActivity (now : Int) (d : Directory) (user : User) :
    Except StoreError (Directory × User) :=
  match save now d user { user with lastActivity := some now } with
  | .ok d' => .ok (d', saved now user { user with lastActivity := some now })
  | .error e => .error e

/-- The `data` object of a controller's response; a property the handler leaves out, or sets
to `undefined`, is `none`. -/
structure DataView where
  id : Option Nat
  clerkId : Option String
  firstName : Option String
  lastName : Option String
  email : Option String
  userType : Option String
  emailVerified : Option Bool
  profile : Option Profile
  ngoDetails : Option NgoDetails
  donorDetails : Option DonorDetails
  lastLogin : Option Int
  createdAt : Option Int
  isActive : Option Bool
  organizationName : Option String
  verified : Option Bool
  deriving DecidableEq, Repr

/-- A `data` object without any property. -/
def emptyView : DataView :=
  { id := none, clerkId := none, firstName := none, lastName := none, email := none,
    userType := none, emailVerified := none, profile := none, ngoDetails := none,
    donorDetails := none, lastLogin := none, createdAt := none, isActive := none,
    organizationName := none, verified := none }

/-- What a controller that answers with a `data` object did: it sent
`res.status(s).json({ success, message, data })`, or its promise rejected. -/
inductive Reply where
  | json (status : Nat) (body : JsonBody) (data : Option DataView)
  | threw (e : StoreError)
  deriving DecidableEq, Repr

/-- The expression `user.userType === 'ngo' ? user.ngoDetails : undefined`. -/
def ngoDetailsView (user : User) : Option NgoDetails :=
  if user.userType = "ngo" then some user.ngoDetails else none

/-- The expression `user.userType === 'donor' ? user.donorDetails : undefined`. -/
def donorDetailsView (user : User) : Option DonorDetails :=
  if user.userType = "donor" then some user.donorDetails else none

/-- The body of `POST /api/auth/signup`. -/
structure SignupBody where
  clerkId : Option String
  firstName : Option String
  lastName : Option String
  email : Option String
  userType : Option String
  deriving DecidableEq, Repr

/-- The argument of `User.create` in `handleSignup`. -/
def signupInput (body : SignupBody) : UserInput :=
  { clerkId := body.clerkId, firstName := body.firstName, lastName := body.lastName,
    email := body.email, userType := body.userType, emailVerified := some false,
    createdAt := none, updatedAt := none }

/-- The handler `handleSignup`. With `email` absent, `email.toLowerCase()` throws. All clock
reads of one request return the same instant. -/
def handleSignup [CaseMapping] (now : Int) (d : Directory) (body : SignupBody) :
    Directory × Reply :=
  match findByClerkId d body.clerkId with
  | some _ => (d, .json 400 { success := false, message := some "User already exists" } none)
  | none =>
    match body.email with
    | none => (d, .threw .typeError)
    | some email =>
      match findByEmail d email with
      | some _ =>
        (d, .json 400 { success := false, message := some "Email already registered" } none)
      | none =>
        match create now d (signupInput body) with
        | .error e => (d, .threw e)
        | .ok r =>
          match updateLastActivity now r.1 r.2 with
          | .error e => (r.1, .threw e)
          | .ok r' =>
            (r'.1, .json 201 { success := true, message := some "User created successfully" }
              (some { emptyView with
                id := some r'.2._id, clerkId := some r'.2.clerkId,
                firstName := some r'.2.firstName, lastName := r'.2.lastName,
                email := some r'.2.email, userType := some r'.2.userType,
                emailVerified := some r'.2.emailVerified }))

/-- The document `handleSignin` saves: `user.lastLogin = new Date()`, then the assignment of
`updateLastActivity`. -/
def signedIn (now : Int) (user : User) : User :=
  { user with lastLogin := some now, lastActivity := some now }

/-- The handler `handleSignin`: the body carries `clerkId`. Both assignments are written by
the one `save` of `updateLastActivity`. -/
def handleSignin (now : Int) (d : Directory) (clerkId : Option String) : Directory × Reply :=
  match findByClerkId d clerkId with
  | none => (d, .json 404 { success := false, message := some "User not found" } none)
  | some user =>
    if !user.isActive then
      (d, .json 403 { success := false, message := some "Account is deactivated" } none)
    else
      match save now d user (signedIn now user) with
      | .error e => (d, .threw e)
      | .ok d' =>
        (d', .json 200 { success := true, message := some "Sign in successful" }
          (some { emptyView with
            id := some user._id, clerkId := some user.clerkId,
            firstName := some user.firstName, lastName := user.lastName,
            email := some user.email, userType := some user.userType,
            emailVerified := some user.emailVerified, profile := some user.profile,
            ngoDetails := ngoDetailsView user, donorDetails := donorDetailsView user }))

/-- The handler `getProfile`, reached behind `verifyToken`. -/
def getProfile (req : Request) : Reply :=
  match req.user with
  | none => .threw .typeError
  | some user =>
    .json 200 { success := true, message := none }
      (some { emptyView with
        id := some user._id, clerkId := some user.clerkId,
        firstName := some user.firstName, lastName := user.lastName,
        email := some user.email, userType := some user.userType,
        emailVerified := some user.emailVerified, profile := some user.profile,
        ngoDetails := ngoDetailsView user, donorDetails := donorDetailsView user,
        lastLogin := user.lastLogin, createdAt := some user.createdAt })

/-- The `profile` object of an `updateProfile` body: `none` is a property the body does not
carry. -/
structure ProfilePatch where
  phone : Option (Option String)
  address : Option Address
  avatar : Option (Option String)
  bio : Option (Option String)
  deriving DecidableEq, Repr

/-- The `ngoDetails` object of an `updateProfile` body. -/
structure NgoDetailsPatch where
  organizationName : Option (Option String)
  registrationNumber : Option (Option String)
  website : Option (Option String)
  mission : Option (Option String)
  foundedYear : Option (Option Int)
  category : Option (Option String)
  verified : Option (Option Bool)
  documents : Option (List NgoDocument)
  deriving DecidableEq, Repr

/-- The `donorDetails` object of an `updateProfile` body. -/
structure DonorDetailsPatch where
  preferredCategories : Option (List String)
  totalDonations : Option (Option Int)
  anonymousDonations : Option (Option Bool)
  deriving DecidableEq, Repr

/-- The body of `PUT /api/auth/profile`. -/
structure UpdateProfileBody where
  firstName : Option String
  lastName : Option String
  profile : Option ProfilePatch
  ngoDetails : Option NgoDetailsPatch
  donorDetails : Option DonorDetailsPatch
  deriving DecidableEq, Repr

/-- The spread `{ ...user.profile, ...profile }`. -/
def mergeProfile (cur : Profile) (p : ProfilePatch) : Profile :=
  { phone := p.phone.getD cur.phone, address := p.address.getD cur.address,
    avatar := p.avatar.getD cur.avatar, bio := p.bio.getD cur.bio }

/-- The spread `{ ...user.ngoDetails, ...ngoDetails }`. -/
def mergeNgoDetails (cur : NgoDetails) (p : NgoDetailsPatch) : NgoDetails :=
  { organizationName := p.organizationName.getD cur.organizationName,
    registrationNumber := p.registrationNumber.getD cur.registrationNumber,
    website := p.website.getD cur.website, mission := p.mission.getD cur.mission,
    foundedYear := p.foundedYear.getD cur.foundedYear,
    category := p.category.getD cur.category, verified := p.verified.getD cur.verified,
    documents := p.documents.getD cur.documents }

/-- The spread `{ ...user.donorDetails, ...donorDetails }`. -/
def mergeDonorDetails (cur : DonorDetails) (p : DonorDetailsPatch) : DonorDetails :=
  { preferredCategories := p.preferredCategories.getD cur.preferredCategories,
    totalDonations := p.totalDonations.getD cur.totalDonations,
    anonymousDonations := p.anonymousDonations.getD cur.anonymousDonations }

/-- The assignments `if (firstName) ...`, `if (lastName) ...`, `if (profile) ...`. -/
def assignBasics (user : User) (body : UpdateProfileBody) : User :=
  { user with
    firstName := if truthy body.firstName then trim (orEmpty body.firstName) else user.firstName,
    lastName := if truthy body.lastName then some (trim (orEmpty body.lastName))
                else user.lastName,
    profile := match body.profile with
      | some p => mergeProfile user.profile p
      | none => user.profile }

/-- The assignments of the role-specific details, each guarded by the user's `userType`. -/
def assignRoleDetails (user : User) (body : UpdateProfileBody) : User :=
  { user with
    ngoDetails := match body.ngoDetails with
      | some p => if user.userType = "ngo" then mergeNgoDetails user.ngoDetails p
                  else user.ngoDetails
      | none => user.ngoDetails,
    donorDetails := match body.donorDetails with
      | some p => if user.userType = "donor" then mergeDonorDetails user.donorDetails p
                  else user.donorDetails
      | none => user.donorDetails }

/-- The handler `updateProfile`, reached behind `verifyToken`: the assignments, `save`, then
`updateLastActivity`. -/
def updateProfile (now : Int) (d : Directory) (req : Request) (body : UpdateProfileBody) :
    Directory × Reply :=
  match req.user with
  | none => (d, .threw .typeError)
  | some user =>
    match save now d user (assignRoleDetails (assignBasics user body) body) with
    | .error e => (d, .threw e)
    | .ok d1 =>
      match updateLastActivity now d1
          (saved now user (assignRoleDetails (assignBasics user body) body)) with
      | .error e => (d1, .threw e)
      | .ok r =>
        (r.1, .json 200 { success := true, message := some "Profile updated successfully" }
          (some { emptyView with
            id := some r.2._id, firstName := some r.2.firstName, lastName := r.2.lastName,
            profile := some r.2.profile,
            ngoDetails := ngoDetailsView r.2, donorDetails := donorDetailsView r.2 }))

/-- The handler `updateEmailVerification`: `user.emailVerified = emailVerified`, then `save`.
An absent `emailVerified` unsets the path, which then reads as its default `false`. -/
def updateEmailVerification (now : Int) (d : Directory) (req : Request)
    (emailVerified : Option Bool) : Directory × Reply :=
  match req.user with
  | none => (d, .threw .typeError)
  | some user =>
    match (match emailVerified with
           | some b => save now d user { user with emailVerified := b }
           | none => saveUnset now d { user with emailVerified := false }) with
    | .error e => (d, .threw e)
    | .ok d' =>
      (d', .json 200 { success := true, message := some "Email verification status updated" }
        (some { emptyView with emailVerified := emailVerified }))

/-- The handler `verifyNGO`: `findOne({ _id, userType: 'ngo' })`, then the flag is assigned
from the body and saved. An absent `verified` unsets the path, which then reads as its default
`false`. -/
def verifyNGO (now : Int) (d : Directory) (id : Nat) (verified : Option Bool) :
    Directory × Reply :=
  match d.find? (fun u => u._id == id && u.userType == "ngo") with
  | none => (d, .json 404 { success := false, message := some "NGO not found" } none)
  | some ngo =>
    match (match verified with
           | some b =>
             save now d ngo { ngo with ngoDetails := { ngo.ngoDetails with verified := some b } }
           | none =>
             saveUnset now d
               { ngo with ngoDetails := { ngo.ngoDetails with verified := some false } }) with
    | .error e => (d, .threw e)
    | .ok d' =>
      (d', .json 200
        { success := true,
          message := some (if verified = some true then "NGO verified successfully"
                           else "NGO unverified successfully") }
        (some { emptyView with id := some ngo._id,
                               organizationName := ngo.ngoDetails.organizationName,
                               verified := verified }))

/-- The handler `updateUserStatus`: `user.isActive = isActive`, then `save`. An absent
`isActive` unsets the path, which then reads as its default `true`. -/
def updateUserStatus (now : Int) (d : Directory) (id : Nat) (isActive : Option Bool) :
    Directory × Reply :=
  match findById d id with
  | none => (d, .json 404 { success := false, message := some "User not found" } none)
  | some user =>
    match (match isActive with
           | some b => save now d user { user with isActive := b }
           | none => saveUnset now d { user with isActive := true }) with
    | .error e => (d, .threw e)
    | .ok d' =>
      (d', .json 200
        { success := true,
          message := some (if isActive = some true then "User activated successfully"
                           else "User deactivated successfully") }
        (some { emptyView with id := some user._id, firstName := some user.firstName,
                               lastName := user.lastName, isActive := isActive }))

/-! ## Admin routes (`routes/users.js`) -/

/-- What a route did with a request: a middleware answered it, or the handler ran. -/
inductive RouteResult where
  | rejected (status : Nat) (body : JsonBody)
  | handled (r : Reply)
  deriving DecidableEq, Repr

/-- A route `router.verb(path, verifyToken, requireRole(['admin']), handler)`: the chain of
the four admin routes (`getAllUsers`, `getUserStats`, `verifyNGO`, `updateUserStatus`). -/
def adminRoute (cfg : AuthConfig) (handler : Directory → Request → Directory × Reply)
    (d : Directory) (req : Request) : Directory × RouteResult :=
  match verifyToken cfg d req with
  | .json status body => (d, .rejected status body)
  | .next req1 =>
    match requireRole ["admin"] req1 with
    | .json status body => (d, .rejected status body)
    | .next req2 => ((handler d req2).1, .handled (handler d req2).2)

/-! ## Vocabulary of the invariants -/

/-- Every stored address is a fixed point of the setters of the `email` path. -/
def EmailsNormalised [CaseMapping] (d : Directory) : Prop :=
  ∀ u ∈ d, setEmail u.email = u.email

/-- Every record of `d` is still there in `d'`, at its place, with the same value of `g`. -/
def Keeps {α : Type} (g : User → α) (d d' : Directory) : Prop :=
  ∀ (i : Nat) (v : User), d[i]? = some v → ∃ v', d'[i]? = some v' ∧ g v' = g v

/-- The identity of a record: its `_id`, its `clerkId` and its `userType`. -/
def identityOf (u : User) : Nat × String × String :=
  (u._id, u.clerkId, u.userType)

/-- A response exposes the role-specific details of the user's own role only. -/
def ExposesOwnRoleOnly (userType : String) (view : DataView) : Prop :=
  (view.ngoDetails ≠ none → userType = "ngo") ∧
  (view.donorDetails ≠ none → userType = "donor") ∧
  (view.ngoDetails = none ∨ view.donorDetails = none)

/-- The kinds of failure the middlewares of `middleware/auth.js` answer with. -/
inductive FailureKind where
  | missingCredential
  | configurationError
  | invalidToken
  | expiredToken
  | authenticationError
  | missingSubject
  | unknownIdentity
  | accountDeactivated
  | unauthenticated
  | insufficientRole
  | notAnNgo
  | ngoNotVerified
  deriving DecidableEq, Repr

/-- The `message` the source sends for each kind of failure. -/
def FailureKind.reason (k : FailureKind) : String :=
  match k with
  | .missingCredential => "Access token required"
  | .configurationError => "Server configuration error"
  | .invalidToken => "Invalid token"
  | .expiredToken => "Token expired"
  | .authenticationError => "Authentication error"
  | .missingSubject => "Invalid token format"
  | .unknownIdentity => "User not found"
  | .accountDeactivated => "User account is deactivated"
  | .unauthenticated => "Authentication required"
  | .insufficientRole => "Insufficient permissions"
  | .notAnNgo => "NGO access required"
  | .ngoNotVerified => "NGO verification required"

/-! ## Independent events -/

/-- A record without its store-assigned `_id`. -/
def forgetId (u : User) : User :=
  { u with _id := 0 }

/-- The two directories hold the same records, up to the order of insertion and the
store-assigned `_id`. -/
def SameRecords (d d' : Directory) : Prop :=
  (d.map forgetId).Perm (d'.map forgetId)

/-- The id a lifecycle event is about: `data.id`. -/
def eventId (b : WebhookBody) : Option String :=
  b.data.bind (fun x => x.id)

/-- The addresses a lifecycle event touches in `d`: the address stored for its id, and for a
`user.created` or `user.updated` event the address of the payload after the setters. -/
def touchedEmails [CaseMapping] (d : Directory) (b : WebhookBody) : List String :=
  (match findByClerkId d (eventId b) with
   | some r => [r.email]
   | none => []) ++
  (if b.type = some "user.created" ∨ b.type = some "user.updated" then
     (b.data.map (fun x => setEmail (firstEmail x))).toList
   else [])

/-- The directory after the documents with `_id = i` were replaced by `r`. -/
def replaceId (i : Nat) (r : User) (d : Directory) : Directory :=
  d.map (fun v => if v._id = i then r else v)

/-- The `user.created` case of `handleWebhook` for the extracted data `ud`, on the
directory. -/
def insertStep [CaseMapping] (now : Int) (d : Directory) (ud : UserData) : Directory :=
  match findByClerkId d ud.clerkId with
  | some _ => d
  | none =>
    match create now d (createdInput ud) with
    | .ok r => r.1
    | .error _ => d

/-- The `user.updated` and `user.deleted` cases of `handleWebhook` on the directory: the
record found for `c` is assigned to by `f` and saved. -/
def modifyStep (now : Int) (d : Directory) (c : Option String) (f : User → User) : Directory :=
  match findByClerkId d c with
  | none => d
  | some r =>
    match save now d r (f r) with
    | .ok d' => d'
    | .error _ => d

/-! ## Concurrent create calls -/

/-- What a create call answered: the reply of `handleSignup`, or the result of
`handleWebhook`. -/
inductive Outcome where
  | reply (r : Reply)
  | result (r : HandlerResult)
  deriving DecidableEq, Repr

/-- Where a `handleSignup` call stands: before `await User.findByClerkId(clerkId)`, before
`await User.findByEmail(email)`, before `await User.create(...)`, before
`await user.updateLastActivity()` with the created document in hand, or finished. -/
inductive SignupProgress where
  | start
  | idChecked
  | checked
  | inserted (user : User)
  | done (r : Reply)
  deriving DecidableEq, Repr

/-- Where the `user.created` case of a `handleWebhook` call stands: before
`await User.findByClerkId(userData.clerkId)`, before `await User.create(...)`, or finished. -/
inductive CreatedProgress where
  | start
  | checked
  | done (r : HandlerResult)
  deriving DecidableEq, Repr

/-- A create call: `handleSignup` with its body, or `handleWebhook` with a `user.created`
event. -/
inductive CreateCall where
  | signup (body : SignupBody)
  | created (body : WebhookBody)
  deriving DecidableEq, Repr

/-- A create call in flight. -/
inductive InFlight where
  | signup (body : SignupBody) (p : SignupProgress)
  | created (body : WebhookBody) (p : CreatedProgress)
  deriving DecidableEq, Repr

/-- The call as it arrives. -/
def CreateCall.start (call : CreateCall) : InFlight :=
  match call with
  | .signup body => .signup body .start
  | .created body => .created body .start

/-- The `clerkId` the call is about: `req.body.clerkId`, or `data.id` of the event. -/
def CreateCall.clerkId (call : CreateCall) : Option String :=
  match call with
  | .signup body => body.clerkId
  | .created body => eventId body

/-- The call processed on its own: the new directory and the answer. -/
def CreateCall.alone [CaseMapping] (call : CreateCall) (now : Int) (d : Directory) :
    Directory × Outcome :=
  match call with
  | .signup body => ((handleSignup now d body).1, .reply (handleSignup now d body).2)
  | .created body => ((handleWebhook now d body).1, .result (handleWebhook now d body).2)

/-- The call an in-flight call came from. -/
def InFlight.call (s : InFlight) : CreateCall :=
  match s with
  | .signup body _ => .signup body
  | .created body _ => .created body

/-- The answer of a finished call. -/
def InFlight.outcome (s : InFlight) : Option Outcome :=
  match s with
  | .signup _ (.done r) => some (.reply r)
  | .created _ (.done r) => some (.result r)
  | _ => none

/-- `handleSignup` from one `await` to the next, on the directory as it is at that moment.
`User.create` tests the unique indexes and inserts in one step. -/
def stepSignup [CaseMapping] (now : Int) (d : Directory) (body : SignupBody)
    (p : SignupProgress) : Directory × SignupProgress :=
  match p with
  | .start =>
    match findByClerkId d body.clerkId with
    | some _ =>
      (d, .done (.json 400 { success := false, message := some "User already exists" } none))
    | none => (d, .idChecked)
  | .idChecked =>
    match body.email with
    | none => (d, .done (.threw .typeError))
    | some email =>
      match findByEmail d email with
      | some _ =>
        (d, .done (.json 400 { success := false, message := some "Email already registered" }
          none))
      | none => (d, .checked)
  | .checked =>
    match create now d (signupInput body) with
    | .error e => (d, .done (.threw e))
    | .ok r => (r.1, .inserted r.2)
  | .inserted user =>
    match updateLastActivity now d user with
    | .error e => (d, .done (.threw e))
    | .ok r' =>
      (r'.1, .done (.json 201 { success := true, message := some "User created successfully" }
        (some { emptyView with
          id := some r'.2._id, clerkId := some r'.2.clerkId,
          firstName := some r'.2.firstName, lastName := r'.2.lastName,
          email := some r'.2.email, userType := some r'.2.userType,
          emailVerified := some r'.2.emailVerified })))
  | .done r => (d, .done r)

/-- The `user.created` case of `handleWebhook` from one `await` to the next. -/
def stepCreated [CaseMapping] (now : Int) (d : Directory) (body : WebhookBody)
    (p : CreatedProgress) : Directory × CreatedProgress :=
  match p with
  | .start =>
    match extractUserData body with
    | none => (d, .done ok200)
    | some userData =>
      match findByClerkId d userData.clerkId with
      | some _ => (d, .done ok200)
      | none => (d, .checked)
  | .checked =>
    match extractUserData body with
    | none => (d, .done ok200)
    | some userData =>
      match create now d (createdInput userData) with
      | .ok r => (r.1, .done ok200)
      | .error e => (d, .done (.threw e))
  | .done r => (d, .done r)

/-- An in-flight call runs up to its next `await`. -/
def InFlight.step [CaseMapping] (now : Int) (d : Directory) (s : InFlight) :
    Directory × InFlight :=
  match s with
  | .signup body p => ((stepSignup now d body p).1, .signup body (stepSignup now d body p).2)
  | .created body p => ((stepCreated now d body p).1, .created body (stepCreated now d body p).2)

/-- One scheduling decision for two calls on the shared directory: the first call runs up to
its next `await` (`true`), or the second one does. The first call reads the clock as `now1`,
the second as `now2`. -/
def raceStep [CaseMapping] (now1 now2 : Int) (s : Directory × InFlight × InFlight)
    (first : Bool) : Directory × InFlight × InFlight :=
  if first then ((s.2.1.step now1 s.1).1, (s.2.1.step now1 s.1).2, s.2.2)
  else ((s.2.2.step now2 s.1).1, s.2.1, (s.2.2.step now2 s.1).2)

/-- Two calls under a schedule, an interleaving of their steps. -/
def race [CaseMapping] (now1 now2 : Int) (schedule : List Bool)
    (s : Directory × InFlight × InFlight) : Directory × InFlight × InFlight :=
  schedule.foldl (raceStep now1 now2) s

/-- The call, processed on its own, creates its record: `handleSignup` answers 201, the
`user.created` event inserts. -/
def CreateCall.CreatesAlone [CaseMapping] (call : CreateCall) (now : Int) (d : Directory) :
    Prop :=
  match call with
  | .signup body =>
    ∃ data, (handleSignup now d body).2 =
      .json 201 { success := true, message := some "User created successfully" } data
  | .created body => body.type = some "user.created" ∧ (handleWebhook now d body).1 ≠ d

/-- The answers of a call that did not create: for `handleSignup` the two duplicate replies
and the duplicate-key error of the store; for the webhook the duplicate-key error, and
`200 { success: true }`, which it also sends when it finds the record and inserts nothing. -/
def CreateCall.Lost (call : CreateCall) (o : Outcome) : Prop :=
  match call with
  | .signup _ =>
    o = .reply (.json 400 { success := false, message := some "User already exists" } none) ∨
    o = .reply (.json 400 { success := false, message := some "Email already registered" }
      none) ∨
    o = .reply (.threw .duplicateKey)
  | .created _ => o = .result ok200 ∨ o = .result (.threw .duplicateKey)

/-- The call has not reached its insert. -/
def InFlight.pending (s : InFlight) : Bool :=
  match s with
  | .signup _ .start => true
  | .signup _ .idChecked => true
  | .signup _ .checked => true
  | .created _ .start => true
  | .created _ .checked => true
  | _ => false

/-- How far the call is: 4 when it is finished. -/
def InFlight.rank (s : InFlight) : Nat :=
  match s with
  | .signup _ .start => 0
  | .signup _ .idChecked => 1
  | .signup _ .checked => 2
  | .signup _ (.inserted _) => 3
  | .signup _ (.done _) => 4
  | .created _ .start => 2
  | .created _ .checked => 3
  | .created _ (.done _) => 4

/-- On the directory `d`, the call for `clerkId = c` finds no record and its insert would go
through. -/
def Ready [CaseMapping] (now : Int) (d : Directory) (c : String) (call : CreateCall) : Prop :=
  findByClerkId d (some c) = none ∧ call.clerkId = some c ∧
  match call with
  | .signup body =>
    ∃ e u, body.email = some e ∧ findByEmail d e = none ∧
      create now d (signupInput body) = .ok (d ++ [u], u) ∧ u.clerkId = c
  | .created body =>
    body.type = some "user.created" ∧
    ∃ ud u, extractUserData body = some ud ∧ ud.clerkId = some c ∧
      create now d (createdInput ud) = .ok (d ++ [u], u) ∧ u.clerkId = c

/-- The call has inserted: it holds its created document while `D` is the directory after
the insert, or it has finished as it does on its own. -/
def Winning [CaseMapping] (now : Int) (d : Directory) (call : CreateCall) (D : Directory)
    (s : InFlight) : Prop :=
  (∃ body u, call = .signup body ∧ s = .signup body (.inserted u) ∧
    create now d (signupInput body) = .ok (D, u)) ∨
  (s.call = call ∧ ∃ o, s.outcome = some o ∧ (D, o) = call.alone now d)

/-- The call has not inserted and will not: it is before its insert, or it has finished with
one of the answers of `Lost`. -/
def Beaten (call : CreateCall) (s : InFlight) : Prop :=
  s.call = call ∧ (s.pending = true ∨ ∃ o, s.outcome = some o ∧ call.Lost o)

/-- The invariant of a race of `a` and `b` for the same `clerkId`, from the directory `d`:
nobody has inserted yet, or `a` has and `b` cannot, or `b` has and `a` cannot. -/
def RaceInv [CaseMapping] (now1 now2 : Int) (d : Directory) (c : String) (a b : CreateCall)
    (s : Directory × InFlight × InFlight) : Prop :=
  (s.1 = d ∧ s.2.1.call = a ∧ s.2.1.pending = true ∧ s.2.2.call = b ∧
    s.2.2.pending = true) ∨
  (Winning now1 d a s.1 s.2.1 ∧ Beaten b s.2.2 ∧ ∃ w ∈ s.1, w.clerkId = c) ∨
  (Winning now2 d b s.1 s.2.2 ∧ Beaten a s.2.1 ∧ ∃ w ∈ s.1, w.clerkId = c)

/-! ## Sample data -/

/-- The case mapping on ASCII text: `A`..`Z` go to `a`..`z`, every other code point is kept.
The sample data below are ASCII, where `String.prototype.toLowerCase` does just this. -/
instance asciiCaseMapping : CaseMapping :=
  ⟨fun s => String.mk (s.data.map Char.toLower)⟩

/-- A lifecycle payload for Ann, as in the scenario of the specification. -/
def annData : ClerkUser :=
  { id := some "ext_1",
    email_addresses := some [{ email_address := some "a@x.com",
                               verification := some { status := some "verified" } }],
    first_name := some "Ann", last_name := none,
    created_at := some 1000, updated_at := some 1000 }

/-- The record the `user.created` event for Ann produces in an empty directory. -/
def annUser : User :=
  { _id := 1, clerkId := "ext_1", firstName := "Ann", lastName := some "",
    email := "a@x.com", userType := "donor", emailVerified := true,
    profile := defaultProfile, ngoDetails := defaultNgoDetails,
    donorDetails := defaultDonorDetails, isActive := true,
    lastLogin := none, lastActivity := none, createdAt := 1000000, updatedAt := 1000000 }

/-- The `user.created` event for Ann. -/
def annCreated : WebhookBody :=
  { type := some "user.created", data := some annData }

/-- A `user.deleted` event for Ann: only the id is delivered. -/
def annDeleted : WebhookBody :=
  { type := some "user.deleted",
    data := some { id := some "ext_1", email_addresses := none, first_name := none,
                   last_name := none, created_at := none, updated_at := none } }

/-- A request carrying a bearer credential for Ann. -/
def annRequest : Request :=
  { authorization := some "Bearer t:ext_1", user := none, clerkId := none }

/-- Ann's payload with an empty id. -/
def emptyIdData : ClerkUser :=
  { annData with id := some "" }

/-- Ann's payload with a first name made of one blank. -/
def blankNameData : ClerkUser :=
  { annData with first_name := some " " }

/-- Ann's payload without `created_at`. -/
def undatedData : ClerkUser :=
  { annData with created_at := none }

/-- Ann's payload with padding and capitals in the names and the address. -/
def paddedData : ClerkUser :=
  { annData with
    email_addresses := some [{ email_address := some " Ann@X.com",
                               verification := some { status := some "verified" } }],
    first_name := some "Ann ", last_name := some " Lee" }

/-- A `user.updated` event for Ann with padding and capitals in the payload. -/
def annUpdated : WebhookBody :=
  { type := some "user.updated", data := some paddedData }

/-- An NGO record whose verification flag is still `false`. -/
def ngoUser : User :=
  { annUser with _id := 2, clerkId := "ext_2", firstName := "Hope", email := "hope@ngo.org",
                 userType := "ngo", emailVerified := true }

/-- The NGO record once verified. -/
def verifiedNgoUser : User :=
  { ngoUser with ngoDetails := { ngoUser.ngoDetails with verified := some true } }

/-- A request to which a user has been attached. -/
def requestOf (user : User) : Request :=
  { authorization := none, user := some user, clerkId := some user.clerkId }

/-- A request without an `Authorization` header. -/
def anonymousRequest : Request :=
  { authorization := none, user := none, clerkId := none }

/-- An `updateProfile` body that carries nothing but `ngoDetails.verified = true`. -/
def selfVerifyBody : UpdateProfileBody :=
  { firstName := none, lastName := none, profile := none,
    ngoDetails := some { organizationName := none, registrationNumber := none, website := none,
                         mission := none, foundedYear := none, category := none,
                         verified := some (some true), documents := none },
    donorDetails := none }

/-- A lifecycle payload whose `created_at` is beyond the range of a JavaScript date. -/
def farFutureData : ClerkUser :=
  { annData with created_at := some 10000000000000 }

/-- Bob's payload: another id, the same address as Ann. -/
def bobData : ClerkUser :=
  { annData with id := some "ext_3", first_name := some "Bob" }

/-- The `user.created` event for Bob, who registers Ann's address. -/
def bobCreated : WebhookBody :=
  { type := some "user.created", data := some bobData }

/-- A `user.created` event for Cy: another id and another address. -/
def cyCreated : WebhookBody :=
  { type := some "user.created",
    data := some { annData with id := some "ext_4", first_name := some "Cy",
                                email_addresses :=
                                  some [{ email_address := some "c@x.com",
                                          verification := none }] } }

/-- The sign-up of Ann, for the id and the address of her `user.created` event. -/
def annSignup : SignupBody :=
  { clerkId := some "ext_1", firstName := some "Ann", lastName := none,
    email := some "a@x.com", userType := some "donor" }

/-- A case mapping that also lower-cases the capital letters of Latin-1 (`À`..`Þ` without
`×`), as `String.prototype.toLowerCase` does; used to evaluate accented sample data. -/
def latin1CaseMapping : CaseMapping :=
  ⟨fun s => String.mk (s.data.map (fun c =>
    if 192 ≤ c.toNat ∧ c.toNat ≤ 222 ∧ c.toNat ≠ 215 then Char.ofNat (c.toNat + 32)
    else c.toLower))⟩

/-- A record whose address has an accented letter. -/
def elanUser : User :=
  { annUser with _id := 3, clerkId := "ext_5", firstName := "Élan", email := "élan@x.com" }

/-- A toy verifier: with the secret `"k"`, the token `"t:" ++ s` decodes to the subject `s`,
the token `"old"` is expired, and everything else is rejected. -/
def toyVerify (token secret : String) : Except String DecodedToken :=
  if secret != "k" then .error "JsonWebTokenError"
  else if token = "old" then .error "TokenExpiredError"
  else if "t:".data.isPrefixOf token.data then
    .ok { sub := some (String.mk (token.data.drop 2)), user_id := none }
  else .error "JsonWebTokenError"

/-- A verifier that finds every token not yet valid (`nbf` in the future): `jwt.verify` then
throws an error named `NotBeforeError`. -/
def notBeforeVerify (_token _secret : String) : Except String DecodedToken :=
  .error "NotBeforeError"

/-- A configuration with the secret set and the verifier `notBeforeVerify`. -/
def notBeforeConfig : AuthConfig :=
  { CLERK_SECRET_KEY := some "k", jwtVerify := notBeforeVerify }

/-- A verifier whose tokens carry both claims: `"a|b"` decodes to `sub = a`, `user_id = b`;
an empty part is an absent claim. -/
def pairVerify (token _secret : String) : Except String DecodedToken :=
  let parts := token.data.span (fun c => c != '|')
  let claim := fun (cs : List Char) => if cs.isEmpty then none else some (String.mk cs)
  .ok { sub := claim parts.1, user_id := claim (parts.2.drop 1) }

/-- A configuration with the secret set and the verifier `pairVerify`. -/
def pairConfig : AuthConfig :=
  { CLERK_SECRET_KEY := some "k", jwtVerify := pairVerify }

/-- A configuration with the secret set and the toy verifier. -/
def toyConfig : AuthConfig :=
  { CLERK_SECRET_KEY := some "k", jwtVerify := toyVerify }

end Backend

namespace Backend

/-! ## Store lemmas -/

theorem findByClerkId_some_clerkId {d : Directory} {c : Option String} {r : User}
    (h : findByClerkId d c = some r) : c = some r.clerkId := by
  cases c with
  | none => simp [findByClerkId] at h
  | some x =>
    have := List.find?_some h
    simp at this
    rw [this]

theorem findByClerkId_mem {d : Directory} {c : Option String} {r : User}
    (h : findByClerkId d c = some r) : r ∈ d := by
  cases c with
  | none => simp [findByClerkId] at h
  | some x => exact List.mem_of_find?_eq_some h

/-- Replacing the documents that carry the `_id` of the record found for a `clerkId` by a
document with the same `clerkId` makes that document the one found. -/
theorem findByClerkId_map_replace (d : Directory) (c : String) (r r' : User)
    (hf : findByClerkId d (some c) = some r) (hc : r'.clerkId = c) :
    findByClerkId (d.map (fun v => if v._id = r._id then r' else v)) (some c) = some r' := by
  unfold findByClerkId at hf ⊢
  simp only at hf ⊢
  induction d with
  | nil => simp at hf
  | cons v vs ih =>
    rw [List.find?_cons] at hf
    rw [List.map_cons, List.find?_cons]
    cases hv : (v.clerkId == c) with
    | true =>
      rw [hv] at hf
      simp only [Option.some.injEq] at hf
      subst hf
      simp [hc]
    | false =>
      rw [hv] at hf
      simp only at hf
      by_cases hid : v._id = r._id
      · simp [hid, hc]
      · simp only [hid, if_false, hv]
        exact ih hf

theorem save_same (now : Int) (d : Directory) (r : User) (h : validate r = true) :
    save now d r r = .ok d := by
  simp [save, h]

theorem save_error_indep {now : Int} {d : Directory} {r doc : User} {e : StoreError}
    (now' : Int) (h : save now d r doc = .error e) : save now' d r doc = .error e := by
  unfold save at h ⊢
  by_cases hv : validate doc = false
  · simpa [hv] using h
  · by_cases he : doc = r
    · subst he; simp [hv] at h
    · by_cases hn : (d.all (fun v => v._id != doc._id)) = true
      · simp only [hv, he, hn, if_true, if_false] at h ⊢
        exact h
      · by_cases hdup : (doc.email != r.email &&
            d.any (fun v => v._id != doc._id && v.email == doc.email)) = true
        · simp only [hv, he, hn, hdup, if_true, if_false] at h ⊢
          exact h
        · simp only [hv, he, hn, hdup, if_true, if_false] at h
          simp at h

/-- What a successful `save` wrote. -/
theorem save_ok {now : Int} {d d' : Directory} {r doc : User}
    (h : save now d r doc = .ok d') :
    validate doc = true ∧
      ((doc = r ∧ d' = d) ∨
       (doc ≠ r ∧ d' = d.map (fun v => if v._id = doc._id then { doc with updatedAt := now } else v))) := by
  unfold save at h
  split at h
  · simp at h
  · rename_i hv
    simp only [Bool.not_eq_false] at hv
    refine ⟨hv, ?_⟩
    split at h
    · rename_i he
      simp only [Except.ok.injEq] at h
      exact Or.inl ⟨he, h.symm⟩
    · rename_i he
      split at h
      · simp at h
      · split at h
        · simp at h
        · simp only [Except.ok.injEq] at h
          exact Or.inr ⟨he, h.symm⟩

/-- Deactivating a valid stored record always succeeds: an inactive record is left as it is,
an active one gets `isActive = false` and a fresh `updatedAt`. -/
theorem save_deactivate (now : Int) (d : Directory) (r : User)
    (hv : validate r = true) (hm : r ∈ d) :
    save now d r { r with isActive := false } =
      .ok (softDeleted now d r) := by
  unfold softDeleted
  have hv' : validate { r with isActive := false } = true := by
    simpa [validate] using hv
  cases hact : r.isActive with
  | false =>
    have : ({ r with isActive := false } : User) = r := by
      cases r; simp_all
    rw [this]
    simp [save_same now d r hv]
  | true =>
    have hne : ({ r with isActive := false } : User) ≠ r := by
      intro h
      have := congrArg User.isActive h
      simp [hact] at this
    have hnf : (d.all (fun v => v._id != r._id)) = false := by
      rw [Bool.eq_false_iff]
      intro hall
      rw [List.all_eq_true] at hall
      have := hall r hm
      simp at this
    unfold save
    simp [hv', hne, hnf]

/-! ## Lemmas on the webhook cases -/

/-- The `user.deleted` case on a valid stored record. -/
theorem handleWebhook_deleted_found [CaseMapping] (now : Int) (d : Directory) (body : WebhookBody)
    (data : ClerkUser) (r : User) (hv : validate r = true)
    (htype : body.type = some "user.deleted") (hdata : body.data = some data)
    (hfind : findByClerkId d data.id = some r) :
    handleWebhook now d body =
      (softDeleted now d r, ok200) := by
  have hm := findByClerkId_mem hfind
  simp [handleWebhook, htype, extractUserData, hdata, hfind, save_deactivate now d r hv hm]

/-- The record found for `c` after the `user.deleted` case ran on the record `r` found for
`c`. -/
theorem findByClerkId_after_deactivate (now : Int) (d : Directory) (c : String) (r : User)
    (hfind : findByClerkId d (some c) = some r) :
    ∃ r', findByClerkId (softDeleted now d r) (some c) = some r' ∧
      r'.isActive = false ∧ r'._id = r._id ∧ r'.clerkId = c := by
  unfold softDeleted
  have hc : r.clerkId = c := by
    have := findByClerkId_some_clerkId hfind
    simpa using this.symm
  cases hact : r.isActive with
  | false => exact ⟨r, by simpa using hfind, hact, rfl, hc⟩
  | true =>
    refine ⟨{ r with isActive := false, updatedAt := now }, ?_, rfl, rfl, hc⟩
    simpa using findByClerkId_map_replace d c r { r with isActive := false, updatedAt := now }
      hfind hc

/-- The value of `extractUserData` on a payload with a `data` object. -/
theorem extractUserData_some {body : WebhookBody} {data : ClerkUser}
    (h : body.data = some data) :
    extractUserData body =
      some { clerkId := data.id, email := firstEmail data,
             firstName := orEmpty data.first_name, lastName := orEmpty data.last_name,
             emailVerified := firstEmailVerified data,
             createdAt := dateOfSeconds data.created_at,
             updatedAt := dateOfSeconds data.updated_at } := by
  simp [extractUserData, h, firstEmail, firstEmailVerified]

/-- The `user.created` case never consults the clock: the payload supplies `createdAt`. -/
theorem create_createdInput_indep [CaseMapping] (now now' : Int) (d : Directory)
    (userData : UserData) :
    create now d (createdInput userData) = create now' d (createdInput userData) := by
  unfold create buildUser createdInput
  cases userData.clerkId <;> cases userData.createdAt <;> cases userData.updatedAt <;> simp

/-- What a successful `create` inserted. -/
theorem create_ok [CaseMapping] {now : Int} {d : Directory} {i : UserInput} {r : Directory × User}
    (h : create now d i = .ok r) :
    r.1 = d ++ [r.2] ∧ i.clerkId = some r.2.clerkId ∧ validate r.2 = true := by
  unfold create at h
  split at h
  · simp at h
  · rename_i u hb
    split at h
    · simp at h
    · rename_i hv
      split at h
      · simp at h
      · simp only [Except.ok.injEq] at h
        subst h
        refine ⟨rfl, ?_, by simpa using hv⟩
        unfold buildUser at hb
        split at hb
        · rename_i c f e t hc hf he ht
          split at hb
          · simp at hb
          · simp only [Option.some.injEq] at hb
            subst hb
            exact hc
        · simp at hb

theorem findByClerkId_append_new (d : Directory) (u : User)
    (h : findByClerkId d (some u.clerkId) = none) :
    findByClerkId (d ++ [u]) (some u.clerkId) = some u := by
  unfold findByClerkId at h ⊢
  simp only at h ⊢
  rw [List.find?_append, h]
  simp

/-- Saving the same assignments a second time writes nothing: after a successful `save` of
`f r`, the record found for the `clerkId` is a fixed point of `f`, and saving it again returns
the directory as it is. -/
theorem save_twice (f : User → User) (now now' : Int) (d d' : Directory) (c : String)
    (r : User)
    (hid : ∀ v, (f v)._id = v._id) (hcl : ∀ v, (f v).clerkId = v.clerkId)
    (hfix : ∀ v t, f { f v with updatedAt := t } = { f v with updatedAt := t })
    (hfind : findByClerkId d (some c) = some r)
    (hs : save now d r (f r) = .ok d') :
    ∃ r', findByClerkId d' (some c) = some r' ∧ save now' d' r' (f r') = .ok d' := by
  have hc : r.clerkId = c := by
    have := findByClerkId_some_clerkId hfind
    simpa using this.symm
  obtain ⟨hv, h | h⟩ := save_ok hs
  · obtain ⟨he, hd⟩ := h
    rw [hd]
    refine ⟨r, hfind, ?_⟩
    rw [he]
    rw [he] at hv
    exact save_same now' d r hv
  · obtain ⟨-, hd⟩ := h
    rw [hd]
    refine ⟨{ f r with updatedAt := now }, ?_, ?_⟩
    · have h := findByClerkId_map_replace d c r { f r with updatedAt := now } hfind
        (by simp [hcl r, hc])
      have hid' := hid r
      rw [← hid'] at h
      exact h
    · rw [hfix r now]
      apply save_same
      simpa [validate] using hv

theorem forall₂_frame_refl (id : Nat) (d : Directory) :
    List.Forall₂ (fun v v' : User => v._id ≠ id → v' = v) d d := by
  rw [List.forall₂_same]
  intro v _ _
  rfl

theorem forall₂_frame_map (id : Nat) (r' : User) (d : Directory) :
    List.Forall₂ (fun v v' : User => v._id ≠ id → v' = v) d
      (d.map (fun v => if v._id = id then r' else v)) := by
  rw [List.forall₂_map_right_iff, List.forall₂_same]
  intro v _ hne
  simp [hne]

/-! ## Schema validity is an invariant of the handlers -/

theorem schemaValid_nil : SchemaValid [] := by
  intro u hu
  simp at hu

theorem save_schemaValid {now : Int} {d d' : Directory} {r doc : User}
    (hd : SchemaValid d) (hs : save now d r doc = .ok d') : SchemaValid d' := by
  obtain ⟨hv, h | h⟩ := save_ok hs
  · rw [h.2]; exact hd
  · rw [h.2]
    intro u hu
    rw [List.mem_map] at hu
    obtain ⟨v, hv', rfl⟩ := hu
    split
    · simpa [validate] using hv
    · exact hd v hv'

theorem handleWebhook_schemaValid [CaseMapping] (now : Int) (d : Directory) (body : WebhookBody)
    (hd : SchemaValid d) : SchemaValid (handleWebhook now d body).1 := by
  unfold handleWebhook
  split
  · split
    · exact hd
    · split
      · exact hd
      · split
        · rename_i res hcr
          obtain ⟨h1, -, h3⟩ := create_ok hcr
          simp only [h1]
          intro u hu
          rw [List.mem_append, List.mem_singleton] at hu
          rcases hu with hu | hu
          · exact hd u hu
          · rw [hu]; exact h3
        · exact hd
  · split
    · split
      · exact hd
      · split
        · exact hd
        · split
          · rename_i d' hs
            exact save_schemaValid hd hs
          · exact hd
    · split
      · split
        · exact hd
        · split
          · exact hd
          · split
            · rename_i d' hs
              exact save_schemaValid hd hs
            · exact hd
      · exact hd

theorem deleteAccount_schemaValid (now : Int) (d : Directory) (req : Request)
    (hd : SchemaValid d) : SchemaValid (deleteAccount now d req).1 := by
  unfold deleteAccount
  split
  · exact hd
  · split
    · rename_i d' hs
      exact save_schemaValid hd hs
    · exact hd

/-! ## Lemmas on the middleware -/

/-- The traced `verifyToken` answers as `verifyToken` does. -/
theorem verifyTokenRun_result (cfg : AuthConfig) (d : Directory) (req : Request) :
    (verifyTokenRun cfg d req).2 = verifyToken cfg d req := by
  cases hauth : req.authorization with
  | none => simp [verifyTokenRun, verifyToken, hauth]
  | some authHeader =>
    cases hb : startsWithBearer authHeader with
    | false => simp [verifyTokenRun, verifyToken, hauth, hb]
    | true =>
      cases hsec : cfg.CLERK_SECRET_KEY with
      | none => simp [verifyTokenRun, verifyToken, hauth, hb, hsec]
      | some secret =>
        by_cases hne : secret = ""
        · simp [verifyTokenRun, verifyToken, hauth, hb, hsec, hne]
        · cases hdec : cfg.jwtVerify (substring7 authHeader) secret with
          | error name => simp [verifyTokenRun, verifyToken, hauth, hb, hsec, hne, hdec]
          | ok decoded =>
            cases ht : truthy (orElse decoded.sub decoded.user_id) <;>
              simp [verifyTokenRun, verifyToken, hauth, hb, hsec, hne, hdec, ht]

/-- The run of `verifyToken` on a bearer credential with the secret configured, when the
verifier throws. -/
theorem verifyTokenRun_error {cfg : AuthConfig} {req : Request} {authHeader secret name : String}
    (d : Directory)
    (hauth : req.authorization = some authHeader) (hb : startsWithBearer authHeader = true)
    (hsec : cfg.CLERK_SECRET_KEY = some secret) (hne : secret ≠ "")
    (hdec : cfg.jwtVerify (substring7 authHeader) secret = .error name) :
    verifyTokenRun cfg d req =
      ([.jwtVerify (substring7 authHeader) secret],
       if name = "JsonWebTokenError" then failure 401 "Invalid token"
       else if name = "TokenExpiredError" then failure 401 "Token expired"
       else failure 500 "Authentication error") := by
  simp [verifyTokenRun, hauth, hb, hsec, hne, hdec]

/-- The run of `verifyToken` on a bearer credential with the secret configured, when the
verifier returns the decoded claims. -/
theorem verifyTokenRun_ok {cfg : AuthConfig} {req : Request} {authHeader secret : String}
    {decoded : DecodedToken} (d : Directory)
    (hauth : req.authorization = some authHeader) (hb : startsWithBearer authHeader = true)
    (hsec : cfg.CLERK_SECRET_KEY = some secret) (hne : secret ≠ "")
    (hdec : cfg.jwtVerify (substring7 authHeader) secret = .ok decoded) :
    verifyTokenRun cfg d req =
      if !truthy (orElse decoded.sub decoded.user_id) then
        ([.jwtVerify (substring7 authHeader) secret], failure 401 "Invalid token format")
      else
        ([.jwtVerify (substring7 authHeader) secret,
          .findByClerkId (orElse decoded.sub decoded.user_id)],
         match findByClerkId d (orElse decoded.sub decoded.user_id) with
         | none => failure 404 "User not found"
         | some user =>
           if !user.isActive then failure 403 "User account is deactivated"
           else .next { req with user := some user,
                                 clerkId := orElse decoded.sub decoded.user_id }) := by
  simp [verifyTokenRun, hauth, hb, hsec, hne, hdec]

/-- The run of `optionalAuth` on a bearer credential with the secret configured, when the
verifier returns the decoded claims. -/
theorem optionalAuthRun_ok {cfg : AuthConfig} {req : Request} {authHeader secret : String}
    {decoded : DecodedToken} (d : Directory)
    (hauth : req.authorization = some authHeader) (hb : startsWithBearer authHeader = true)
    (hsec : cfg.CLERK_SECRET_KEY = some secret) (hne : secret ≠ "")
    (hdec : cfg.jwtVerify (substring7 authHeader) secret = .ok decoded) :
    optionalAuthRun cfg d req =
      if truthy (orElse decoded.sub decoded.user_id) then
        ([.jwtVerify (substring7 authHeader) secret,
          .findByClerkId (orElse decoded.sub decoded.user_id)],
         match findByClerkId d (orElse decoded.sub decoded.user_id) with
         | none => .next req
         | some user =>
           if user.isActive then
             .next { req with user := some user,
                              clerkId := orElse decoded.sub decoded.user_id }
           else .next req)
      else ([.jwtVerify (substring7 authHeader) secret], .next req) := by
  simp [optionalAuthRun, hauth, hb, hsec, hne, hdec]

/-- Neither middleware writes: the calls of a run are the verifier and directory reads. -/
theorem runs_make_no_write (cfg : AuthConfig) (d : Directory) (req : Request) :
    (verifyTokenRun cfg d req).1.all (fun c => !c.isWrite) = true ∧
    (optionalAuthRun cfg d req).1.all (fun c => !c.isWrite) = true := by
  cases hauth : req.authorization with
  | none => simp [verifyTokenRun, optionalAuthRun, hauth]
  | some authHeader =>
    cases hb : startsWithBearer authHeader with
    | false => simp [verifyTokenRun, optionalAuthRun, hauth, hb]
    | true =>
      cases hsec : cfg.CLERK_SECRET_KEY with
      | none => simp [verifyTokenRun, optionalAuthRun, hauth, hb, hsec]
      | some secret =>
        by_cases hne : secret = ""
        · simp [verifyTokenRun, optionalAuthRun, hauth, hb, hsec, hne]
        · cases hdec : cfg.jwtVerify (substring7 authHeader) secret with
          | error name =>
            simp [verifyTokenRun, optionalAuthRun, hauth, hb, hsec, hne, hdec, Call.isWrite]
          | ok decoded =>
            cases ht : truthy (orElse decoded.sub decoded.user_id) <;>
              simp [verifyTokenRun, optionalAuthRun, hauth, hb, hsec, hne, hdec, ht,
                Call.isWrite]

/-- The two middlewares side by side: either the request authenticates, and both hand the
same enriched request to `next`; or it does not, `verifyToken` sends a response and
`optionalAuth` hands on the request as it came in. -/
theorem auth_cases (cfg : AuthConfig) (d : Directory) (req : Request) :
    (∃ user subject, Authenticates cfg d req user subject ∧
        verifyToken cfg d req = .next { req with user := some user, clerkId := some subject } ∧
        optionalAuth cfg d req =
          .next { req with user := some user, clerkId := some subject }) ∨
    ((¬ ∃ user subject, Authenticates cfg d req user subject) ∧
        (∃ status body, verifyToken cfg d req = .json status body) ∧
        optionalAuth cfg d req = .next req) := by
  cases hauth : req.authorization with
  | none =>
    refine Or.inr ⟨?_, ⟨_, _, by simp [verifyToken, hauth, failure]; exact ⟨rfl, rfl⟩⟩,
      by simp [optionalAuth, optionalAuthRun, hauth]⟩
    rintro ⟨u, s, a, sec, dec, h1, -⟩
    simp [hauth] at h1
  | some authHeader =>
    cases hb : startsWithBearer authHeader with
    | false =>
      refine Or.inr ⟨?_, ⟨_, _, by simp [verifyToken, hauth, hb, failure]; exact ⟨rfl, rfl⟩⟩,
        by simp [optionalAuth, optionalAuthRun, hauth, hb]⟩
      rintro ⟨u, s, a, sec, dec, h1, h2, -⟩
      rw [hauth] at h1
      simp only [Option.some.injEq] at h1
      subst h1
      simp [hb] at h2
    | true =>
      cases hsec : cfg.CLERK_SECRET_KEY with
      | none =>
        refine Or.inr ⟨?_, ⟨_, _, by
          simp [verifyToken, hauth, hb, hsec, failure]; exact ⟨rfl, rfl⟩⟩,
          by simp [optionalAuth, optionalAuthRun, hauth, hb, hsec]⟩
        rintro ⟨u, s, a, sec, dec, -, -, h3, -⟩
        simp [hsec] at h3
      | some secret =>
        by_cases hne : secret = ""
        · refine Or.inr ⟨?_, ⟨_, _, by
            simp [verifyToken, hauth, hb, hsec, hne, failure]; exact ⟨rfl, rfl⟩⟩,
            by simp [optionalAuth, optionalAuthRun, hauth, hb, hsec, hne]⟩
          rintro ⟨u, s, a, sec, dec, -, -, h3, h4, -⟩
          rw [hsec] at h3
          simp only [Option.some.injEq] at h3
          exact h4 (h3 ▸ hne)
        · have hvt := verifyTokenRun_result cfg d req
          cases hdec : cfg.jwtVerify (substring7 authHeader) secret with
          | error name =>
            refine Or.inr ⟨?_, ?_, by
              simp [optionalAuth, optionalAuthRun, hauth, hb, hsec, hne, hdec]⟩
            · rintro ⟨u, s, a, sec, dec, h1, -, h3, -, h5, -⟩
              rw [hauth] at h1
              rw [hsec] at h3
              simp only [Option.some.injEq] at h1 h3
              subst h1 h3
              rw [hdec] at h5
              simp at h5
            · rw [verifyTokenRun_error d hauth hb hsec hne hdec] at hvt
              rw [← hvt]
              simp only
              split
              · exact ⟨_, _, rfl⟩
              · split <;> exact ⟨_, _, rfl⟩
          | ok decoded =>
            have hnot : ∀ {P : Prop}, (∀ subject user,
                orElse decoded.sub decoded.user_id = some subject → subject ≠ "" →
                findByClerkId d (some subject) = some user → user.isActive = true → P) →
                (∃ user subject, Authenticates cfg d req user subject) → P := by
              intro P hP
              rintro ⟨u, s, a, sec, dec, h1, -, h3, -, h5, h6, h7, h8, h9⟩
              rw [hauth] at h1
              rw [hsec] at h3
              simp only [Option.some.injEq] at h1 h3
              subst h1 h3
              rw [hdec] at h5
              simp only [Except.ok.injEq] at h5
              subst h5
              exact hP s u h6 h7 h8 h9
            rw [verifyTokenRun_ok d hauth hb hsec hne hdec] at hvt
            have hoa := optionalAuthRun_ok d hauth hb hsec hne hdec
            cases hsub : orElse decoded.sub decoded.user_id with
            | none =>
              rw [hsub] at hvt hoa
              refine Or.inr ⟨?_, ⟨_, _, by rw [← hvt]; simp [truthy, failure]; exact ⟨rfl, rfl⟩⟩,
                by simp [optionalAuth, hoa, truthy]⟩
              apply hnot
              intro s u h6
              simp [hsub] at h6
            | some subject =>
              rw [hsub] at hvt hoa
              by_cases hs : subject = ""
              · refine Or.inr ⟨?_, ⟨_, _, by
                  rw [← hvt]; simp [truthy, hs, failure]; exact ⟨rfl, rfl⟩⟩,
                  by simp [optionalAuth, hoa, truthy, hs]⟩
                apply hnot
                intro s u h6 h7
                rw [hsub] at h6
                simp only [Option.some.injEq] at h6
                exact absurd (h6 ▸ hs) h7
              · have ht : truthy (some subject) = true := by simpa [truthy] using hs
                cases hfind : findByClerkId d (some subject) with
                | none =>
                  refine Or.inr ⟨?_, ⟨_, _, by
                    rw [← hvt]; simp [ht, hfind, failure]; exact ⟨rfl, rfl⟩⟩,
                    by simp [optionalAuth, hoa, ht, hfind]⟩
                  apply hnot
                  intro s u h6 _ h8
                  rw [hsub] at h6
                  simp only [Option.some.injEq] at h6
                  subst h6
                  simp [hfind] at h8
                | some user =>
                  cases hact : user.isActive with
                  | false =>
                    refine Or.inr ⟨?_, ⟨_, _, by
                      rw [← hvt]; simp [ht, hfind, hact, failure]; exact ⟨rfl, rfl⟩⟩,
                      by simp [optionalAuth, hoa, ht, hfind, hact]⟩
                    apply hnot
                    intro s u h6 _ h8 h9
                    rw [hsub] at h6
                    simp only [Option.some.injEq] at h6
                    subst h6
                    rw [hfind] at h8
                    simp only [Option.some.injEq] at h8
                    subst h8
                    simp [hact] at h9
                  | true =>
                    refine Or.inl ⟨user, subject,
                      ⟨authHeader, secret, decoded, hauth, hb, hsec, hne, hdec, hsub, hs,
                        hfind, hact⟩, ?_, ?_⟩
                    · rw [← hvt]; simp [ht, hfind, hact, hauth]
                    · simp [optionalAuth, hoa, ht, hfind, hact, hauth]

/-! ## Lemmas on the schema setters -/

theorem toLower_toLower (c : Char) : c.toLower.toLower = c.toLower := by
  unfold Char.toLower
  simp only
  by_cases h : c.toNat ≥ 65 ∧ c.toNat ≤ 90
  · rw [if_pos h]
    have hv : (Char.ofNat (c.toNat + 32)).toNat = c.toNat + 32 := by
      obtain ⟨h1, h2⟩ := h
      generalize c.toNat = n at h1 h2
      interval_cases n <;> rfl
    rw [hv]
    have : ¬ (c.toNat + 32 ≥ 65 ∧ c.toNat + 32 ≤ 90) := by omega
    rw [if_neg this]
  · rw [if_neg h, if_neg h]

theorem trim_data (s : String) :
    (trim s).data = List.rdropWhile isWhiteSpace (s.data.dropWhile isWhiteSpace) := rfl

theorem dropWhile_rdropWhile_dropWhile (p : Char → Bool) (l : List Char) :
    List.dropWhile p (List.rdropWhile p (List.dropWhile p l)) =
      List.rdropWhile p (List.dropWhile p l) := by
  have hDD : List.dropWhile p (List.dropWhile p l) = List.dropWhile p l :=
    List.dropWhile_idempotent p l
  have hpre : List.rdropWhile p (List.dropWhile p l) <+: List.dropWhile p l :=
    List.rdropWhile_prefix p _
  generalize List.dropWhile p l = D at hDD hpre
  generalize List.rdropWhile p D = R at hpre
  obtain ⟨t, ht⟩ := hpre
  cases R with
  | nil => rfl
  | cons a R' =>
    subst ht
    have ha : p a = false := by
      cases hpa : p a with
      | false => rfl
      | true =>
        exfalso
        rw [List.cons_append, List.dropWhile_cons_of_pos hpa] at hDD
        have hsl : (List.dropWhile p (R' ++ t)).Sublist (R' ++ t) := List.dropWhile_sublist p
        have hlen := hsl.length_le
        rw [hDD] at hlen
        simp at hlen
    simp [List.dropWhile, ha]

theorem trim_trim (s : String) : trim (trim s) = trim s := by
  apply String.ext
  rw [trim_data, trim_data, dropWhile_rdropWhile_dropWhile, List.rdropWhile_idempotent]

/-- The ASCII case mapping is stable. -/
theorem asciiCaseMapping_stable : @LowercaseStable asciiCaseMapping := by
  intro s
  apply String.ext
  show List.map Char.toLower (trim (toLowerCase s)).data = (trim (toLowerCase s)).data
  have hsub : ∀ c ∈ (trim (toLowerCase s)).data, c ∈ (toLowerCase s).data := by
    intro c hc
    rw [trim_data] at hc
    exact (List.dropWhile_sublist _).subset ((List.rdropWhile_prefix _ _).sublist.subset hc)
  have hid : List.map Char.toLower (trim (toLowerCase s)).data =
      List.map id (trim (toLowerCase s)).data := by
    apply List.map_congr_left
    intro c hc
    have := hsub c hc
    simp only [toLowerCase, CaseMapping.lower, List.mem_map] at this
    obtain ⟨a, -, rfl⟩ := this
    exact toLower_toLower a
  rw [hid, List.map_id]

theorem setEmail_setEmail [CaseMapping] (hl : LowercaseStable) (s : String) :
    setEmail (setEmail s) = setEmail s := by
  unfold setEmail
  rw [hl s, trim_trim]

theorem toLowerCase_of_normalised [CaseMapping] (hl : LowercaseStable) {e : String}
    (h : setEmail e = e) : toLowerCase e = e := by
  rw [← h]
  exact hl e

/-! ## Lemmas on the unique indexes -/

theorem lt_nextId {d : Directory} {v : User} (h : v ∈ d) : v._id < nextId d := by
  unfold nextId
  induction d with
  | nil => simp at h
  | cons w ws ih =>
    simp only [List.map_cons, List.foldr_cons]
    rcases List.mem_cons.mp h with h | h
    · subst h; omega
    · have := ih h; omega

theorem eq_of_id_eq {d : Directory} (hids : (d.map (fun u => u._id)).Nodup) {v w : User}
    (hv : v ∈ d) (hw : w ∈ d) (h : v._id = w._id) : v = w :=
  List.inj_on_of_nodup_map hids hv hw h

/-- What a successful `create` checked and inserted. -/
theorem create_ok_checks [CaseMapping] {now : Int} {d : Directory} {i : UserInput}
    {r : Directory × User}
    (h : create now d i = .ok r) :
    r.1 = d ++ [r.2] ∧ r.2._id = nextId d ∧
      (LowercaseStable → setEmail r.2.email = r.2.email) ∧
      (∀ v ∈ d, v.clerkId ≠ r.2.clerkId ∧ v.email ≠ r.2.email) := by
  unfold create at h
  split at h
  · simp at h
  · rename_i u hb
    split at h
    · simp at h
    · split at h
      · simp at h
      · rename_i hany
        simp only [Except.ok.injEq] at h
        subst h
        refine ⟨rfl, ?_, ?_, ?_⟩
        · unfold buildUser at hb
          split at hb
          · split at hb
            · simp at hb
            · simp only [Option.some.injEq] at hb
              subst hb
              rfl
          · simp at hb
        · unfold buildUser at hb
          split at hb
          · split at hb
            · simp at hb
            · simp only [Option.some.injEq] at hb
              subst hb
              exact fun hl => setEmail_setEmail hl _
          · simp at hb
        · intro v hv
          simp only [Bool.not_eq_true, List.any_eq_false, Bool.or_eq_true, beq_iff_eq,
            not_or] at hany
          exact hany v hv

/-- A successful `save` with a changed address found the new address free. -/
theorem save_ok_email_free {now : Int} {d d' : Directory} {r doc : User}
    (h : save now d r doc = .ok d') (hne : doc.email ≠ r.email) :
    ∀ v ∈ d, v._id ≠ doc._id → v.email ≠ doc.email := by
  unfold save at h
  split at h
  · simp at h
  · split at h
    · rename_i he
      rw [he] at hne
      exact absurd rfl hne
    · split at h
      · simp at h
      · split at h
        · simp at h
        · rename_i hdup
          intro v hv hid hem
          apply hdup
          simp only [Bool.and_eq_true, bne_iff_ne, ne_eq, List.any_eq_true, beq_iff_eq]
          exact ⟨hne, v, hv, hid, hem⟩

theorem create_inv [CaseMapping] {now : Int} {d : Directory} {i : UserInput}
    {r : Directory × User} (hl : LowercaseStable)
    (hu : UniqueKeys d) (hn : EmailsNormalised d) (h : create now d i = .ok r) :
    UniqueKeys r.1 ∧ EmailsNormalised r.1 ∧ r.2 ∈ r.1 := by
  obtain ⟨h1, h2, h3, h4⟩ := create_ok_checks h
  obtain ⟨hids, hcl, hem⟩ := hu
  rw [h1]
  refine ⟨⟨?_, ?_, ?_⟩, ?_, by simp⟩
  · rw [List.map_append, List.map_singleton]
    refine List.Nodup.append hids (List.nodup_singleton _) ?_
    rw [List.disjoint_singleton]
    intro hmem
    rw [List.mem_map] at hmem
    obtain ⟨v, hv, hvid⟩ := hmem
    have := lt_nextId hv
    omega
  · rw [List.map_append, List.map_singleton]
    refine List.Nodup.append hcl (List.nodup_singleton _) ?_
    rw [List.disjoint_singleton]
    intro hmem
    rw [List.mem_map] at hmem
    obtain ⟨v, hv, hvc⟩ := hmem
    exact (h4 v hv).1 hvc
  · rw [List.map_append, List.map_singleton]
    refine List.Nodup.append hem (List.nodup_singleton _) ?_
    rw [List.disjoint_singleton]
    intro hmem
    rw [List.mem_map] at hmem
    obtain ⟨v, hv, hve⟩ := hmem
    exact (h4 v hv).2 hve
  · intro v hv
    rw [List.mem_append, List.mem_singleton] at hv
    rcases hv with hv | hv
    · exact hn v hv
    · rw [hv]; exact h3 hl

/-- A `save` that keeps `_id` and `clerkId` and writes a normalised address keeps the unique
indexes and the normal form of the addresses; the in-memory document is the stored one. -/
theorem save_inv [CaseMapping] {now : Int} {d d' : Directory} {orig doc : User}
    (hu : UniqueKeys d) (hn : EmailsNormalised d) (hm : orig ∈ d)
    (hid : doc._id = orig._id) (hc : doc.clerkId = orig.clerkId)
    (he : setEmail doc.email = doc.email) (hs : save now d orig doc = .ok d') :
    UniqueKeys d' ∧ EmailsNormalised d' ∧ saved now orig doc ∈ d' := by
  obtain ⟨hids, hcl, hem⟩ := hu
  obtain ⟨-, h | h⟩ := save_ok hs
  · obtain ⟨hdoc, hd⟩ := h
    rw [hd]
    refine ⟨⟨hids, hcl, hem⟩, hn, ?_⟩
    simp only [saved, hdoc, if_true]
    exact hm
  · obtain ⟨hne, hd⟩ := h
    have hrep : ∀ v ∈ d, v._id = doc._id → v = orig := by
      intro v hv hvid
      exact eq_of_id_eq hids hv hm (hvid.trans hid)
    have hmapid : d'.map (fun u => u._id) = d.map (fun u => u._id) := by
      rw [hd, List.map_map]
      apply List.map_congr_left
      intro v _
      simp only [Function.comp]
      split
      · rename_i hv; exact hv.symm
      · rfl
    have hmapcl : d'.map (fun u => u.clerkId) = d.map (fun u => u.clerkId) := by
      rw [hd, List.map_map]
      apply List.map_congr_left
      intro v hv
      simp only [Function.comp]
      split
      · rename_i hvid
        rw [hrep v hv hvid]
        exact hc
      · rfl
    refine ⟨⟨by rw [hmapid]; exact hids, by rw [hmapcl]; exact hcl, ?_⟩, ?_, ?_⟩
    · rw [hd, List.map_map]
      apply List.Nodup.map_on _ (List.Nodup.of_map _ hids)
      intro x hx y hy hxy
      simp only [Function.comp] at hxy
      by_cases hxi : x._id = doc._id
      · by_cases hyi : y._id = doc._id
        · rw [hrep x hx hxi, hrep y hy hyi]
        · simp only [hxi, hyi, if_true, if_false] at hxy
          exfalso
          by_cases hce : doc.email = orig.email
          · have hxo := hrep x hx hxi
            have : orig = y := List.inj_on_of_nodup_map hem hm hy (by rw [← hce]; exact hxy)
            rw [← this] at hyi
            exact hyi hid.symm
          · exact save_ok_email_free hs hce y hy hyi hxy.symm
      · by_cases hyi : y._id = doc._id
        · simp only [hxi, hyi, if_true, if_false] at hxy
          exfalso
          by_cases hce : doc.email = orig.email
          · have : x = orig := List.inj_on_of_nodup_map hem hx hm (by rw [← hce]; exact hxy)
            rw [this] at hxi
            exact hxi hid.symm
          · exact save_ok_email_free hs hce x hx hxi hxy
        · simp only [hxi, hyi, if_false] at hxy
          exact List.inj_on_of_nodup_map hem hx hy hxy
    · intro v hv
      rw [hd, List.mem_map] at hv
      obtain ⟨w, hw, rfl⟩ := hv
      split
      · exact he
      · exact hn w hw
    · rw [hd, List.mem_map]
      refine ⟨orig, hm, ?_⟩
      simp [saved, hne, hid]

theorem updateLastActivity_inv [CaseMapping] {now : Int} {d : Directory} {user : User}
    {r : Directory × User}
    (hu : UniqueKeys d) (hn : EmailsNormalised d) (hm : user ∈ d)
    (h : updateLastActivity now d user = .ok r) :
    UniqueKeys r.1 ∧ EmailsNormalised r.1 ∧ r.2 ∈ r.1 := by
  unfold updateLastActivity at h
  split at h
  · rename_i d' hs
    simp only [Except.ok.injEq] at h
    subst h
    exact save_inv hu hn hm rfl rfl (hn user hm) hs
  · simp at h

theorem handleWebhook_inv [CaseMapping] (hl : LowercaseStable) (now : Int) (d : Directory)
    (body : WebhookBody) (hu : UniqueKeys d) (hn : EmailsNormalised d) :
    UniqueKeys (handleWebhook now d body).1 ∧ EmailsNormalised (handleWebhook now d body).1 := by
  unfold handleWebhook
  split
  · split
    · exact ⟨hu, hn⟩
    · split
      · exact ⟨hu, hn⟩
      · split
        · rename_i res hcr
          obtain ⟨h1, h2, -⟩ := create_inv hl hu hn hcr
          exact ⟨h1, h2⟩
        · exact ⟨hu, hn⟩
  · split
    · split
      · exact ⟨hu, hn⟩
      · split
        · exact ⟨hu, hn⟩
        · rename_i user hfind
          split
          · rename_i d' hs
            have h := save_inv hu hn (findByClerkId_mem hfind) ?_ ?_ ?_ hs
            · exact ⟨h.1, h.2.1⟩
            · rfl
            · rfl
            · exact setEmail_setEmail hl _
          · exact ⟨hu, hn⟩
    · split
      · split
        · exact ⟨hu, hn⟩
        · split
          · exact ⟨hu, hn⟩
          · rename_i user hfind
            split
            · rename_i d' hs
              have h := save_inv hu hn (findByClerkId_mem hfind) ?_ ?_ ?_ hs
              · exact ⟨h.1, h.2.1⟩
              · rfl
              · rfl
              · exact hn user (findByClerkId_mem hfind)
            · exact ⟨hu, hn⟩
      · exact ⟨hu, hn⟩

theorem handleSignup_inv [CaseMapping] (hl : LowercaseStable) (now : Int) (d : Directory)
    (body : SignupBody) (hu : UniqueKeys d) (hn : EmailsNormalised d) :
    UniqueKeys (handleSignup now d body).1 ∧ EmailsNormalised (handleSignup now d body).1 := by
  unfold handleSignup
  split
  · exact ⟨hu, hn⟩
  · split
    · exact ⟨hu, hn⟩
    · split
      · exact ⟨hu, hn⟩
      · split
        · exact ⟨hu, hn⟩
        · rename_i res hcr
          obtain ⟨h1, h2, h3⟩ := create_inv hl hu hn hcr
          split
          · exact ⟨h1, h2⟩
          · rename_i res' hla
            obtain ⟨h4, h5, -⟩ := updateLastActivity_inv h1 h2 h3 hla
            exact ⟨h4, h5⟩

/-! ## Lemmas on what a write keeps -/

theorem keeps_refl {α : Type} (g : User → α) (d : Directory) : Keeps g d d :=
  fun _ v h => ⟨v, h, rfl⟩

theorem keeps_trans {α : Type} {g : User → α} {d d' d'' : Directory}
    (h1 : Keeps g d d') (h2 : Keeps g d' d'') : Keeps g d d'' := by
  intro i v hv
  obtain ⟨v', hv', hg'⟩ := h1 i v hv
  obtain ⟨v'', hv'', hg''⟩ := h2 i v' hv'
  exact ⟨v'', hv'', hg''.trans hg'⟩

theorem keeps_append {α : Type} (g : User → α) (d l : Directory) : Keeps g d (d ++ l) := by
  intro i v hv
  refine ⟨v, ?_, rfl⟩
  obtain ⟨hi, -⟩ := List.getElem?_eq_some.mp hv
  rw [List.getElem?_append_left hi]
  exact hv

theorem saved_id (now : Int) (orig doc : User) : (saved now orig doc)._id = doc._id := by
  unfold saved; split <;> rfl

theorem saved_userType (now : Int) (orig doc : User) :
    (saved now orig doc).userType = doc.userType := by
  unfold saved; split <;> rfl

/-- After a successful `save` the `_id`s are as before and the in-memory document is the
stored one. -/
theorem save_ids {now : Int} {d d' : Directory} {orig doc : User}
    (hm : orig ∈ d) (hs : save now d orig doc = .ok d') (hid : doc._id = orig._id) :
    d'.map (fun u => u._id) = d.map (fun u => u._id) ∧ saved now orig doc ∈ d' := by
  obtain ⟨-, h | h⟩ := save_ok hs
  · obtain ⟨hdoc, hd⟩ := h
    rw [hd]
    refine ⟨rfl, ?_⟩
    simp only [saved, hdoc, if_true]
    exact hm
  · obtain ⟨hne, hd⟩ := h
    rw [hd]
    constructor
    · rw [List.map_map]
      apply List.map_congr_left
      intro v _
      simp only [Function.comp]
      split
      · rename_i hv; exact hv.symm
      · rfl
    · rw [List.mem_map]
      refine ⟨orig, hm, ?_⟩
      simp [saved, hne, hid]

/-- A `save` of a document with the `_id` and the `g` of the stored one keeps `g` on every
record, provided `g` does not read `updatedAt`. -/
theorem save_keeps {α : Type} (g : User → α) {now : Int} {d d' : Directory} {orig doc : User}
    (hg : ∀ (u : User) (t : Int), g { u with updatedAt := t } = g u)
    (hids : (d.map (fun u => u._id)).Nodup) (hm : orig ∈ d)
    (hs : save now d orig doc = .ok d')
    (hid : doc._id = orig._id) (hgd : g doc = g orig) : Keeps g d d' := by
  obtain ⟨-, h | h⟩ := save_ok hs
  · rw [h.2]; exact keeps_refl g d
  · rw [h.2]
    intro i v hv
    refine ⟨_, by rw [List.getElem?_map, hv]; rfl, ?_⟩
    by_cases hvid : v._id = doc._id
    · have : v = orig := eq_of_id_eq hids (List.getElem?_mem hv) hm (hvid.trans hid)
      simp only [hvid, if_true]
      rw [hg, hgd, this]
    · simp only [hvid, if_false]

/-- A write that unsets a path of the stored document keeps `g` on every record, provided `g`
reads neither the path nor `updatedAt`. -/
theorem saveUnset_keeps {α : Type} (g : User → α) {now : Int} {d d' : Directory}
    {orig doc : User}
    (hg : ∀ (u : User) (t : Int), g { u with updatedAt := t } = g u)
    (hids : (d.map (fun u => u._id)).Nodup) (hm : orig ∈ d)
    (hs : saveUnset now d doc = .ok d')
    (hid : doc._id = orig._id) (hgd : g doc = g orig) : Keeps g d d' := by
  unfold saveUnset at hs
  split at hs
  · simp at hs
  · split at hs
    · simp at hs
    · simp only [Except.ok.injEq] at hs
      subst hs
      intro i v hv
      refine ⟨_, by rw [List.getElem?_map, hv]; rfl, ?_⟩
      by_cases hvid : v._id = doc._id
      · have : v = orig := eq_of_id_eq hids (List.getElem?_mem hv) hm (hvid.trans hid)
        simp only [hvid, if_true]
        rw [hg, hgd, this]
      · simp only [hvid, if_false]

theorem updateLastActivity_keeps {α : Type} (g : User → α) {now : Int} {d : Directory}
    {user : User} {r : Directory × User}
    (hg : ∀ (u : User) (t : Int), g { u with updatedAt := t } = g u)
    (hga : ∀ (u : User) (t : Option Int), g { u with lastActivity := t } = g u)
    (hids : (d.map (fun u => u._id)).Nodup) (hm : user ∈ d)
    (h : updateLastActivity now d user = .ok r) : Keeps g d r.1 := by
  unfold updateLastActivity at h
  split at h
  · rename_i d' hs
    simp only [Except.ok.injEq] at h
    subst h
    exact save_keeps g hg hids hm hs rfl (hga user _)
  · simp at h

/-- A handler that saves `f user` for the record found or attached keeps `g`. -/
theorem save_result_keeps {α : Type} (g : User → α) {now : Int} {d : Directory}
    {orig doc : User}
    (hg : ∀ (u : User) (t : Int), g { u with updatedAt := t } = g u)
    (hids : (d.map (fun u => u._id)).Nodup) (hm : orig ∈ d)
    (hid : doc._id = orig._id) (hgd : g doc = g orig) :
    Keeps g d (match save now d orig doc with
      | .ok d' => d'
      | .error _ => d) := by
  cases hs : save now d orig doc with
  | error e => exact keeps_refl g d
  | ok d' => exact save_keeps g hg hids hm hs hid hgd

theorem handleWebhook_keeps [CaseMapping] {α : Type} (g : User → α) (now : Int) (d : Directory)
    (body : WebhookBody)
    (hg : ∀ (u : User) (t : Int), g { u with updatedAt := t } = g u)
    (hupd : ∀ (u : User) (x : UserData), g (applyUpdate u x) = g u)
    (hdel : ∀ u : User, g { u with isActive := false } = g u)
    (hids : (d.map (fun u => u._id)).Nodup) :
    Keeps g d (handleWebhook now d body).1 := by
  unfold handleWebhook
  split
  · split
    · exact keeps_refl g d
    · split
      · exact keeps_refl g d
      · split
        · rename_i res hcr
          rw [(create_ok hcr).1]
          exact keeps_append g d _
        · exact keeps_refl g d
  · split
    · split
      · exact keeps_refl g d
      · split
        · exact keeps_refl g d
        · rename_i user hfind
          split
          · rename_i d' hs
            exact save_keeps g hg hids (findByClerkId_mem hfind) hs rfl (hupd _ _)
          · exact keeps_refl g d
    · split
      · split
        · exact keeps_refl g d
        · split
          · exact keeps_refl g d
          · rename_i user hfind
            split
            · rename_i d' hs
              exact save_keeps g hg hids (findByClerkId_mem hfind) hs rfl (hdel _)
            · exact keeps_refl g d
      · exact keeps_refl g d

theorem updateProfile_keeps {α : Type} (g : User → α) (now : Int) (d : Directory)
    (req : Request) (body : UpdateProfileBody) (user : User)
    (hg : ∀ (u : User) (t : Int), g { u with updatedAt := t } = g u)
    (hga : ∀ (u : User) (t : Option Int), g { u with lastActivity := t } = g u)
    (hbody : g (assignRoleDetails (assignBasics user body) body) = g user)
    (hids : (d.map (fun u => u._id)).Nodup) (hreq : req.user = some user) (hm : user ∈ d) :
    Keeps g d (updateProfile now d req body).1 := by
  unfold updateProfile
  rw [hreq]
  simp only
  split
  · exact keeps_refl g d
  · rename_i d1 hs
    have h1 := save_keeps g hg hids hm hs rfl hbody
    obtain ⟨hids1, hm1⟩ := save_ids hm hs rfl
    split
    · exact h1
    · rename_i r hla
      exact keeps_trans h1 (updateLastActivity_keeps g hg hga (by rw [hids1]; exact hids) hm1 hla)

/-! ## Lemmas for the responses and the admin routes -/

theorem exposes_own_role (user : User) (view : DataView)
    (hn : view.ngoDetails = ngoDetailsView user)
    (hd : view.donorDetails = donorDetailsView user) :
    ExposesOwnRoleOnly user.userType view := by
  unfold ExposesOwnRoleOnly
  rw [hn, hd]
  unfold ngoDetailsView donorDetailsView
  by_cases h1 : user.userType = "ngo"
  · have h2 : user.userType ≠ "donor" := by rw [h1]; decide
    simp [h1]
  · simp [h1]

theorem validate_userType {u : User} (h : validate u = true) :
    u.userType = "donor" ∨ u.userType = "ngo" := by
  simp only [validate, userTypes, Bool.and_eq_true] at h
  have := h.1.1.2
  simpa using this

/-- Every outcome of `verifyToken` is `next` or one of its eight failures. -/
theorem verifyToken_failure_kind (cfg : AuthConfig) (d : Directory) (req : Request) :
    (∃ req', verifyToken cfg d req = .next req') ∨
    ∃ k status,
      k ∈ [FailureKind.missingCredential, .configurationError, .invalidToken, .expiredToken,
           .authenticationError, .missingSubject, .unknownIdentity, .accountDeactivated] ∧
      verifyToken cfg d req = failure status k.reason := by
  cases hauth : req.authorization with
  | none =>
    exact Or.inr ⟨.missingCredential, 401, by simp, by simp [verifyToken, hauth, FailureKind.reason]⟩
  | some authHeader =>
    cases hb : startsWithBearer authHeader with
    | false =>
      exact Or.inr ⟨.missingCredential, 401, by simp,
        by simp [verifyToken, hauth, hb, FailureKind.reason]⟩
    | true =>
      cases hsec : cfg.CLERK_SECRET_KEY with
      | none =>
        exact Or.inr ⟨.configurationError, 500, by simp,
          by simp [verifyToken, hauth, hb, hsec, FailureKind.reason]⟩
      | some secret =>
        by_cases hne : secret = ""
        · exact Or.inr ⟨.configurationError, 500, by simp,
            by simp [verifyToken, hauth, hb, hsec, hne, FailureKind.reason]⟩
        · cases hdec : cfg.jwtVerify (substring7 authHeader) secret with
          | error name =>
            by_cases h1 : name = "JsonWebTokenError"
            · exact Or.inr ⟨.invalidToken, 401, by simp,
                by simp [verifyToken, hauth, hb, hsec, hne, hdec, h1, FailureKind.reason]⟩
            · by_cases h2 : name = "TokenExpiredError"
              · exact Or.inr ⟨.expiredToken, 401, by simp,
                  by simp [verifyToken, hauth, hb, hsec, hne, hdec, h2, FailureKind.reason]⟩
              · exact Or.inr ⟨.authenticationError, 500, by simp,
                  by simp [verifyToken, hauth, hb, hsec, hne, hdec, h1, h2,
                    FailureKind.reason]⟩
          | ok decoded =>
            cases ht : truthy (orElse decoded.sub decoded.user_id) with
            | false =>
              exact Or.inr ⟨.missingSubject, 401, by simp,
                by simp [verifyToken, hauth, hb, hsec, hne, hdec, ht, FailureKind.reason]⟩
            | true =>
              cases hfind : findByClerkId d (orElse decoded.sub decoded.user_id) with
              | none =>
                exact Or.inr ⟨.unknownIdentity, 404, by simp,
                  by simp [verifyToken, hauth, hb, hsec, hne, hdec, ht, hfind,
                    FailureKind.reason]⟩
              | some user =>
                cases hact : user.isActive with
                | false =>
                  exact Or.inr ⟨.accountDeactivated, 403, by simp,
                    by simp [verifyToken, hauth, hb, hsec, hne, hdec, ht, hfind, hact,
                      FailureKind.reason]⟩
                | true =>
                  exact Or.inl ⟨{ req with user := some user,
                                            clerkId := orElse decoded.sub decoded.user_id }, by
                    simp [verifyToken, hauth, hb, hsec, hne, hdec, ht, hfind, hact]⟩

/-! ## Lemmas on independent events -/

theorem replaceId_ids {i : Nat} {r : User} (hr : r._id = i) (d : Directory) :
    (replaceId i r d).map (fun u => u._id) = d.map (fun u => u._id) := by
  unfold replaceId
  rw [List.map_map]
  apply List.map_congr_left
  intro v _
  simp only [Function.comp]
  split
  · rename_i h; rw [hr, h]
  · rfl

theorem nextId_replaceId {i : Nat} {r : User} (hr : r._id = i) (d : Directory) :
    nextId (replaceId i r d) = nextId d := by
  unfold nextId
  rw [replaceId_ids hr]

theorem any_map_congr {p : User → Bool} {F : User → User} (d : Directory)
    (h : ∀ v ∈ d, p (F v) = p v) : (d.map F).any p = d.any p := by
  induction d with
  | nil => rfl
  | cons v vs ih =>
    simp only [List.map_cons, List.any_cons]
    rw [h v (List.mem_cons_self _ _), ih (fun w hw => h w (List.mem_cons_of_mem _ hw))]

theorem all_map_congr {p : User → Bool} {F : User → User} (d : Directory)
    (h : ∀ v ∈ d, p (F v) = p v) : (d.map F).all p = d.all p := by
  induction d with
  | nil => rfl
  | cons v vs ih =>
    simp only [List.map_cons, List.all_cons]
    rw [h v (List.mem_cons_self _ _), ih (fun w hw => h w (List.mem_cons_of_mem _ hw))]

/-- Replacing a record of another `clerkId` does not change what is found for `c`. -/
theorem findByClerkId_replaceId (d : Directory) (i : Nat) (r : User) (c : Option String)
    (h1 : ∀ v ∈ d, v._id = i → some v.clerkId ≠ c) (h2 : some r.clerkId ≠ c) :
    findByClerkId (replaceId i r d) c = findByClerkId d c := by
  cases c with
  | none => rfl
  | some x =>
    unfold findByClerkId replaceId
    simp only
    induction d with
    | nil => rfl
    | cons v vs ih =>
      rw [List.map_cons, List.find?_cons, List.find?_cons]
      have ih' := ih (fun w hw => h1 w (List.mem_cons_of_mem _ hw))
      by_cases hv : v._id = i
      · have hvx : (v.clerkId == x) = false := by
          have := h1 v (List.mem_cons_self _ _) hv
          simpa using this
        have hrx : (r.clerkId == x) = false := by simpa using h2
        simp only [hv, if_true, hvx, hrx]
        exact ih'
      · simp only [hv, if_false]
        cases hvx : (v.clerkId == x) with
        | true => rfl
        | false => exact ih'

theorem replaceId_comm {i j : Nat} {r s : User} (hij : i ≠ j) (hr : r._id = i)
    (hs : s._id = j) (d : Directory) :
    replaceId i r (replaceId j s d) = replaceId j s (replaceId i r d) := by
  unfold replaceId
  rw [List.map_map, List.map_map]
  apply List.map_congr_left
  intro v _
  simp only [Function.comp]
  by_cases hvi : v._id = i
  · have hvj : v._id ≠ j := by rw [hvi]; exact hij
    have hrj : r._id ≠ j := by rw [hr]; exact hij
    simp [hvi, hvj, hrj, hij]
  · by_cases hvj : v._id = j
    · have hji : j ≠ i := fun h => hij h.symm
      have hsi : s._id ≠ i := by rw [hs]; exact hji
      simp [hvj, hsi, hji]
    · simp [hvi, hvj]


/-- The outcome of `save` does not change when a record of another `_id`, whose addresses
differ from the one written, has been replaced. -/
theorem save_replaceId {now : Int} {d : Directory} {orig doc s : User} {i : Nat}
    (hs : s._id = i) (hne : doc._id ≠ i)
    (he1 : ∀ v ∈ d, v._id = i → v.email ≠ doc.email) (he2 : s.email ≠ doc.email) :
    save now (replaceId i s d) orig doc =
      match save now d orig doc with
      | .ok d' => .ok (replaceId i s d')
      | .error e => .error e := by
  have hall : (replaceId i s d).all (fun v => v._id != doc._id) =
      d.all (fun v => v._id != doc._id) := by
    apply all_map_congr
    intro v _
    by_cases hvi : v._id = i
    · simp only [hvi, if_true, hs]
    · simp only [hvi, if_false]
  have hany : (replaceId i s d).any (fun v => v._id != doc._id && v.email == doc.email) =
      d.any (fun v => v._id != doc._id && v.email == doc.email) := by
    apply any_map_congr
    intro v hv
    by_cases hvi : v._id = i
    · have e1 : (v.email == doc.email) = false := by simpa using he1 v hv hvi
      have e2 : (s.email == doc.email) = false := by simpa using he2
      simp only [hvi, if_true, e1, e2, Bool.and_false]
    · simp only [hvi, if_false]
  unfold save
  rw [hall, hany]
  cases hval : validate doc with
  | false => rfl
  | true =>
    by_cases hdo : doc = orig
    · simp only [hdo, if_true, Bool.true_eq_false, if_false]
    · cases h3 : d.all (fun v => v._id != doc._id) with
      | true => simp [hdo]
      | false =>
        cases h4 : (doc.email != orig.email &&
            d.any (fun v => v._id != doc._id && v.email == doc.email)) with
        | true => simp [hdo]
        | false =>
          simp only [hdo, if_false, Bool.true_eq_false, Bool.false_eq_true]
          congr 1
          exact @replaceId_comm doc._id i { doc with updatedAt := now } s hne rfl hs d

theorem buildUser_fields [CaseMapping] {now : Int} {id : Nat} {i : UserInput} {u : User}
    (h : buildUser now id i = some u) :
    u._id = id ∧ i.clerkId = some u.clerkId ∧ ∀ e, i.email = some e → u.email = setEmail e := by
  unfold buildUser at h
  split at h
  · rename_i c f e t hc hf he ht
    split at h
    · simp at h
    · simp only [Option.some.injEq] at h
      subst h
      refine ⟨rfl, hc, ?_⟩
      intro e' he'
      rw [he] at he'
      simp only [Option.some.injEq] at he'
      rw [he']
  · simp at h

theorem buildUser_id [CaseMapping] (now : Int) (id id' : Nat) (i : UserInput) :
    buildUser now id' i = (buildUser now id i).map (fun v => { v with _id := id' }) := by
  unfold buildUser
  split
  · split
    · rfl
    · rfl
  · rfl

theorem validate_id (v : User) (id : Nat) : validate { v with _id := id } = validate v := rfl

theorem findByClerkId_append_other (d : Directory) (u : User) (c : Option String)
    (h : some u.clerkId ≠ c) : findByClerkId (d ++ [u]) c = findByClerkId d c := by
  cases c with
  | none => rfl
  | some x =>
    unfold findByClerkId
    simp only
    rw [List.find?_append]
    have hx : (u.clerkId == x) = false := by simpa using h
    cases d.find? (fun u => u.clerkId == x) with
    | some r => rfl
    | none => simp [List.find?_cons, hx]

/-- The outcome of `save` does not change when a record of another `_id` and another address
has been appended. -/
theorem save_append {now : Int} {d : Directory} {orig doc u : User}
    (hne : u._id ≠ doc._id) (he : u.email ≠ doc.email) :
    save now (d ++ [u]) orig doc =
      match save now d orig doc with
      | .ok d' => .ok (d' ++ [u])
      | .error e => .error e := by
  have hall : (d ++ [u]).all (fun v => v._id != doc._id) =
      d.all (fun v => v._id != doc._id) := by
    rw [List.all_append]
    simp [hne]
  have hany : (d ++ [u]).any (fun v => v._id != doc._id && v.email == doc.email) =
      d.any (fun v => v._id != doc._id && v.email == doc.email) := by
    rw [List.any_append]
    simp [he]
  unfold save
  rw [hall, hany]
  cases hval : validate doc with
  | false => rfl
  | true =>
    by_cases hdo : doc = orig
    · simp only [hdo, if_true, Bool.true_eq_false, if_false]
    · cases h3 : d.all (fun v => v._id != doc._id) with
      | true => simp [hdo]
      | false =>
        cases h4 : (doc.email != orig.email &&
            d.any (fun v => v._id != doc._id && v.email == doc.email)) with
        | true => simp [hdo]
        | false =>
          simp only [hdo, if_false, Bool.true_eq_false, Bool.false_eq_true]
          congr 1
          rw [List.map_append, List.map_singleton]
          simp [hne]

theorem modifyStep_replaceId (now : Int) (d : Directory) (c : Option String)
    (f : User → User) (i : Nat) (s : User)
    (hf : ∀ u, (f u)._id = u._id)
    (hs : s._id = i) (hsc : some s.clerkId ≠ c)
    (hic : ∀ v ∈ d, v._id = i → some v.clerkId ≠ c)
    (he : ∀ r, findByClerkId d c = some r →
      (∀ v ∈ d, v._id = i → v.email ≠ (f r).email) ∧ s.email ≠ (f r).email) :
    modifyStep now (replaceId i s d) c f = replaceId i s (modifyStep now d c f) := by
  unfold modifyStep
  rw [findByClerkId_replaceId d i s c hic hsc]
  cases hfind : findByClerkId d c with
  | none => rfl
  | some r =>
    simp only
    have hri : (f r)._id ≠ i := by
      rw [hf r]
      intro h
      exact hic r (findByClerkId_mem hfind) h (findByClerkId_some_clerkId hfind).symm
    obtain ⟨he1, he2⟩ := he r hfind
    rw [save_replaceId hs hri he1 he2]
    cases save now d r (f r) with
    | ok d' => rfl
    | error e => rfl

theorem modifyStep_append (now : Int) (d : Directory) (c : Option String)
    (f : User → User) (u : User)
    (hf : ∀ v, (f v)._id = v._id)
    (huc : some u.clerkId ≠ c) (hu : ∀ v ∈ d, v._id ≠ u._id)
    (he : ∀ r, findByClerkId d c = some r → u.email ≠ (f r).email) :
    modifyStep now (d ++ [u]) c f = modifyStep now d c f ++ [u] := by
  unfold modifyStep
  rw [findByClerkId_append_other d u c huc]
  cases hfind : findByClerkId d c with
  | none => rfl
  | some r =>
    simp only
    have hne : u._id ≠ (f r)._id := by
      rw [hf r]
      exact fun h => hu r (findByClerkId_mem hfind) h.symm
    rw [save_append hne (he r hfind)]
    cases save now d r (f r) with
    | ok d' => rfl
    | error e => rfl

/-- The check of `create` against the unique indexes, as a function of the directory. -/
theorem create_eq [CaseMapping] (now : Int) (d : Directory) (i : UserInput) :
    create now d i =
      match buildUser now (nextId d) i with
      | none => .error .validationError
      | some u =>
        if validate u = false then .error .validationError
        else if d.any (fun v => v.clerkId == u.clerkId || v.email == u.email) then
          .error .duplicateKey
        else .ok (d ++ [u], u) := rfl

theorem insertStep_replaceId [CaseMapping] (now : Int) (d : Directory) (ud : UserData) (i : Nat)
    (s : User)
    (hs : s._id = i) (hsc : some s.clerkId ≠ ud.clerkId) (hse : s.email ≠ setEmail ud.email)
    (hi : ∀ v ∈ d, v._id = i → some v.clerkId ≠ ud.clerkId ∧ v.email ≠ setEmail ud.email)
    (hmem : ∃ v ∈ d, v._id = i) :
    insertStep now (replaceId i s d) ud = replaceId i s (insertStep now d ud) := by
  unfold insertStep
  rw [findByClerkId_replaceId d i s ud.clerkId (fun v hv hvi => (hi v hv hvi).1) hsc]
  cases hfind : findByClerkId d ud.clerkId with
  | some r => rfl
  | none =>
    simp only
    rw [create_eq, create_eq, nextId_replaceId hs]
    cases hb : buildUser now (nextId d) (createdInput ud) with
    | none => rfl
    | some u =>
      simp only
      obtain ⟨huid, huc, hue⟩ := buildUser_fields hb
      have hue' : u.email = setEmail ud.email := hue ud.email rfl
      have huc' : ud.clerkId = some u.clerkId := huc
      have hany : (replaceId i s d).any (fun v => v.clerkId == u.clerkId || v.email == u.email) =
          d.any (fun v => v.clerkId == u.clerkId || v.email == u.email) := by
        apply any_map_congr
        intro v hv
        by_cases hvi : v._id = i
        · obtain ⟨h1, h2⟩ := hi v hv hvi
          rw [huc'] at h1 hsc
          rw [← hue'] at h2 hse
          have e1 : (v.clerkId == u.clerkId) = false := by simpa using h1
          have e2 : (v.email == u.email) = false := by simpa using h2
          have e3 : (s.clerkId == u.clerkId) = false := by simpa using hsc
          have e4 : (s.email == u.email) = false := by simpa using hse
          simp only [hvi, if_true, e1, e2, e3, e4]
        · simp only [hvi, if_false]
      rw [hany]
      cases validate u with
      | false => rfl
      | true =>
        cases d.any (fun v => v.clerkId == u.clerkId || v.email == u.email) with
        | true => rfl
        | false =>
          simp only [Bool.true_eq_false, Bool.false_eq_true, if_false]
          unfold replaceId
          rw [List.map_append, List.map_singleton]
          have hne : u._id ≠ i := by
            obtain ⟨v, hv, hvi⟩ := hmem
            have := lt_nextId hv
            omega
          simp [hne]

/-- An insertion next to an appended record of another `clerkId` and another address: it is
refused when it was refused without that record, and it inserts the same record, up to its
`_id`, when it inserted one. -/
theorem insertStep_append [CaseMapping] (now : Int) (d : Directory) (ud : UserData) (u : User)
    (huc : some u.clerkId ≠ ud.clerkId) (hue : u.email ≠ setEmail ud.email) :
    (insertStep now d ud = d ∧ insertStep now (d ++ [u]) ud = d ++ [u]) ∨
    ∃ v v', insertStep now d ud = d ++ [v] ∧ insertStep now (d ++ [u]) ud = d ++ [u] ++ [v'] ∧
      forgetId v' = forgetId v ∧ ud.clerkId = some v.clerkId ∧ v.email = setEmail ud.email ∧
      v._id = nextId d ∧ findByClerkId d ud.clerkId = none := by
  unfold insertStep
  rw [findByClerkId_append_other d u ud.clerkId huc]
  cases hfind : findByClerkId d ud.clerkId with
  | some r => exact Or.inl ⟨rfl, rfl⟩
  | none =>
    simp only
    rw [create_eq, create_eq, buildUser_id now (nextId d) (nextId (d ++ [u]))]
    cases hb : buildUser now (nextId d) (createdInput ud) with
    | none => exact Or.inl ⟨rfl, rfl⟩
    | some v =>
      simp only [Option.map_some']
      obtain ⟨hvid, hvc, hve⟩ := buildUser_fields hb
      have hve' : v.email = setEmail ud.email := hve ud.email rfl
      have hvc' : ud.clerkId = some v.clerkId := hvc
      have hvalid : validate { v with _id := nextId (d ++ [u]) } = validate v := rfl
      simp only [hvalid]
      cases validate v with
      | false => exact Or.inl ⟨rfl, rfl⟩
      | true =>
        have hany : (d ++ [u]).any (fun w => w.clerkId == v.clerkId || w.email == v.email) =
            d.any (fun w => w.clerkId == v.clerkId || w.email == v.email) := by
          rw [List.any_append]
          rw [hvc'] at huc
          rw [← hve'] at hue
          have e1 : (u.clerkId == v.clerkId) = false := by simpa using huc
          have e2 : (u.email == v.email) = false := by simpa using hue
          simp [e1, e2]
        simp only [hany]
        cases d.any (fun w => w.clerkId == v.clerkId || w.email == v.email) with
        | true => exact Or.inl ⟨rfl, rfl⟩
        | false =>
          exact Or.inr ⟨v, { v with _id := nextId (d ++ [u]) }, rfl, rfl, rfl, hvc', hve', hvid,
            by first | rfl | trivial⟩

theorem modifyStep_cases (now : Int) (d : Directory) (c : Option String) (f : User → User)
    (hf : ∀ u, (f u)._id = u._id) :
    modifyStep now d c f = d ∨
    ∃ r, findByClerkId d c = some r ∧
      modifyStep now d c f = replaceId r._id { f r with updatedAt := now } d := by
  unfold modifyStep
  cases hfind : findByClerkId d c with
  | none => exact Or.inl rfl
  | some r =>
    simp only
    cases hs : save now d r (f r) with
    | error e => exact Or.inl rfl
    | ok d' =>
      obtain ⟨-, h | h⟩ := save_ok hs
      · exact Or.inl h.2
      · refine Or.inr ⟨r, rfl, ?_⟩
        simp only
        rw [h.2, hf r]
        rfl

theorem insertStep_cases [CaseMapping] (now : Int) (d : Directory) (ud : UserData) :
    insertStep now d ud = d ∨
    ∃ v, insertStep now d ud = d ++ [v] ∧ ud.clerkId = some v.clerkId ∧
      v.email = setEmail ud.email ∧ v._id = nextId d := by
  unfold insertStep
  cases hfind : findByClerkId d ud.clerkId with
  | some r => exact Or.inl rfl
  | none =>
    simp only
    cases hcr : create now d (createdInput ud) with
    | error e => exact Or.inl rfl
    | ok r =>
      obtain ⟨h1, h2, -, -⟩ := create_ok_checks hcr
      obtain ⟨-, h3, -⟩ := create_ok hcr
      refine Or.inr ⟨r.2, h1, h3, ?_, h2⟩
      rw [create_eq] at hcr
      cases hb : buildUser now (nextId d) (createdInput ud) with
      | none => rw [hb] at hcr; simp at hcr
      | some u =>
        rw [hb] at hcr
        simp only at hcr
        split at hcr
        · simp at hcr
        · split at hcr
          · simp at hcr
          · simp only [Except.ok.injEq] at hcr
            rw [← hcr]
            exact (buildUser_fields hb).2.2 ud.email rfl

/-- Two modifications of records with different `clerkId`s and untouched addresses commute. -/
theorem modify_modify_comm (t1 t2 : Int) (d : Directory) (c1 c2 : Option String)
    (f g : User → User)
    (hids : (d.map (fun u => u._id)).Nodup) (hc : c1 ≠ c2)
    (hf : ∀ u, (f u)._id = u._id) (hfc : ∀ u, (f u).clerkId = u.clerkId)
    (hg : ∀ u, (g u)._id = u._id) (hgc : ∀ u, (g u).clerkId = u.clerkId)
    (he : ∀ r1 r2, findByClerkId d c1 = some r1 → findByClerkId d c2 = some r2 →
      r2.email ≠ (f r1).email ∧ (g r2).email ≠ (f r1).email ∧ r1.email ≠ (g r2).email) :
    modifyStep t2 (modifyStep t1 d c1 f) c2 g = modifyStep t1 (modifyStep t2 d c2 g) c1 f := by
  have key1 : ∀ r1, findByClerkId d c1 = some r1 →
      modifyStep t2 (replaceId r1._id { f r1 with updatedAt := t1 } d) c2 g =
        replaceId r1._id { f r1 with updatedAt := t1 } (modifyStep t2 d c2 g) := by
    intro r1 h1
    have hc1 := findByClerkId_some_clerkId h1
    refine modifyStep_replaceId t2 d c2 g r1._id { f r1 with updatedAt := t1 } hg (hf r1) ?_ ?_ ?_
    · show some (f r1).clerkId ≠ c2
      rw [hfc r1, ← hc1]; exact hc
    · intro v hv hvi
      rw [eq_of_id_eq hids hv (findByClerkId_mem h1) hvi, ← hc1]
      exact hc
    · intro r2 h2
      obtain ⟨-, e2, e3⟩ := he r1 r2 h1 h2
      refine ⟨?_, ?_⟩
      · intro v hv hvi
        rw [eq_of_id_eq hids hv (findByClerkId_mem h1) hvi]
        exact e3
      · show (f r1).email ≠ (g r2).email
        exact fun h => e2 h.symm
  have key2 : ∀ r2, findByClerkId d c2 = some r2 →
      modifyStep t1 (replaceId r2._id { g r2 with updatedAt := t2 } d) c1 f =
        replaceId r2._id { g r2 with updatedAt := t2 } (modifyStep t1 d c1 f) := by
    intro r2 h2
    have hc2 := findByClerkId_some_clerkId h2
    refine modifyStep_replaceId t1 d c1 f r2._id { g r2 with updatedAt := t2 } hf (hg r2) ?_ ?_ ?_
    · show some (g r2).clerkId ≠ c1
      rw [hgc r2, ← hc2]; exact fun h => hc h.symm
    · intro v hv hvi
      rw [eq_of_id_eq hids hv (findByClerkId_mem h2) hvi, ← hc2]
      exact fun h => hc h.symm
    · intro r1 h1
      obtain ⟨e1, e2, -⟩ := he r1 r2 h1 h2
      refine ⟨?_, ?_⟩
      · intro v hv hvi
        rw [eq_of_id_eq hids hv (findByClerkId_mem h2) hvi]
        exact e1
      · exact e2
  rcases modifyStep_cases t1 d c1 f hf with h1 | ⟨r1, hr1, h1⟩
  · rcases modifyStep_cases t2 d c2 g hg with h2 | ⟨r2, hr2, h2⟩
    · rw [h1, h2, h1]
    · rw [h1, h2, key2 r2 hr2, h1]
  · rcases modifyStep_cases t2 d c2 g hg with h2 | ⟨r2, hr2, h2⟩
    · rw [h1, h2, key1 r1 hr1, h2, h1]
    · rw [h1, h2, key1 r1 hr1, key2 r2 hr2, h1, h2]
      have hne : r1._id ≠ r2._id := by
        intro h
        have := eq_of_id_eq hids (findByClerkId_mem hr1) (findByClerkId_mem hr2) h
        rw [this] at hr1
        have a := findByClerkId_some_clerkId hr1
        have b := findByClerkId_some_clerkId hr2
        exact hc (a.trans b.symm)
      exact @replaceId_comm r1._id r2._id { f r1 with updatedAt := t1 }
        { g r2 with updatedAt := t2 } hne (hf r1) (hg r2) d

/-- An insertion and a modification for different `clerkId`s and untouched addresses
commute. -/
theorem insert_modify_comm [CaseMapping] (t1 t2 : Int) (d : Directory) (ud : UserData)
    (c2 : Option String)
    (g : User → User)
    (hc : ud.clerkId ≠ c2)
    (hg : ∀ u, (g u)._id = u._id) (hgc : ∀ u, (g u).clerkId = u.clerkId)
    (hids : (d.map (fun u => u._id)).Nodup)
    (he : ∀ r2, findByClerkId d c2 = some r2 →
      r2.email ≠ setEmail ud.email ∧ (g r2).email ≠ setEmail ud.email) :
    modifyStep t2 (insertStep t1 d ud) c2 g = insertStep t1 (modifyStep t2 d c2 g) ud := by
  have key : ∀ r2, findByClerkId d c2 = some r2 →
      insertStep t1 (replaceId r2._id { g r2 with updatedAt := t2 } d) ud =
        replaceId r2._id { g r2 with updatedAt := t2 } (insertStep t1 d ud) := by
    intro r2 h2
    have hc2 := findByClerkId_some_clerkId h2
    obtain ⟨e1, e2⟩ := he r2 h2
    refine insertStep_replaceId t1 d ud r2._id { g r2 with updatedAt := t2 } (hg r2) ?_ ?_ ?_ ?_
    · show some (g r2).clerkId ≠ ud.clerkId
      rw [hgc r2, ← hc2]; exact fun h => hc h.symm
    · exact e2
    · intro v hv hvi
      rw [eq_of_id_eq hids hv (findByClerkId_mem h2) hvi, ← hc2]
      exact ⟨fun h => hc h.symm, e1⟩
    · exact ⟨r2, findByClerkId_mem h2, rfl⟩
  rcases insertStep_cases t1 d ud with h1 | ⟨v, h1, hvc, hve, hvid⟩
  · rcases modifyStep_cases t2 d c2 g hg with h2 | ⟨r2, hr2, h2⟩
    · rw [h1, h2, h1]
    · rw [h1, h2, key r2 hr2, h1]
  · have happ : modifyStep t2 (d ++ [v]) c2 g = modifyStep t2 d c2 g ++ [v] := by
      apply modifyStep_append _ _ _ _ _ hg
      · rw [← hvc]; exact hc
      · intro w hw
        have := lt_nextId hw
        omega
      · intro r2 hr2
        rw [hve]
        exact fun h => (he r2 hr2).2 h.symm
    rcases modifyStep_cases t2 d c2 g hg with h2 | ⟨r2, hr2, h2⟩
    · rw [h1, happ, h2, h1]
    · rw [h1, happ, h2, key r2 hr2, h1]
      unfold replaceId
      rw [List.map_append, List.map_singleton]
      have hne : v._id ≠ r2._id := by
        have := lt_nextId (findByClerkId_mem hr2)
        omega
      simp [hne]

/-- Two insertions for different `clerkId`s and different addresses give the same records,
up to the order of insertion and the `_id`. -/
theorem insert_insert_comm [CaseMapping] (t1 t2 : Int) (d : Directory) (ud1 ud2 : UserData)
    (hc : ud1.clerkId ≠ ud2.clerkId) (he : setEmail ud1.email ≠ setEmail ud2.email) :
    SameRecords (insertStep t2 (insertStep t1 d ud1) ud2)
      (insertStep t1 (insertStep t2 d ud2) ud1) := by
  unfold SameRecords
  have hlen : ∀ (v : User), d ++ [v] ≠ d := by
    intro v h
    have := congrArg List.length h
    simp at this
  rcases insertStep_cases t1 d ud1 with h1 | ⟨v1, h1, hvc1, hve1, -⟩
  · rcases insertStep_cases t2 d ud2 with h2 | ⟨v2, h2, hvc2, hve2, -⟩
    · rw [h1, h2, h1]
    · rw [h1, h2]
      rcases insertStep_append t1 d ud1 v2 (by rw [← hvc2]; exact fun h => hc h.symm)
          (by rw [hve2]; exact fun h => he h.symm) with ⟨-, h3⟩ | ⟨v, v', h3, -⟩
      · rw [h3]
      · rw [h1] at h3
        exact absurd h3.symm (hlen v)
  · rcases insertStep_cases t2 d ud2 with h2 | ⟨v2, h2, hvc2, hve2, -⟩
    · rw [h1, h2, h1]
      rcases insertStep_append t2 d ud2 v1 (by rw [← hvc1]; exact hc)
          (by rw [hve1]; exact he) with ⟨-, h3⟩ | ⟨v, v', h3, -⟩
      · rw [h3]
      · rw [h2] at h3
        exact absurd h3.symm (hlen v)
    · rw [h1, h2]
      rcases insertStep_append t2 d ud2 v1 (by rw [← hvc1]; exact hc)
          (by rw [hve1]; exact he) with ⟨h3, -⟩ | ⟨w2, w2', h3, h4, h5, -⟩
      · rw [h2] at h3
        exact absurd h3 (hlen v2)
      · rcases insertStep_append t1 d ud1 v2 (by rw [← hvc2]; exact fun h => hc h.symm)
            (by rw [hve2]; exact fun h => he h.symm) with ⟨h6, -⟩ | ⟨w1, w1', h6, h7, h8, -⟩
        · rw [h1] at h6
          exact absurd h6 (hlen v1)
        · rw [h4, h7]
          rw [h2] at h3
          rw [h1] at h6
          have e2 : v2 = w2 := by simpa using h3
          have e1 : v1 = w1 := by simpa using h6
          subst e1 e2
          simp only [List.map_append, List.map_singleton, h5, h8, List.append_assoc]
          apply List.Perm.append_left
          exact List.Perm.swap _ _ _

theorem sameRecords_of_eq {d d' : Directory} (h : d = d') : SameRecords d d' := by
  rw [h]
  exact List.Perm.refl _

theorem stored_mem_touchedEmails [CaseMapping] {d : Directory} {b : WebhookBody} {r : User}
    (h : findByClerkId d (eventId b) = some r) : r.email ∈ touchedEmails d b := by
  unfold touchedEmails
  rw [h]
  simp

/-- What an event does to the directory: nothing, an insertion, or a modification of the
record of its id. -/
theorem handleWebhook_step [CaseMapping] (b : WebhookBody) :
    (∀ now d, (handleWebhook now d b).1 = d) ∨
    (b.type = some "user.created" ∧ ∃ ud : UserData, ud.clerkId = eventId b ∧
        (∀ d, setEmail ud.email ∈ touchedEmails d b) ∧
        ∀ now d, (handleWebhook now d b).1 = insertStep now d ud) ∨
    (b.type ≠ some "user.created" ∧ ∃ f : User → User,
        (∀ u, (f u)._id = u._id) ∧ (∀ u, (f u).clerkId = u.clerkId) ∧
        (∀ d r, findByClerkId d (eventId b) = some r → (f r).email ∈ touchedEmails d b) ∧
        ∀ now d, (handleWebhook now d b).1 = modifyStep now d (eventId b) f) := by
  cases hdata : b.data with
  | none =>
    left
    intro now d
    have hex : extractUserData b = none := by simp [extractUserData, hdata]
    unfold handleWebhook
    simp only [hex]
    split
    · rfl
    · split
      · rfl
      · split <;> rfl
  | some data =>
    have hex := @extractUserData_some b data hdata
    have hev : eventId b = data.id := by simp [eventId, hdata]
    by_cases hc : b.type = some "user.created"
    · right; left
      refine ⟨hc,
        ({ clerkId := data.id, email := firstEmail data,
           firstName := orEmpty data.first_name, lastName := orEmpty data.last_name,
           emailVerified := firstEmailVerified data,
           createdAt := dateOfSeconds data.created_at,
           updatedAt := dateOfSeconds data.updated_at } : UserData), hev.symm, ?_, ?_⟩
      · intro d
        unfold touchedEmails
        simp [hc, hdata]
      · intro now d
        unfold handleWebhook insertStep
        simp only [hc, if_true, hex]
        cases findByClerkId d data.id with
        | some r => rfl
        | none =>
          simp only
          cases create now d (createdInput _) <;> rfl
    · by_cases hu : b.type = some "user.updated"
      · right; right
        refine ⟨hc, fun u => applyUpdate u
          { clerkId := data.id, email := firstEmail data,
            firstName := orEmpty data.first_name, lastName := orEmpty data.last_name,
            emailVerified := firstEmailVerified data,
            createdAt := dateOfSeconds data.created_at,
            updatedAt := dateOfSeconds data.updated_at }, fun _ => rfl, fun _ => rfl, ?_, ?_⟩
        · intro d r _
          unfold touchedEmails
          simp [hu, hdata, applyUpdate]
        · intro now d
          unfold handleWebhook modifyStep
          simp only [hc, if_false, hu, if_true, hex, hev]
          cases findByClerkId d data.id with
          | none => rfl
          | some r =>
            simp only
            cases save now d r (applyUpdate r _) <;> rfl
      · by_cases hdel : b.type = some "user.deleted"
        · right; right
          refine ⟨hc, fun u => { u with isActive := false }, fun _ => rfl, fun _ => rfl,
            ?_, ?_⟩
          · intro d r hr
            show r.email ∈ touchedEmails d b
            exact stored_mem_touchedEmails hr
          · intro now d
            unfold handleWebhook modifyStep
            simp only [hc, if_false, hu, hdel, if_true, hex, hev]
            cases findByClerkId d data.id with
            | none => rfl
            | some r =>
              simp only
              cases save now d r { r with isActive := false } <;> rfl
        · left
          intro now d
          unfold handleWebhook
          simp only [hc, hu, hdel, if_false]

/-! ## Lemmas on concurrent create calls -/

theorem findByClerkId_of_mem {D : Directory} {c : String} (h : ∃ w ∈ D, w.clerkId = c) :
    ∃ r, findByClerkId D (some c) = some r := by
  obtain ⟨w, hw, hc⟩ := h
  unfold findByClerkId
  simp only
  cases hf : D.find? (fun u => u.clerkId == c) with
  | some r => exact ⟨r, rfl⟩
  | none =>
    rw [List.find?_eq_none] at hf
    have := hf w hw
    simp [hc] at this

/-- An insert that went through on `d` is refused by the unique index on `clerkId` once the
directory holds a record with that `clerkId`. -/
theorem create_dup [CaseMapping] {now : Int} {d : Directory} {i : UserInput}
    {r : Directory × User} (h : create now d i = .ok r) (D : Directory)
    (hD : ∃ w ∈ D, w.clerkId = r.2.clerkId) : create now D i = .error .duplicateKey := by
  rw [create_eq] at h ⊢
  rw [buildUser_id now (nextId d) (nextId D) i]
  cases hb : buildUser now (nextId d) i with
  | none => rw [hb] at h; simp at h
  | some u =>
    rw [hb] at h
    simp only [Option.map_some'] at h ⊢
    have hvalid : validate { u with _id := nextId D } = validate u := rfl
    simp only [hvalid]
    split at h
    · simp at h
    · rename_i hv
      simp only [hv, if_false]
      split at h
      · simp at h
      · simp only [Except.ok.injEq] at h
        have hr : r.2 = u := by rw [← h]
        obtain ⟨w, hw, hc⟩ := hD
        have hany : D.any (fun v => v.clerkId == u.clerkId || v.email == u.email) = true := by
          rw [List.any_eq_true]
          exact ⟨w, hw, by simp [hc, hr]⟩
        simp [hany]

theorem handleSignup_created [CaseMapping] {now : Int} {d : Directory} {body : SignupBody}
    {data : Option DataView}
    (h : (handleSignup now d body).2 =
      .json 201 { success := true, message := some "User created successfully" } data) :
    findByClerkId d body.clerkId = none ∧
    ∃ e r, body.email = some e ∧ findByEmail d e = none ∧
      create now d (signupInput body) = .ok r := by
  unfold handleSignup at h
  split at h
  · simp at h
  · rename_i hfind
    refine ⟨hfind, ?_⟩
    split at h
    · simp at h
    · rename_i e he
      split at h
      · simp at h
      · rename_i hfe
        split at h
        · simp at h
        · rename_i r hcr
          exact ⟨e, r, he, hfe, hcr⟩

theorem handleWebhook_created [CaseMapping] {now : Int} {d : Directory} {body : WebhookBody}
    (ht : body.type = some "user.created") (h : (handleWebhook now d body).1 ≠ d) :
    ∃ ud r, extractUserData body = some ud ∧ findByClerkId d ud.clerkId = none ∧
      create now d (createdInput ud) = .ok r := by
  unfold handleWebhook at h
  simp only [ht, if_true] at h
  split at h
  · exact absurd rfl h
  · rename_i ud hex
    split at h
    · exact absurd rfl h
    · rename_i hfind
      split at h
      · rename_i r hcr
        exact ⟨ud, r, hex, hfind, hcr⟩
      · exact absurd rfl h

theorem eventId_eq_clerkId {body : WebhookBody} {ud : UserData}
    (h : extractUserData body = some ud) : eventId body = ud.clerkId := by
  cases hd : body.data with
  | none => simp [extractUserData, hd] at h
  | some data =>
    rw [extractUserData_some hd] at h
    simp only [Option.some.injEq] at h
    rw [← h]
    simp [eventId, hd]

theorem ready_of_createsAlone [CaseMapping] {now : Int} {d : Directory} {c : String}
    {call : CreateCall} (hc : call.clerkId = some c) (h : call.CreatesAlone now d) :
    Ready now d c call := by
  cases call with
  | signup body =>
    obtain ⟨data, h⟩ := h
    obtain ⟨hfind, e, r, he, hfe, hcr⟩ := handleSignup_created h
    have hc' : body.clerkId = some c := hc
    obtain ⟨h1, h2, -⟩ := create_ok hcr
    have h2' : body.clerkId = some r.2.clerkId := h2
    have hrc : r.2.clerkId = c := by
      rw [hc'] at h2'
      simp only [Option.some.injEq] at h2'
      exact h2'.symm
    refine ⟨by rw [← hc']; exact hfind, hc, e, r.2, he, hfe, ?_, hrc⟩
    rw [hcr, ← h1]
  | created body =>
    obtain ⟨ht, h⟩ := h
    obtain ⟨ud, r, hex, hfind, hcr⟩ := handleWebhook_created ht h
    have hc' : eventId body = some c := hc
    have hudc : ud.clerkId = some c := by rw [← eventId_eq_clerkId hex]; exact hc'
    obtain ⟨h1, h2, -⟩ := create_ok hcr
    have h2' : ud.clerkId = some r.2.clerkId := h2
    have hrc : r.2.clerkId = c := by
      rw [hudc] at h2'
      simp only [Option.some.injEq] at h2'
      exact h2'.symm
    refine ⟨by rw [← hudc]; exact hfind, hc, ht, ud, r.2, hex, hudc, ?_, hrc⟩
    rw [hcr, ← h1]

/-- The last step of a `handleSignup` call that inserted on `d` finishes it as the handler
does on its own. -/
theorem stepSignup_inserted [CaseMapping] {now : Int} {d : Directory} {body : SignupBody}
    {c e : String} {D : Directory} {u : User}
    (hc : body.clerkId = some c) (hfind : findByClerkId d (some c) = none)
    (he : body.email = some e) (hfe : findByEmail d e = none)
    (hcr : create now d (signupInput body) = .ok (D, u)) :
    stepSignup now D body (.inserted u) =
      ((handleSignup now d body).1, .done (handleSignup now d body).2) := by
  unfold handleSignup stepSignup
  simp only [hc, hfind, he, hfe, hcr]
  cases updateLastActivity now D u <;> rfl

theorem handleWebhook_ready [CaseMapping] {now : Int} {d : Directory} {body : WebhookBody}
    {ud : UserData} {r : Directory × User}
    (ht : body.type = some "user.created") (hex : extractUserData body = some ud)
    (hfind : findByClerkId d ud.clerkId = none)
    (hcr : create now d (createdInput ud) = .ok r) :
    handleWebhook now d body = (r.1, ok200) := by
  unfold handleWebhook
  simp only [ht, if_true, hex, hfind, hcr]

/-- After a successful `save` of a document with the `_id` and `clerkId` of the stored one,
the directory holds a record with that `clerkId`. -/
theorem save_mem_clerkId {now : Int} {D D' : Directory} {orig doc : User}
    (hs : save now D orig doc = .ok D') (hm : orig ∈ D) (hid : doc._id = orig._id)
    (hc : doc.clerkId = orig.clerkId) : ∃ w ∈ D', w.clerkId = orig.clerkId := by
  obtain ⟨-, h | h⟩ := save_ok hs
  · rw [h.2]; exact ⟨orig, hm, rfl⟩
  · rw [h.2]
    refine ⟨{ doc with updatedAt := now }, ?_, hc⟩
    rw [List.mem_map]
    exact ⟨orig, hm, by simp [hid]⟩

theorem pending_step [CaseMapping] {now : Int} {d : Directory} {c : String}
    {call : CreateCall} (hr : Ready now d c call) {s : InFlight} (hcall : s.call = call)
    (hp : s.pending = true) :
    ((s.step now d).1 = d ∧ (s.step now d).2.call = call ∧ (s.step now d).2.pending = true) ∨
    (Winning now d call (s.step now d).1 (s.step now d).2 ∧
      ∃ w ∈ (s.step now d).1, w.clerkId = c) := by
  obtain ⟨hfind, hc, hrest⟩ := hr
  cases s with
  | signup body p =>
    have hcall' : call = .signup body := hcall.symm
    subst hcall'
    obtain ⟨e, u, he, hfe, hcr, huc⟩ := hrest
    have hc' : body.clerkId = some c := hc
    cases p with
    | start =>
      left
      simp [InFlight.step, stepSignup, hc', hfind, InFlight.call, InFlight.pending]
    | idChecked =>
      left
      simp [InFlight.step, stepSignup, he, hfe, InFlight.call, InFlight.pending]
    | checked =>
      right
      simp only [InFlight.step, stepSignup, hcr]
      exact ⟨Or.inl ⟨body, u, rfl, rfl, hcr⟩, u, by simp, huc⟩
    | inserted v => simp [InFlight.pending] at hp
    | done r => simp [InFlight.pending] at hp
  | created body p =>
    have hcall' : call = .created body := hcall.symm
    subst hcall'
    obtain ⟨ht, ud, u, hex, hudc, hcr, huc⟩ := hrest
    cases p with
    | start =>
      left
      simp [InFlight.step, stepCreated, hex, hudc, hfind, InFlight.call, InFlight.pending]
    | checked =>
      right
      simp only [InFlight.step, stepCreated, hex, hcr]
      refine ⟨Or.inr ⟨rfl, .result ok200, rfl, ?_⟩, u, by simp, huc⟩
      have := handleWebhook_ready ht hex (by rw [hudc]; exact hfind) hcr
      simp only [CreateCall.alone, this]
    | done r => simp [InFlight.pending] at hp

theorem winning_step [CaseMapping] {now : Int} {d : Directory} {c : String}
    {call : CreateCall} (hr : Ready now d c call) {D : Directory} {s : InFlight}
    (hw : Winning now d call D s) :
    Winning now d call (s.step now D).1 (s.step now D).2 ∧
    ((∃ w ∈ D, w.clerkId = c) → ∃ w ∈ (s.step now D).1, w.clerkId = c) := by
  obtain ⟨hfind, hc, hrest⟩ := hr
  rcases hw with ⟨body, u, hcall, hs, hcr⟩ | ⟨hcall, o, ho, halone⟩
  · subst hcall hs
    obtain ⟨e, u0, he, hfe, hcr0, huc⟩ := hrest
    have hc' : body.clerkId = some c := hc
    have hstep := stepSignup_inserted hc' hfind he hfe hcr
    rw [hcr0] at hcr
    simp only [Except.ok.injEq, Prod.mk.injEq] at hcr
    obtain ⟨hD, hu⟩ := hcr
    subst hD hu
    constructor
    · right
      simp only [InFlight.step, hstep]
      exact ⟨rfl, _, rfl, rfl⟩
    · intro _
      simp only [InFlight.step]
      unfold stepSignup
      simp only
      cases hla : updateLastActivity now (d ++ [u0]) u0 with
      | error e => exact ⟨u0, by simp, huc⟩
      | ok r' =>
        simp only
        unfold updateLastActivity at hla
        split at hla
        · rename_i d' hsave
          simp only [Except.ok.injEq] at hla
          subst hla
          have := save_mem_clerkId hsave (by simp) rfl rfl
          rw [huc] at this
          exact this
        · simp at hla
  · cases s with
    | signup body p =>
      cases p with
      | done r =>
        simp only [InFlight.step, stepSignup]
        exact ⟨Or.inr ⟨hcall, o, ho, halone⟩, fun h => h⟩
      | start => simp [InFlight.outcome] at ho
      | idChecked => simp [InFlight.outcome] at ho
      | checked => simp [InFlight.outcome] at ho
      | inserted v => simp [InFlight.outcome] at ho
    | created body p =>
      cases p with
      | done r =>
        simp only [InFlight.step, stepCreated]
        exact ⟨Or.inr ⟨hcall, o, ho, halone⟩, fun h => h⟩
      | start => simp [InFlight.outcome] at ho
      | checked => simp [InFlight.outcome] at ho

theorem beaten_step [CaseMapping] {now : Int} {d : Directory} {c : String}
    {call : CreateCall} (hr : Ready now d c call) {D : Directory} {s : InFlight}
    (hb : Beaten call s) (hm : ∃ w ∈ D, w.clerkId = c) :
    (s.step now D).1 = D ∧ Beaten call (s.step now D).2 := by
  obtain ⟨hfind, hc, hrest⟩ := hr
  obtain ⟨hcall, hb⟩ := hb
  obtain ⟨r0, hr0⟩ := findByClerkId_of_mem hm
  cases s with
  | signup body p =>
    have hcall' : call = .signup body := hcall.symm
    subst hcall'
    obtain ⟨e, u, he, hfe, hcr, huc⟩ := hrest
    have hc' : body.clerkId = some c := hc
    have hdup := create_dup hcr D (by simpa [huc] using hm)
    cases p with
    | start =>
      simp only [InFlight.step, stepSignup, hc', hr0]
      exact ⟨by first | rfl | trivial, rfl, Or.inr ⟨_, rfl, Or.inl rfl⟩⟩
    | idChecked =>
      simp only [InFlight.step, stepSignup, he]
      cases findByEmail D e with
      | some v => exact ⟨rfl, rfl, Or.inr ⟨_, rfl, Or.inr (Or.inl rfl)⟩⟩
      | none => exact ⟨rfl, rfl, Or.inl rfl⟩
    | checked =>
      simp only [InFlight.step, stepSignup, hdup]
      exact ⟨by first | rfl | trivial, rfl, Or.inr ⟨_, rfl, Or.inr (Or.inr rfl)⟩⟩
    | inserted v =>
      rcases hb with hb | ⟨o, ho, -⟩
      · simp [InFlight.pending] at hb
      · simp [InFlight.outcome] at ho
    | done r =>
      simp only [InFlight.step, stepSignup]
      exact ⟨by first | rfl | trivial, rfl, hb⟩
  | created body p =>
    have hcall' : call = .created body := hcall.symm
    subst hcall'
    obtain ⟨ht, ud, u, hex, hudc, hcr, huc⟩ := hrest
    have hdup := create_dup hcr D (by simpa [huc] using hm)
    cases p with
    | start =>
      simp only [InFlight.step, stepCreated, hex, hudc, hr0]
      exact ⟨by first | rfl | trivial, rfl, Or.inr ⟨_, rfl, Or.inl rfl⟩⟩
    | checked =>
      simp only [InFlight.step, stepCreated, hex, hdup]
      exact ⟨by first | rfl | trivial, rfl, Or.inr ⟨_, rfl, Or.inr rfl⟩⟩
    | done r =>
      simp only [InFlight.step, stepCreated]
      exact ⟨by first | rfl | trivial, rfl, hb⟩

/-- The invariant holds when the two calls arrive. -/
theorem raceInv_start [CaseMapping] (now1 now2 : Int) (d : Directory) (c : String)
    (a b : CreateCall) : RaceInv now1 now2 d c a b (d, a.start, b.start) := by
  left
  cases a <;> cases b <;> simp [CreateCall.start, InFlight.call, InFlight.pending]

/-- Every scheduling decision keeps the invariant. -/
theorem raceInv_step [CaseMapping] {now1 now2 : Int} {d : Directory} {c : String}
    {a b : CreateCall} (hra : Ready now1 d c a) (hrb : Ready now2 d c b)
    {s : Directory × InFlight × InFlight} (h : RaceInv now1 now2 d c a b s) (first : Bool) :
    RaceInv now1 now2 d c a b (raceStep now1 now2 s first) := by
  obtain ⟨D, sa, sb⟩ := s
  cases first with
  | true =>
    simp only [raceStep, if_true]
    rcases h with ⟨hD, hca, hpa, hcb, hpb⟩ | ⟨hw, hb, hm⟩ | ⟨hw, hb, hm⟩
    · simp only at hD hca hpa hcb hpb
      subst hD
      rcases pending_step hra hca hpa with ⟨h1, h2, h3⟩ | ⟨h1, h2⟩
      · exact Or.inl ⟨h1, h2, h3, hcb, hpb⟩
      · exact Or.inr (Or.inl ⟨h1, ⟨hcb, Or.inl hpb⟩, h2⟩)
    · obtain ⟨h1, h2⟩ := winning_step hra hw
      exact Or.inr (Or.inl ⟨h1, hb, h2 hm⟩)
    · obtain ⟨h1, h2⟩ := beaten_step hra hb hm
      refine Or.inr (Or.inr ⟨?_, h2, ?_⟩)
      · simp only [h1]; exact hw
      · simp only [h1]; exact hm
  | false =>
    simp only [raceStep, Bool.false_eq_true, if_false]
    rcases h with ⟨hD, hca, hpa, hcb, hpb⟩ | ⟨hw, hb, hm⟩ | ⟨hw, hb, hm⟩
    · simp only at hD hca hpa hcb hpb
      subst hD
      rcases pending_step hrb hcb hpb with ⟨h1, h2, h3⟩ | ⟨h1, h2⟩
      · exact Or.inl ⟨h1, hca, hpa, h2, h3⟩
      · exact Or.inr (Or.inr ⟨h1, ⟨hca, Or.inl hpa⟩, h2⟩)
    · obtain ⟨h1, h2⟩ := beaten_step hrb hb hm
      refine Or.inr (Or.inl ⟨?_, h2, ?_⟩)
      · simp only [h1]; exact hw
      · simp only [h1]; exact hm
    · obtain ⟨h1, h2⟩ := winning_step hrb hw
      exact Or.inr (Or.inr ⟨h1, hb, h2 hm⟩)

/-- Every schedule keeps the invariant. -/
theorem raceInv_race [CaseMapping] {now1 now2 : Int} {d : Directory} {c : String}
    {a b : CreateCall} (hra : Ready now1 d c a) (hrb : Ready now2 d c b)
    (schedule : List Bool) (s : Directory × InFlight × InFlight)
    (h : RaceInv now1 now2 d c a b s) :
    RaceInv now1 now2 d c a b (race now1 now2 schedule s) := by
  induction schedule generalizing s with
  | nil => exact h
  | cons x rest ih =>
    simp only [race, List.foldl_cons]
    exact ih _ (raceInv_step hra hrb h x)

/-- A step takes a call that is not finished one stage further. -/
theorem rank_step [CaseMapping] (now : Int) (D : Directory) (s : InFlight) :
    min 4 (s.rank + 1) ≤ (s.step now D).2.rank := by
  cases s with
  | signup body p =>
    cases p with
    | start =>
      simp only [InFlight.step, stepSignup]
      cases findByClerkId D body.clerkId <;> simp [InFlight.rank]
    | idChecked =>
      simp only [InFlight.step, stepSignup]
      cases body.email with
      | none => simp [InFlight.rank]
      | some e => cases h : findByEmail D e <;> simp [InFlight.rank, h]
    | checked =>
      simp only [InFlight.step, stepSignup]
      cases create now D (signupInput body) <;> simp [InFlight.rank]
    | inserted u =>
      simp only [InFlight.step, stepSignup]
      cases updateLastActivity now D u <;> simp [InFlight.rank]
    | done r => simp [InFlight.step, stepSignup, InFlight.rank]
  | created body p =>
    cases p with
    | start =>
      simp only [InFlight.step, stepCreated]
      cases extractUserData body with
      | none => simp [InFlight.rank]
      | some ud => cases h : findByClerkId D ud.clerkId <;> simp [InFlight.rank, h]
    | checked =>
      simp only [InFlight.step, stepCreated]
      cases extractUserData body with
      | none => simp [InFlight.rank]
      | some ud => cases h : create now D (createdInput ud) <;> simp [InFlight.rank, h]
    | done r => simp [InFlight.step, stepCreated, InFlight.rank]

/-- A schedule takes each call as many stages further as it gives it steps, until the call
is finished. -/
theorem rank_race [CaseMapping] (now1 now2 : Int) (schedule : List Bool)
    (s : Directory × InFlight × InFlight) :
    min 4 (s.2.1.rank + schedule.count true) ≤ (race now1 now2 schedule s).2.1.rank ∧
    min 4 (s.2.2.rank + schedule.count false) ≤ (race now1 now2 schedule s).2.2.rank := by
  induction schedule generalizing s with
  | nil => simp [race]
  | cons x rest ih =>
    obtain ⟨h1, h2⟩ := ih (raceStep now1 now2 s x)
    simp only [race, List.foldl_cons] at h1 h2 ⊢
    cases x with
    | true =>
      have hs := rank_step now1 s.1 s.2.1
      simp only [raceStep, if_true] at h1 h2
      simp only [raceStep, if_true, List.count_cons_self, List.count_cons_of_ne,
        ne_eq, Bool.true_eq_false, not_false_eq_true]
      constructor
      · omega
      · simpa using h2
    | false =>
      have hs := rank_step now2 s.1 s.2.2
      simp only [raceStep, Bool.false_eq_true, if_false] at h1 h2
      simp only [raceStep, Bool.false_eq_true, if_false, List.count_cons_self,
        List.count_cons_of_ne, ne_eq, Bool.false_eq_true, not_false_eq_true]
      constructor
      · simpa using h1
      · omega

/-- A call at stage 4 has answered. -/
theorem outcome_of_rank {s : InFlight} (h : 4 ≤ s.rank) : ∃ o, s.outcome = some o := by
  cases s with
  | signup body p =>
    cases p with
    | done r => exact ⟨_, rfl⟩
    | start => simp [InFlight.rank] at h
    | idChecked => simp [InFlight.rank] at h
    | checked => simp [InFlight.rank] at h
    | inserted u => simp [InFlight.rank] at h
  | created body p =>
    cases p with
    | done r => exact ⟨_, rfl⟩
    | start => simp [InFlight.rank] at h
    | checked => simp [InFlight.rank] at h

theorem pending_outcome {s : InFlight} (h : s.pending = true) : s.outcome = none := by
  cases s with
  | signup body p => cases p <;> first | rfl | simp [InFlight.pending] at h
  | created body p => cases p <;> first | rfl | simp [InFlight.pending] at h

/-- The directory after the winner's steps holds one record for the `clerkId`. -/
theorem alone_one_record [CaseMapping] {now : Int} {d : Directory} {c : String}
    {call : CreateCall} (hr : Ready now d c call) :
    ((call.alone now d).1.filter (fun u => u.clerkId == c)).length = 1 := by
  obtain ⟨hfind, hc, hrest⟩ := hr
  have hnone : d.filter (fun u => u.clerkId == c) = [] := by
    rw [List.filter_eq_nil_iff]
    intro v hv hvc
    unfold findByClerkId at hfind
    simp only at hfind
    rw [List.find?_eq_none] at hfind
    exact hfind v hv hvc
  cases call with
  | signup body =>
    obtain ⟨e, u, he, hfe, hcr, huc⟩ := hrest
    have hc' : body.clerkId = some c := hc
    have hstep := stepSignup_inserted hc' hfind he hfe hcr
    have h1 : (handleSignup now d body).1 = (stepSignup now (d ++ [u]) body (.inserted u)).1 := by
      rw [hstep]
    simp only [CreateCall.alone, h1]
    unfold stepSignup
    simp only
    cases hla : updateLastActivity now (d ++ [u]) u with
    | error e' => simp [List.filter_append, hnone, huc]
    | ok r' =>
      simp only
      unfold updateLastActivity at hla
      split at hla
      · rename_i d' hsave
        simp only [Except.ok.injEq] at hla
        subst hla
        obtain ⟨-, h | h⟩ := save_ok hsave
        · simp [h.2, List.filter_append, hnone, huc]
        · simp only [h.2, List.map_append, List.map_singleton, List.filter_append]
          have hd : d.map (fun v => if v._id = u._id then
              { ({ u with lastActivity := some now } : User) with updatedAt := now }
              else v) = d := by
            have hid : u._id = nextId d := (create_ok_checks hcr).2.1
            conv => rhs; rw [← List.map_id d]
            apply List.map_congr_left
            intro v hv
            have := lt_nextId hv
            have hne : v._id ≠ u._id := by omega
            simp [hne]
          simp only at hd ⊢
          rw [hd, hnone]
          simp [huc]
      · simp at hla
  | created body =>
    obtain ⟨ht, ud, u, hex, hudc, hcr, huc⟩ := hrest
    have := handleWebhook_ready ht hex (by rw [hudc]; exact hfind) hcr
    simp [CreateCall.alone, this, List.filter_append, hnone, huc]

/-- Four steps of a `handleSignup` call, with no step of another call in between, are the
handler: the step model refines `handleSignup`. -/
theorem race_signup_alone [CaseMapping] (now1 now2 : Int) (d : Directory) (body : SignupBody)
    (s : InFlight) :
    race now1 now2 [true, true, true, true] (d, .signup body .start, s) =
      ((handleSignup now1 d body).1, .signup body (.done (handleSignup now1 d body).2), s) := by
  simp only [race, List.foldl_cons, List.foldl_nil, raceStep, if_true, InFlight.step]
  unfold handleSignup
  cases h1 : findByClerkId d body.clerkId with
  | some r => simp [stepSignup, h1]
  | none =>
    cases h2 : body.email with
    | none => simp [stepSignup, h1, h2]
    | some e =>
      cases h3 : findByEmail d e with
      | some r => simp [stepSignup, h1, h2, h3]
      | none =>
        cases h4 : create now1 d (signupInput body) with
        | error x => simp [stepSignup, h1, h2, h3, h4]
        | ok r =>
          cases h5 : updateLastActivity now1 r.1 r.2 with
          | error x => simp [stepSignup, h1, h2, h3, h4, h5]
          | ok r' => simp [stepSignup, h1, h2, h3, h4, h5]

/-- Two steps of the `user.created` case, with no step of another call in between, are the
handler: the step model refines `handleWebhook` on `user.created` events. -/
theorem race_created_alone [CaseMapping] (now1 now2 : Int) (d : Directory)
    (body : WebhookBody) (s : InFlight) (ht : body.type = some "user.created") :
    race now1 now2 [true, true] (d, .created body .start, s) =
      ((handleWebhook now1 d body).1, .created body (.done (handleWebhook now1 d body).2),
        s) := by
  simp only [race, List.foldl_cons, List.foldl_nil, raceStep, if_true, InFlight.step]
  unfold handleWebhook
  simp only [ht, if_true]
  cases h1 : extractUserData body with
  | none => simp [stepCreated, h1]
  | some ud =>
    cases h2 : findByClerkId d ud.clerkId with
    | some r => simp [stepCreated, h1, h2]
    | none =>
      cases h3 : create now1 d (createdInput ud) with
      | error x => simp [stepCreated, h1, h2, h3]
      | ok r => simp [stepCreated, h1, h2, h3]

/-! ## Authentication gateway -/

/-- C1. `verifyToken` calls `next` exactly when the header starts with `Bearer `, the secret is
configured, the token verifies, the decoded claims carry a non-empty subject and the directory
holds an active record for that subject; the request passed on then carries that record as
`user` and the subject as `clerkId`, and the record's `clerkId` is the subject. -/
theorem verifyToken_next_iff (cfg : AuthConfig) (d : Directory) (req req' : Request) :
    verifyToken cfg d req = .next req' ↔
      ∃ authHeader secret decoded subject user,
        req.authorization = some authHeader ∧ startsWithBearer authHeader = true ∧
        cfg.CLERK_SECRET_KEY = some secret ∧ secret ≠ "" ∧
        cfg.jwtVerify (substring7 authHeader) secret = .ok decoded ∧
        orElse decoded.sub decoded.user_id = some subject ∧ subject ≠ "" ∧
        findByClerkId d (some subject) = some user ∧ user.isActive = true ∧
        user.clerkId = subject ∧
        req' = { req with user := some user, clerkId := some subject } := by
  constructor
  · intro h
    unfold verifyToken at h
    cases hauth : req.authorization with
    | none => simp [hauth, failure] at h
    | some authHeader =>
      cases hb : startsWithBearer authHeader with
      | false => simp [hauth, hb, failure] at h
      | true =>
        cases hsec : cfg.CLERK_SECRET_KEY with
        | none => simp [hauth, hb, hsec, failure] at h
        | some secret =>
          by_cases hne : secret = ""
          · simp [hauth, hb, hsec, hne, failure] at h
          · cases hdec : cfg.jwtVerify (substring7 authHeader) secret with
            | error name =>
              simp only [hauth, hb, hsec, hne, hdec, failure] at h
              simp only [Bool.not_true, Bool.false_eq_true, if_false] at h
              split at h
              · simp at h
              · split at h <;> simp at h
            | ok decoded =>
              cases hsub : orElse decoded.sub decoded.user_id with
              | none => simp [hauth, hb, hsec, hne, hdec, hsub, truthy, failure] at h
              | some subject =>
                by_cases hne' : subject = ""
                · simp [hauth, hb, hsec, hne, hdec, hsub, hne', truthy, failure] at h
                · cases hfind : findByClerkId d (some subject) with
                  | none =>
                    simp [hauth, hb, hsec, hne, hdec, hsub, hne', hfind, truthy, failure] at h
                  | some user =>
                    cases hact : user.isActive with
                    | false =>
                      simp [hauth, hb, hsec, hne, hdec, hsub, hne', hfind, hact, truthy,
                        failure] at h
                    | true =>
                      simp [hauth, hb, hsec, hne, hdec, hsub, hne', hfind, hact, truthy] at h
                      have hcl : user.clerkId = subject := by
                        have := List.find?_some hfind
                        simpa using this
                      exact ⟨authHeader, secret, decoded, subject, user, rfl, hb, rfl, hne,
                        hdec, hsub, hne', hfind, hact, hcl, h.symm⟩
  · rintro ⟨authHeader, secret, decoded, subject, user, hauth, hb, hsec, hne, hdec, hsub, hne',
      hfind, hact, -, rfl⟩
    have ht : truthy (some subject) = true := by simpa [truthy] using hne'
    simp [verifyToken, hauth, hb, hsec, hne, hdec, hsub, ht, hfind, hact]

/-- The success path of `verifyToken` is taken: Ann's credential against her active record. -/
theorem verifyToken_next_example :
    verifyToken toyConfig [annUser] annRequest =
      .next { annRequest with user := some annUser, clerkId := some "ext_1" } := by
  decide

/-- C2. After a `user.deleted` event for `X` on a directory holding a record for `X`, the
record is still there with `isActive = false`, and `verifyToken` answers a valid credential
for `X` with 403 `User account is deactivated` (a response, so `next` is not called and no
user is attached). -/
theorem deleted_then_verifyToken_deactivated [CaseMapping] (now : Int) (d : Directory) (X : String)
    (r : User) (body : WebhookBody) (data : ClerkUser)
    (hvalid : SchemaValid d) (hfind : findByClerkId d (some X) = some r)
    (htype : body.type = some "user.deleted") (hdata : body.data = some data)
    (hid : data.id = some X) :
    (∃ r', findByClerkId (handleWebhook now d body).1 (some X) = some r' ∧
        r'.isActive = false ∧ r'._id = r._id) ∧
    (handleWebhook now d body).1.length = d.length ∧
    ∀ (cfg : AuthConfig) (req : Request) (authHeader secret : String) (decoded : DecodedToken),
      req.authorization = some authHeader → startsWithBearer authHeader = true →
      cfg.CLERK_SECRET_KEY = some secret → secret ≠ "" →
      cfg.jwtVerify (substring7 authHeader) secret = .ok decoded →
      orElse decoded.sub decoded.user_id = some X →
      verifyToken cfg (handleWebhook now d body).1 req =
        failure 403 "User account is deactivated" := by
  have hm := findByClerkId_mem hfind
  have hv := hvalid r hm
  have hX : X ≠ "" := by
    have hc := findByClerkId_some_clerkId hfind
    simp only [Option.some.injEq] at hc
    subst hc
    intro h0
    simp [validate, h0] at hv
  rw [← hid] at hfind
  rw [handleWebhook_deleted_found now d body data r hv htype hdata hfind]
  rw [hid] at hfind
  obtain ⟨r', hr', hact, hrid, -⟩ := findByClerkId_after_deactivate now d X r hfind
  refine ⟨⟨r', hr', hact, hrid⟩, ?_, ?_⟩
  · simp only [softDeleted]
    split <;> simp
  · intro cfg req authHeader secret decoded hauth hb hsec hne hdec hsub
    have ht : truthy (some X) = true := by simpa [truthy] using hX
    simp [verifyToken, hauth, hb, hsec, hne, hdec, hsub, ht, hr', hact]

/-- Witness for C2: Ann's record, her `user.deleted` event, then her bearer credential. -/
theorem deleted_then_verifyToken_deactivated_witness :
    SchemaValid [annUser] ∧ findByClerkId [annUser] (some "ext_1") = some annUser ∧
    verifyToken toyConfig (handleWebhook 7 [annUser] annDeleted).1 annRequest =
      failure 403 "User account is deactivated" :=
  ⟨by decide, by decide,
   (deleted_then_verifyToken_deactivated 7 [annUser] "ext_1" annUser annDeleted _
      (by decide) (by decide) rfl rfl rfl).2.2 toyConfig annRequest "Bearer t:ext_1" "k"
      { sub := some "ext_1", user_id := none } rfl (by decide) rfl (by decide) rfl
      (by decide)⟩

/-! ## Identity event processor -/

/-- C4. A `user.created` event for an id that already has a record, whatever the record and
the payload, leaves the directory as it is and is answered `200 { success: true }`. -/
theorem created_existing_noop [CaseMapping] (now : Int) (d : Directory) (body : WebhookBody)
    (data : ClerkUser) (r : User)
    (htype : body.type = some "user.created") (hdata : body.data = some data)
    (hfind : findByClerkId d data.id = some r) :
    handleWebhook now d body = (d, ok200) := by
  simp [handleWebhook, htype, extractUserData, hdata, hfind]

/-- Witness for C4: Ann's `user.created` event delivered when her record exists. -/
theorem created_existing_noop_witness :
    findByClerkId [annUser] annData.id = some annUser ∧
    handleWebhook 7 [annUser] annCreated = ([annUser], ok200) :=
  ⟨by decide, created_existing_noop 7 [annUser] annCreated annData annUser rfl rfl (by decide)⟩

/-- C7. A `user.updated` or `user.deleted` event for an id without a record leaves the
directory as it is and is answered `200 { success: true }`. -/
theorem updated_deleted_missing_noop [CaseMapping] (now : Int) (d : Directory) (body : WebhookBody)
    (htype : body.type = some "user.updated" ∨ body.type = some "user.deleted")
    (hnone : ∀ data, body.data = some data → findByClerkId d data.id = none) :
    handleWebhook now d body = (d, ok200) := by
  cases hdata : body.data with
  | none => rcases htype with h | h <;> simp [handleWebhook, h, extractUserData, hdata]
  | some data =>
    have hn := hnone data hdata
    rcases htype with h | h <;> simp [handleWebhook, h, extractUserData, hdata, hn]

/-- Witness for C7: Ann's `user.deleted` event on the empty directory. -/
theorem updated_deleted_missing_noop_witness :
    handleWebhook 7 [] annDeleted = ([], ok200) :=
  updated_deleted_missing_noop 7 [] annDeleted (Or.inr rfl)
    (fun data _ => by cases data.id <;> rfl)

/-- C10. An event whose `type` is none of the three handled ones, a missing `type` included,
leaves the directory as it is and is answered `200 { success: true }`, whatever the payload. -/
theorem unrecognized_type_noop [CaseMapping] (now : Int) (d : Directory) (body : WebhookBody)
    (hc : body.type ≠ some "user.created") (hu : body.type ≠ some "user.updated")
    (hd : body.type ≠ some "user.deleted") :
    handleWebhook now d body = (d, ok200) := by
  simp [handleWebhook, hc, hu, hd]

/-- Witness for C10: an event without `type` that carries Ann's payload. -/
theorem unrecognized_type_noop_witness :
    handleWebhook 7 [annUser] { type := none, data := some annData } = ([annUser], ok200) :=
  unrecognized_type_noop 7 [annUser] { type := none, data := some annData }
    (by decide) (by decide) (by decide)

/-- C9, as stated, fails: the soft delete of an active record also refreshes `updatedAt`
(schema option `timestamps: true`), so `isActive` is not the only field that changes. -/
theorem deleted_refreshes_updatedAt :
    findByClerkId [annUser] (annDeleted.data.bind (fun x => x.id)) = some annUser ∧
    handleWebhook 7 [annUser] annDeleted =
      ([{ annUser with isActive := false, updatedAt := 7 }], ok200) ∧
    (handleWebhook 7 [annUser] annDeleted).1 ≠ [{ annUser with isActive := false }] := by
  decide

/-- C9, amended. A `user.deleted` event for an id with a record, and `deleteAccount` on that
record, keep the record: an active record gets `isActive = false` and `updatedAt = now`, no
other field and no other record changes; an inactive record leaves the directory as it is.
Both answer 200 with `success: true`. -/
theorem deleted_deactivates [CaseMapping] (now : Int) (d : Directory) (X : String) (r : User)
    (body : WebhookBody) (data : ClerkUser)
    (hvalid : SchemaValid d) (hfind : findByClerkId d (some X) = some r)
    (htype : body.type = some "user.deleted") (hdata : body.data = some data)
    (hid : data.id = some X) :
    handleWebhook now d body = (softDeleted now d r, ok200) ∧
    (∀ req : Request, req.user = some r →
      deleteAccount now d req =
        (softDeleted now d r,
         .json 200 { success := true, message := some "Account deleted successfully" })) ∧
    (r.isActive = false → softDeleted now d r = d) ∧
    (r.isActive = true → softDeleted now d r =
      d.map (fun v => if v._id = r._id then
        { r with isActive := false, updatedAt := now } else v)) ∧
    (∃ r', findByClerkId (softDeleted now d r) (some X) = some r' ∧ r'.isActive = false ∧
      r'._id = r._id) := by
  have hm := findByClerkId_mem hfind
  have hv := hvalid r hm
  refine ⟨?_, ?_, ?_, ?_, ?_⟩
  · rw [← hid] at hfind
    exact handleWebhook_deleted_found now d body data r hv htype hdata hfind
  · intro req hreq
    simp [deleteAccount, hreq, save_deactivate now d r hv hm]
  · intro h; simp [softDeleted, h]
  · intro h; simp [softDeleted, h]
  · obtain ⟨r', h1, h2, h3, -⟩ := findByClerkId_after_deactivate now d X r hfind
    exact ⟨r', h1, h2, h3⟩

/-- Witness for C9 (amended): Ann's record is soft-deleted at time 7. -/
theorem deleted_deactivates_witness :
    SchemaValid [annUser] ∧
    handleWebhook 7 [annUser] annDeleted = (softDeleted 7 [annUser] annUser, ok200) ∧
    softDeleted 7 [annUser] annUser = [{ annUser with isActive := false, updatedAt := 7 }] :=
  ⟨by decide,
   (deleted_deactivates 7 [annUser] "ext_1" annUser annDeleted _ (by decide) (by decide)
      rfl rfl rfl).1,
   by decide⟩

/-- C3, as stated, fails: with a non-empty `first_name` and a non-empty unused first address,
an empty id, a blank first name or a missing `created_at` make `User.create` fail validation
(`required: true`, `trim: true`, date cast), so no record is added; and the stored `email`,
`firstName` and `lastName` are the trimmed values, not the payload's. -/
theorem created_not_always_inserted :
    handleWebhook 7 [] { type := some "user.created", data := some emptyIdData } =
      ([], .threw .validationError) ∧
    handleWebhook 7 [] { type := some "user.created", data := some blankNameData } =
      ([], .threw .validationError) ∧
    handleWebhook 7 [] { type := some "user.created", data := some undatedData } =
      ([], .threw .validationError) ∧
    (handleWebhook 7 [] { type := some "user.created", data := some paddedData }).1.map
      (fun u => (u.email, u.firstName, u.lastName)) = [("ann@x.com", "Ann", some "Lee")] ∧
    toLowerCase (firstEmail paddedData) = " ann@x.com" ∧
    paddedData.first_name = some "Ann " := by
  decide

/-- C3, amended. On a directory without a record for `data.id`, a `user.created` event whose
id is non-empty, whose first name and first address are non-empty once the schema setters
ran, whose address is held by no record, and whose two timestamps are valid dates, appends
exactly one record: the payload's id, names (trimmed) and address (lowercased, trimmed), the
verification flag, `userType = 'donor'`, `isActive = true`, `ngoDetails.verified = false`.
The records already there stay as they are, and the answer is `200 { success: true }`. -/
theorem created_inserts [CaseMapping] (now : Int) (d : Directory) (body : WebhookBody)
    (data : ClerkUser)
    (X : String) (c u : Int)
    (htype : body.type = some "user.created") (hdata : body.data = some data)
    (hid : data.id = some X) (hX : X ≠ "")
    (hnone : findByClerkId d (some X) = none)
    (hname : trim (orEmpty data.first_name) ≠ "")
    (hemail : setEmail (firstEmail data) ≠ "")
    (hunused : ∀ v ∈ d, v.email ≠ setEmail (firstEmail data))
    (hc : dateOfSeconds data.created_at = some c)
    (hu : dateOfSeconds data.updated_at = some u) :
    handleWebhook now d body =
      (d ++ [{ _id := nextId d, clerkId := X,
               firstName := trim (orEmpty data.first_name),
               lastName := some (trim (orEmpty data.last_name)),
               email := setEmail (firstEmail data),
               userType := "donor",
               emailVerified := firstEmailVerified data,
               profile := defaultProfile, ngoDetails := defaultNgoDetails,
               donorDetails := defaultDonorDetails, isActive := true,
               lastLogin := none, lastActivity := none, createdAt := c, updatedAt := c }],
       ok200) ∧
    defaultNgoDetails.verified = some false := by
  refine ⟨?_, rfl⟩
  have hany : ∀ v ∈ d, ¬ (v.clerkId = X ∨ v.email = setEmail (firstEmail data)) := by
    intro v hv hor
    rcases hor with h | h
    · unfold findByClerkId at hnone
      simp only [List.find?_eq_none] at hnone
      exact hnone v hv (by simpa using h)
    · exact hunused v hv h
  have hany' : (d.any (fun v => v.clerkId == X || v.email == setEmail (firstEmail data)))
      = false := by
    rw [Bool.eq_false_iff]
    intro h
    rw [List.any_eq_true] at h
    obtain ⟨v, hv, hor⟩ := h
    exact hany v hv (by simpa using hor)
  simp only [firstEmail, firstEmailVerified] at hemail hany' ⊢
  simp [handleWebhook, htype, extractUserData, hdata, hid, hnone, create, buildUser,
    createdInput, hc, hu, validate, hX, hname, hemail, userTypes, defaultNgoDetails,
    defaultDonorDetails, hany']

/-- Witness for C3 (amended): Ann's `user.created` event on the empty directory. -/
theorem created_inserts_witness :
    findByClerkId [] (some "ext_1") = none ∧
    handleWebhook 7 [] annCreated = ([annUser], ok200) :=
  ⟨rfl,
   (created_inserts 7 [] annCreated annData "ext_1" 1000000 1000000 rfl rfl rfl (by decide)
      rfl (by decide) (by decide) (by simp) (by decide) (by decide)).1⟩

/-- C5. `handleWebhook` is idempotent on the directory: processing an event a second time,
at any later time, leaves the directory the first processing produced. In particular, when
the first processing of a `user.created` event inserted the record `u`, the directory after
the second processing holds exactly that one record for the id. -/
theorem handleWebhook_idempotent [CaseMapping] (now now' : Int) (d : Directory)
    (body : WebhookBody) :
    (handleWebhook now' (handleWebhook now d body).1 body).1 = (handleWebhook now d body).1 ∧
    ∀ (data : ClerkUser) (u : User), body.type = some "user.created" →
      body.data = some data → findByClerkId d data.id = none →
      (handleWebhook now d body).1 = d ++ [u] →
      (handleWebhook now' (handleWebhook now d body).1 body).1.filter
        (fun v => some v.clerkId == data.id) = [u] := by
  have hcreated : ∀ (data : ClerkUser), body.type = some "user.created" →
      body.data = some data → findByClerkId d data.id = none →
      ((handleWebhook now d body).1 = d ∨
        ∃ u, (handleWebhook now d body).1 = d ++ [u] ∧ data.id = some u.clerkId) ∧
      (handleWebhook now' (handleWebhook now d body).1 body).1 = (handleWebhook now d body).1 := by
    intro data htype hdata hnone
    cases hcr : create now d (createdInput
        { clerkId := data.id, email := firstEmail data, firstName := orEmpty data.first_name,
          lastName := orEmpty data.last_name, emailVerified := firstEmailVerified data,
          createdAt := dateOfSeconds data.created_at,
          updatedAt := dateOfSeconds data.updated_at }) with
    | error e =>
      have hcr' := hcr
      rw [create_createdInput_indep now now'] at hcr'
      simp only [firstEmail, firstEmailVerified] at hcr hcr'
      simp [handleWebhook, htype, extractUserData, hdata, hnone, hcr, hcr']
    | ok res =>
      obtain ⟨h1, h2, -⟩ := create_ok hcr
      simp only [createdInput] at h2
      have hfound : findByClerkId (d ++ [res.2]) data.id = some res.2 := by
        rw [h2]
        apply findByClerkId_append_new
        rw [← h2]
        exact hnone
      simp only [firstEmail, firstEmailVerified] at hcr
      have hfst : (handleWebhook now d body).1 = d ++ [res.2] := by
        simp [handleWebhook, htype, extractUserData, hdata, hnone, hcr, h1]
      refine ⟨Or.inr ⟨res.2, hfst, h2⟩, ?_⟩
      rw [hfst]
      simp [handleWebhook, htype, extractUserData, hdata, hfound]
  constructor
  · by_cases hc : body.type = some "user.created"
    · cases hdata : body.data with
      | none => simp [handleWebhook, hc, extractUserData, hdata]
      | some data =>
        cases hf : findByClerkId d data.id with
        | some r => simp [handleWebhook, hc, extractUserData, hdata, hf]
        | none => exact (hcreated data hc hdata hf).2
    · by_cases hu : body.type = some "user.updated"
      · cases hdata : body.data with
        | none => simp [handleWebhook, hu, extractUserData, hdata]
        | some data =>
          cases hf : findByClerkId d data.id with
          | none => simp [handleWebhook, hu, extractUserData, hdata, hf]
          | some r =>
            have hidc := findByClerkId_some_clerkId hf
            obtain ⟨ud, hex, hudc⟩ :
                ∃ ud, extractUserData body = some ud ∧ ud.clerkId = data.id :=
              ⟨_, extractUserData_some hdata, rfl⟩
            cases hs : save now d r (applyUpdate r ud) with
            | error e =>
              have hs' := save_error_indep now' hs
              simp [handleWebhook, hu, hex, hudc, hf, hs, hs']
            | ok d' =>
              rw [hidc] at hf
              obtain ⟨r', hf', hs'⟩ := save_twice (fun v => applyUpdate v ud) now now' d d'
                r.clerkId r (fun _ => rfl) (fun _ => rfl) (fun _ _ => rfl) hf hs
              rw [← hidc] at hf hf'
              simp [handleWebhook, hu, hex, hudc, hf, hs, hf', hs']
      · by_cases hd : body.type = some "user.deleted"
        · cases hdata : body.data with
          | none => simp [handleWebhook, hd, extractUserData, hdata]
          | some data =>
            cases hf : findByClerkId d data.id with
            | none => simp [handleWebhook, hd, extractUserData, hdata, hf]
            | some r =>
              have hidc := findByClerkId_some_clerkId hf
              cases hs : save now d r { r with isActive := false } with
              | error e =>
                have hs' := save_error_indep now' hs
                simp [handleWebhook, hd, extractUserData, hdata, hf, hs, hs']
              | ok d' =>
                rw [hidc] at hf
                obtain ⟨r', hf', hs'⟩ := save_twice (fun v => { v with isActive := false })
                  now now' d d' r.clerkId r (fun _ => rfl) (fun _ => rfl) (fun _ _ => rfl)
                  hf hs
                rw [← hidc] at hf hf'
                simp [handleWebhook, hd, extractUserData, hdata, hf, hs, hf', hs']
        · simp [handleWebhook, hc, hu, hd]
  · intro data u htype hdata hnone hfst
    obtain ⟨hor, hidem⟩ := hcreated data htype hdata hnone
    rw [hidem, hfst]
    rcases hor with h | ⟨u', h, hid⟩
    · rw [h] at hfst
      have := congrArg List.length hfst
      simp at this
    · rw [hfst] at h
      have hu : u = u' := by simpa using h
      subst hu
      rw [List.filter_append]
      have hnil : d.filter (fun v => some v.clerkId == data.id) = [] := by
        rw [List.filter_eq_nil_iff]
        intro v hv hvc
        rw [hid] at hnone hvc
        unfold findByClerkId at hnone
        simp only [List.find?_eq_none] at hnone
        exact hnone v hv (by simpa using hvc)
      rw [hnil, hid]
      simp

/-- Witness for C5: Ann's `user.created` event processed at time 7 and again at time 9. -/
theorem handleWebhook_idempotent_witness :
    (handleWebhook 7 [] annCreated).1 = [] ++ [annUser] ∧
    (handleWebhook 9 (handleWebhook 7 [] annCreated).1 annCreated).1.filter
      (fun v => some v.clerkId == annData.id) = [annUser] :=
  ⟨by decide,
   (handleWebhook_idempotent 7 9 [] annCreated).2 annData annUser rfl rfl rfl (by decide)⟩

/-- C6. Ordering safety: on a directory without a record for `X`, a `user.updated` event for
`X` is dropped (no record is made), and a `user.created` event processed afterwards, at any
time, gives exactly the directory and the answer it gives without the dropped update. -/
theorem updated_before_created [CaseMapping] (now now' now'' : Int) (d : Directory) (X : String)
    (p q : ClerkUser)
    (hnone : findByClerkId d (some X) = none) (hp : p.id = some X) (hq : q.id = some X) :
    handleWebhook now d { type := some "user.updated", data := some p } = (d, ok200) ∧
    handleWebhook now'
        (handleWebhook now d { type := some "user.updated", data := some p }).1
        { type := some "user.created", data := some q } =
      handleWebhook now'' d { type := some "user.created", data := some q } := by
  have hdrop : handleWebhook now d { type := some "user.updated", data := some p } =
      (d, ok200) := by
    simp [handleWebhook, extractUserData, hp, hnone]
  refine ⟨hdrop, ?_⟩
  rw [hdrop]
  have hcr := create_createdInput_indep now' now'' d
    { clerkId := q.id, email := firstEmail q, firstName := orEmpty q.first_name,
      lastName := orEmpty q.last_name, emailVerified := firstEmailVerified q,
      createdAt := dateOfSeconds q.created_at, updatedAt := dateOfSeconds q.updated_at }
  simp only [firstEmail, firstEmailVerified, hq] at hcr
  simp [handleWebhook, extractUserData, hq, hnone, hcr]

/-- Witness for C6: an update for Ann, dropped on the empty directory, then her creation. -/
theorem updated_before_created_witness :
    findByClerkId [] (some "ext_1") = none ∧
    handleWebhook 8 (handleWebhook 7 [] annUpdated).1 annCreated = ([annUser], ok200) :=
  ⟨rfl,
   ((updated_before_created 7 8 9 [] "ext_1" paddedData annData rfl rfl rfl).2).trans
     (by decide)⟩

/-- C8, as stated, fails: the stored `email`, `firstName` and `lastName` are not the values
`extractUserData` returns but what the schema setters make of them (`trim`, and `lowercase`
for the address). -/
theorem updated_stores_normalised_values :
    (extractUserData annUpdated).map (fun x => (x.email, x.firstName, x.lastName)) =
      some (" Ann@X.com", "Ann ", " Lee") ∧
    (handleWebhook 7 [annUser] annUpdated).2 = ok200 ∧
    (findByClerkId (handleWebhook 7 [annUser] annUpdated).1 (some "ext_1")).map
      (fun u => (u.email, u.firstName, u.lastName)) = some ("ann@x.com", "Ann", some "Lee") := by
  decide

/-- C8, amended. When a `user.updated` event for an id with a record is applied (the handler
answers 200), the record's `email`, `firstName`, `lastName` and `emailVerified` are the
payload's values after the schema setters (`trim`; `lowercase` for the address); its `_id`,
`clerkId`, `userType`, `isActive`, `profile`, `ngoDetails` and `donorDetails` are as before,
and every document with another `_id` is unchanged and in place. -/
theorem updated_applied [CaseMapping] (now : Int) (d : Directory) (X : String) (r : User)
    (body : WebhookBody) (data : ClerkUser)
    (hfind : findByClerkId d (some X) = some r)
    (htype : body.type = some "user.updated") (hdata : body.data = some data)
    (hid : data.id = some X)
    (happlied : (handleWebhook now d body).2 = ok200) :
    ∃ r', findByClerkId (handleWebhook now d body).1 (some X) = some r' ∧
      r'.email = setEmail (firstEmail data) ∧
      r'.firstName = trim (orEmpty data.first_name) ∧
      r'.lastName = some (trim (orEmpty data.last_name)) ∧
      r'.emailVerified = firstEmailVerified data ∧
      r'._id = r._id ∧ r'.clerkId = r.clerkId ∧ r'.userType = r.userType ∧
      r'.isActive = r.isActive ∧ r'.profile = r.profile ∧ r'.ngoDetails = r.ngoDetails ∧
      r'.donorDetails = r.donorDetails ∧
      List.Forall₂ (fun v v' : User => v._id ≠ r._id → v' = v) d
        (handleWebhook now d body).1 := by
  have hex := extractUserData_some hdata
  rw [← hid] at hfind
  cases hs : save now d r (applyUpdate r
      { clerkId := data.id, email := firstEmail data, firstName := orEmpty data.first_name,
        lastName := orEmpty data.last_name, emailVerified := firstEmailVerified data,
        createdAt := dateOfSeconds data.created_at,
        updatedAt := dateOfSeconds data.updated_at }) with
  | error e =>
    simp [handleWebhook, htype, hex, hfind, hs, ok200] at happlied
  | ok d' =>
    have hd' : (handleWebhook now d body).1 = d' := by
      simp [handleWebhook, htype, hex, hfind, hs]
    rw [hd']
    rw [hid] at hfind
    obtain ⟨-, h | h⟩ := save_ok hs
    · obtain ⟨he, hd⟩ := h
      rw [hd]
      refine ⟨r, hfind, ?_, ?_, ?_, ?_, rfl, rfl, rfl, rfl, rfl, rfl, rfl,
        forall₂_frame_refl r._id d⟩
      · exact (congrArg User.email he).symm
      · exact (congrArg User.firstName he).symm
      · exact (congrArg User.lastName he).symm
      · exact (congrArg User.emailVerified he).symm
    · obtain ⟨-, hd⟩ := h
      rw [hd]
      have hc : r.clerkId = X := by
        have := findByClerkId_some_clerkId hfind
        simpa using this.symm
      refine ⟨_, findByClerkId_map_replace d X r _ hfind hc, rfl, rfl, rfl, rfl, rfl, rfl, rfl,
        rfl, rfl, rfl, rfl, forall₂_frame_map r._id _ d⟩

/-- Witness for C8 (amended): the padded update applied to Ann's record. -/
theorem updated_applied_witness :
    findByClerkId [annUser] (some "ext_1") = some annUser ∧
    (handleWebhook 7 [annUser] annUpdated).2 = ok200 ∧
    ∃ r', findByClerkId (handleWebhook 7 [annUser] annUpdated).1 (some "ext_1") = some r' ∧
      r'.email = "ann@x.com" ∧ r'.userType = "donor" :=
  ⟨by decide, by decide,
   match updated_applied 7 [annUser] "ext_1" annUser annUpdated paddedData (by decide)
      rfl rfl rfl (by decide) with
   | ⟨r', h1, h2, _, _, _, _, _, h3, _⟩ => ⟨r', h1, h2.trans (by decide), h3⟩⟩

/-! ## Authentication gateway: failures -/

/-- C14. Without an `Authorization` header, or with one that does not start with `Bearer `,
`verifyToken` answers 401 `Access token required` and makes no call at all: no token is
verified, the directory is not read, whatever the configuration and the directory. -/
theorem verifyToken_missing_credential (cfg : AuthConfig) (d : Directory) (req : Request)
    (h : req.authorization = none ∨
      ∃ authHeader, req.authorization = some authHeader ∧ startsWithBearer authHeader = false) :
    verifyTokenRun cfg d req = ([], failure 401 "Access token required") ∧
    verifyToken cfg d req = failure 401 "Access token required" := by
  rcases h with h | ⟨authHeader, h, hb⟩
  · simp [verifyTokenRun, verifyToken, h]
  · simp [verifyTokenRun, verifyToken, h, hb]

/-- Witness for C14: a basic-auth header, no secret configured. -/
theorem verifyToken_missing_credential_witness :
    verifyTokenRun { CLERK_SECRET_KEY := none, jwtVerify := toyVerify } [annUser]
        { authorization := some "Basic abc", user := none, clerkId := none } =
      ([], failure 401 "Access token required") :=
  (verifyToken_missing_credential { CLERK_SECRET_KEY := none, jwtVerify := toyVerify } [annUser]
    { authorization := some "Basic abc", user := none, clerkId := none }
    (Or.inr ⟨"Basic abc", rfl, by decide⟩)).1

/-- C15. On a bearer credential with the secret configured, a verifier error named
`TokenExpiredError` gives 401 `Token expired` and one named `JsonWebTokenError` gives 401
`Invalid token`; each answer comes from its own error only; in both the verifier is the only
call made, so `next` is not called and the directory is not read. -/
theorem verifyToken_rejected_credential (cfg : AuthConfig) (d : Directory) (req : Request)
    (authHeader secret name : String)
    (hauth : req.authorization = some authHeader) (hb : startsWithBearer authHeader = true)
    (hsec : cfg.CLERK_SECRET_KEY = some secret) (hne : secret ≠ "")
    (hdec : cfg.jwtVerify (substring7 authHeader) secret = .error name) :
    (verifyToken cfg d req = failure 401 "Token expired" ↔ name = "TokenExpiredError") ∧
    (verifyToken cfg d req = failure 401 "Invalid token" ↔ name = "JsonWebTokenError") ∧
    (verifyTokenRun cfg d req).1 = [.jwtVerify (substring7 authHeader) secret] ∧
    (∀ req', verifyToken cfg d req ≠ .next req') := by
  have hrun := verifyTokenRun_error d hauth hb hsec hne hdec
  have hres := verifyTokenRun_result cfg d req
  rw [hrun] at hres
  simp only at hres
  rw [← hres, hrun]
  refine ⟨?_, ?_, rfl, ?_⟩
  · by_cases h1 : name = "JsonWebTokenError"
    · subst h1; simp [failure]
    · by_cases h2 : name = "TokenExpiredError"
      · simp [h2]
      · simp [h1, h2, failure]
  · by_cases h1 : name = "JsonWebTokenError"
    · simp [h1]
    · by_cases h2 : name = "TokenExpiredError"
      · subst h2; simp [failure]
      · simp [h1, h2, failure]
  · intro req'
    split
    · simp [failure]
    · split <;> simp [failure]

/-- Witness for C15: the toy verifier finds the token `old` expired. -/
theorem verifyToken_rejected_credential_witness :
    verifyToken toyConfig [annUser]
        { authorization := some "Bearer old", user := none, clerkId := none } =
      failure 401 "Token expired" :=
  ((verifyToken_rejected_credential toyConfig [annUser]
      { authorization := some "Bearer old", user := none, clerkId := none }
      "Bearer old" "k" "TokenExpiredError" rfl (by decide) rfl (by decide) rfl).1).2 rfl

/-- C13, as stated, fails: a valid credential whose subject has no record is answered with
status 404 `User not found`, not 401. -/
theorem verifyToken_unknown_identity_404 :
    findByClerkId [] (some "ext_1") = none ∧
    toyConfig.jwtVerify (substring7 "Bearer t:ext_1") "k" =
      .ok { sub := some "ext_1", user_id := none } ∧
    verifyToken toyConfig [] annRequest = failure 404 "User not found" ∧
    verifyToken toyConfig [] annRequest ≠ failure 401 "User not found" := by
  refine ⟨rfl, rfl, ?_, ?_⟩ <;> decide

/-- C13, amended. A valid credential whose subject has no record in the directory is answered
404 `User not found`; `next` is not called, so no user is attached; the calls made are the
verifier and one lookup. -/
theorem verifyToken_unknown_identity (cfg : AuthConfig) (d : Directory) (req : Request)
    (authHeader secret subject : String) (decoded : DecodedToken)
    (hauth : req.authorization = some authHeader) (hb : startsWithBearer authHeader = true)
    (hsec : cfg.CLERK_SECRET_KEY = some secret) (hne : secret ≠ "")
    (hdec : cfg.jwtVerify (substring7 authHeader) secret = .ok decoded)
    (hsub : orElse decoded.sub decoded.user_id = some subject) (hs : subject ≠ "")
    (hnone : findByClerkId d (some subject) = none) :
    verifyToken cfg d req = failure 404 "User not found" ∧
    (∀ req', verifyToken cfg d req ≠ .next req') ∧
    (verifyTokenRun cfg d req).1 =
      [.jwtVerify (substring7 authHeader) secret, .findByClerkId (some subject)] := by
  have ht : truthy (some subject) = true := by simpa [truthy] using hs
  have hrun := verifyTokenRun_ok d hauth hb hsec hne hdec
  rw [hsub] at hrun
  simp only [ht, hnone, Bool.not_true, Bool.false_eq_true, if_false] at hrun
  have hres := verifyTokenRun_result cfg d req
  rw [hrun] at hres
  simp only at hres
  rw [← hres, hrun]
  exact ⟨rfl, fun req' => by simp [failure], rfl⟩

/-- Witness for C13 (amended): Ann's credential against the empty directory. -/
theorem verifyToken_unknown_identity_witness :
    findByClerkId [] (some "ext_1") = none ∧
    verifyToken toyConfig [] annRequest = failure 404 "User not found" :=
  ⟨rfl,
   (verifyToken_unknown_identity toyConfig [] annRequest "Bearer t:ext_1" "k" "ext_1"
      { sub := some "ext_1", user_id := none } rfl (by decide) rfl (by decide) rfl rfl
      (by decide) rfl).1⟩

/-- C16 at the failing input: a token the verifier finds not yet valid (`NotBeforeError`) is
answered with status 500 `Authentication error`, although the secret is configured. -/
theorem verifyToken_notBefore_500 :
    notBeforeConfig.CLERK_SECRET_KEY = some "k" ∧
    notBeforeConfig.jwtVerify (substring7 "Bearer t:ext_1") "k" = .error "NotBeforeError" ∧
    verifyToken notBeforeConfig [annUser] annRequest = failure 500 "Authentication error" := by
  refine ⟨rfl, rfl, ?_⟩
  decide

/-- C17. Subject extraction, in `verifyToken` and in `optionalAuth` alike. The subject is
`sub` when it is non-empty, whatever `user_id` is, and else a non-empty `user_id`: the record
looked up and attached is the one the directory holds for that subject (404, 403 or `next`
with that record in `verifyToken`; the request unchanged or that record in `optionalAuth`).
With neither claim, `verifyToken` answers 401 `Invalid token format` and `optionalAuth`
passes the request on, whatever the directory holds, and no lookup is made. When `sub` and
`user_id` are both present and differ, the record attached is the one whose `clerkId` is
`sub`. -/
theorem subject_priority (cfg : AuthConfig) (d : Directory) (req : Request)
    (authHeader secret : String) (decoded : DecodedToken)
    (hauth : req.authorization = some authHeader) (hb : startsWithBearer authHeader = true)
    (hsec : cfg.CLERK_SECRET_KEY = some secret) (hne : secret ≠ "")
    (hdec : cfg.jwtVerify (substring7 authHeader) secret = .ok decoded) :
    (∀ subject : Option String,
      (truthy decoded.sub = true ∧ subject = decoded.sub) ∨
      (truthy decoded.sub = false ∧ truthy decoded.user_id = true ∧
        subject = decoded.user_id) →
      verifyToken cfg d req =
        (match findByClerkId d subject with
         | none => failure 404 "User not found"
         | some user =>
           if user.isActive = true then .next { req with user := some user, clerkId := subject }
           else failure 403 "User account is deactivated") ∧
      optionalAuth cfg d req =
        (match findByClerkId d subject with
         | none => .next req
         | some user =>
           if user.isActive = true then .next { req with user := some user, clerkId := subject }
           else .next req) ∧
      (verifyTokenRun cfg d req).1 =
        [.jwtVerify (substring7 authHeader) secret, .findByClerkId subject] ∧
      (optionalAuthRun cfg d req).1 =
        [.jwtVerify (substring7 authHeader) secret, .findByClerkId subject]) ∧
    (truthy decoded.sub = false → truthy decoded.user_id = false →
      (∀ d', verifyToken cfg d' req = failure 401 "Invalid token format" ∧
        optionalAuth cfg d' req = .next req) ∧
      (verifyTokenRun cfg d req).1 = [.jwtVerify (substring7 authHeader) secret] ∧
      (optionalAuthRun cfg d req).1 = [.jwtVerify (substring7 authHeader) secret]) ∧
    (∀ (s t : String) (user : User), decoded.sub = some s → decoded.user_id = some t →
      s ≠ "" → s ≠ t → findByClerkId d (some s) = some user → user.isActive = true →
      user.clerkId = s ∧
      verifyToken cfg d req = .next { req with user := some user, clerkId := some s } ∧
      optionalAuth cfg d req = .next { req with user := some user, clerkId := some s }) := by
  have hvt := fun d' =>
    @verifyTokenRun_ok cfg req authHeader secret decoded d' hauth hb hsec hne hdec
  have hoa := fun d' =>
    @optionalAuthRun_ok cfg req authHeader secret decoded d' hauth hb hsec hne hdec
  have hres := fun d' => verifyTokenRun_result cfg d' req
  have key : ∀ subject : Option String, orElse decoded.sub decoded.user_id = subject →
      truthy subject = true →
      verifyToken cfg d req =
        (match findByClerkId d subject with
         | none => failure 404 "User not found"
         | some user =>
           if user.isActive = true then .next { req with user := some user, clerkId := subject }
           else failure 403 "User account is deactivated") ∧
      optionalAuth cfg d req =
        (match findByClerkId d subject with
         | none => .next req
         | some user =>
           if user.isActive = true then .next { req with user := some user, clerkId := subject }
           else .next req) ∧
      (verifyTokenRun cfg d req).1 =
        [.jwtVerify (substring7 authHeader) secret, .findByClerkId subject] ∧
      (optionalAuthRun cfg d req).1 =
        [.jwtVerify (substring7 authHeader) secret, .findByClerkId subject] := by
    intro subject hs ht
    rw [← hres d, optionalAuth, hvt d, hoa d, hs]
    simp only [ht, Bool.not_true, Bool.false_eq_true, if_false, if_true, and_true]
    cases findByClerkId d subject with
    | none => simp
    | some user => cases h : user.isActive <;> simp [h]
  refine ⟨?_, ?_, ?_⟩
  · rintro subject (⟨h1, rfl⟩ | ⟨h1, h2, rfl⟩)
    · exact key _ (by simp [orElse, h1]) h1
    · exact key _ (by simp [orElse, h1]) h2
  · intro h1 h2
    have ht : truthy (orElse decoded.sub decoded.user_id) = false := by simp [orElse, h1, h2]
    refine ⟨fun d' => ⟨?_, ?_⟩, ?_, ?_⟩
    · rw [← hres d', hvt d']; simp [ht]
    · rw [optionalAuth, hoa d']; simp [ht]
    · rw [hvt d]; simp [ht]
    · rw [hoa d]; simp [ht]
  · intro s t user hs _ hse _ hfind hact
    have h1 : truthy decoded.sub = true := by simp [hs, truthy, hse]
    obtain ⟨k1, k2, -, -⟩ := key decoded.sub (by simp [orElse, h1]) h1
    rw [hs] at k1 k2
    rw [hfind] at k1 k2
    simp only [hact, if_true] at k1 k2
    refine ⟨?_, k1, k2⟩
    have := findByClerkId_some_clerkId hfind
    simp only [Option.some.injEq] at this
    exact this.symm

/-- Witness for C17: a token with `sub = "ext_1"` and `user_id = "ext_2"`, both on record, the
record for `user_id` first in the directory: the record attached is the one for `sub`. -/
theorem subject_priority_witness :
    pairConfig.jwtVerify (substring7 "Bearer ext_1|ext_2") "k" =
      .ok { sub := some "ext_1", user_id := some "ext_2" } ∧
    findByClerkId [ngoUser, annUser] (some "ext_2") = some ngoUser ∧
    verifyToken pairConfig [ngoUser, annUser]
        { authorization := some "Bearer ext_1|ext_2", user := none, clerkId := none } =
      .next { authorization := some "Bearer ext_1|ext_2", user := some annUser,
              clerkId := some "ext_1" } :=
  ⟨rfl, by decide,
   ((subject_priority pairConfig [ngoUser, annUser]
      { authorization := some "Bearer ext_1|ext_2", user := none, clerkId := none }
      "Bearer ext_1|ext_2" "k" { sub := some "ext_1", user_id := some "ext_2" }
      rfl (by decide) rfl (by decide) rfl).2.2 "ext_1" "ext_2" annUser rfl rfl (by decide)
      (by decide) (by decide) (by decide)).2.1⟩

/-- C18, as stated, fails: a successful `verifyToken` makes two calls, the verifier and a
lookup, and no write; the record keeps the `lastLogin` and `lastActivity` it had (here
none). -/
theorem verifyToken_success_writes_nothing :
    verifyTokenRun toyConfig [annUser] annRequest =
      ([.jwtVerify "t:ext_1" "k", .findByClerkId (some "ext_1")],
       .next { annRequest with user := some annUser, clerkId := some "ext_1" }) ∧
    annUser.lastLogin = none ∧ annUser.lastActivity = none := by
  decide

/-- C18, amended. `verifyToken` never writes to the directory: no call of a run is a write,
and on a successful authentication the record handed to `next` is the stored record for the
subject, with `lastLogin` and `lastActivity` as stored. -/
theorem verifyToken_reads_only (cfg : AuthConfig) (d : Directory) (req : Request) :
    (verifyTokenRun cfg d req).1.all (fun c => !c.isWrite) = true ∧
    ∀ req', verifyToken cfg d req = .next req' →
      ∃ user subject, findByClerkId d (some subject) = some user ∧
        req'.user = some user ∧ req'.clerkId = some subject := by
  refine ⟨(runs_make_no_write cfg d req).1, ?_⟩
  intro req' h
  rcases auth_cases cfg d req with ⟨user, subject, hA, hv, -⟩ | ⟨-, ⟨st, b, hv⟩, -⟩
  · obtain ⟨_, _, _, _, _, _, _, _, _, _, hfind, _⟩ := hA
    rw [hv] at h
    simp only [MiddlewareResult.next.injEq] at h
    subst h
    exact ⟨user, subject, hfind, rfl, rfl⟩
  · rw [hv] at h
    simp at h

/-- Witness for C18 (amended): Ann authenticates; the record handed on is the stored one. -/
theorem verifyToken_reads_only_witness :
    verifyToken toyConfig [annUser] annRequest =
      .next { annRequest with user := some annUser, clerkId := some "ext_1" } ∧
    ∃ user subject, findByClerkId [annUser] (some subject) = some user ∧
      ({ annRequest with user := some annUser, clerkId := some "ext_1" } : Request).user =
        some user ∧
      ({ annRequest with user := some annUser, clerkId := some "ext_1" } : Request).clerkId =
        some subject :=
  ⟨by decide,
   (verifyToken_reads_only toyConfig [annUser] annRequest).2 _ (by decide)⟩

/-- C19. `optionalAuth` never fails a request: it always calls `next` (the result is never a
response), it makes no write to the directory, and unless the request authenticates (header,
verification, lookup and active account all pass) the request is handed on as it came in. -/
theorem optionalAuth_never_fails (cfg : AuthConfig) (d : Directory) (req : Request) :
    (∃ req', optionalAuth cfg d req = .next req') ∧
    (optionalAuthRun cfg d req).1.all (fun c => !c.isWrite) = true ∧
    ((¬ ∃ user subject, Authenticates cfg d req user subject) →
      optionalAuth cfg d req = .next req) := by
  refine ⟨?_, (runs_make_no_write cfg d req).2, ?_⟩
  · rcases auth_cases cfg d req with ⟨user, subject, -, -, ho⟩ | ⟨-, -, ho⟩
    · exact ⟨_, ho⟩
    · exact ⟨_, ho⟩
  · intro hn
    rcases auth_cases cfg d req with ⟨user, subject, hA, -, -⟩ | ⟨-, -, ho⟩
    · exact absurd ⟨user, subject, hA⟩ hn
    · exact ho

/-- Witness for C19: an expired token leaves the request anonymous. -/
theorem optionalAuth_never_fails_witness :
    optionalAuth toyConfig [annUser]
        { authorization := some "Bearer old", user := none, clerkId := none } =
      .next { authorization := some "Bearer old", user := none, clerkId := none } :=
  (optionalAuth_never_fails toyConfig [annUser]
      { authorization := some "Bearer old", user := none, clerkId := none }).2.2
    (by
      rintro ⟨u, s, a, sec, dec, h1, -, h3, -, h5, -⟩
      simp only [Option.some.injEq] at h1
      subst h1
      simp only [toyConfig, Option.some.injEq] at h3
      subst h3
      have he : toyVerify (substring7 "Bearer old") "k" = .error "TokenExpiredError" := rfl
      simp only [toyConfig] at h5
      rw [he] at h5
      cases h5)

/-- C20. `optionalAuth` and `verifyToken` agree: when `verifyToken` calls `next`,
`optionalAuth` calls it with the same request (same record, same `clerkId`); when
`verifyToken` sends a response, `optionalAuth` hands on the request as it came in; so on a
request without a user, `optionalAuth` attaches one exactly when `verifyToken` succeeds. -/
theorem optionalAuth_agrees_with_verifyToken (cfg : AuthConfig) (d : Directory)
    (req : Request) :
    (∀ req', verifyToken cfg d req = .next req' → optionalAuth cfg d req = .next req') ∧
    (∀ status body, verifyToken cfg d req = .json status body →
      optionalAuth cfg d req = .next req) ∧
    (req.user = none →
      ((∃ req' user, optionalAuth cfg d req = .next req' ∧ req'.user = some user) ↔
        ∃ req', verifyToken cfg d req = .next req')) := by
  rcases auth_cases cfg d req with ⟨user, subject, -, hv, ho⟩ | ⟨-, ⟨st, b, hv⟩, ho⟩
  · refine ⟨?_, ?_, ?_⟩
    · intro req' h
      rw [hv] at h
      rw [ho, ← h]
    · intro st b h
      rw [hv] at h
      simp at h
    · intro _
      exact ⟨fun _ => ⟨_, hv⟩, fun _ => ⟨_, user, ho, rfl⟩⟩
  · refine ⟨?_, ?_, ?_⟩
    · intro req' h
      rw [hv] at h
      simp at h
    · intro _ _ _
      exact ho
    · intro hnone
      constructor
      · rintro ⟨req', u, h, hu⟩
        rw [ho] at h
        simp only [MiddlewareResult.next.injEq] at h
        subst h
        rw [hnone] at hu
        simp at hu
      · rintro ⟨req', h⟩
        rw [hv] at h
        simp at h

/-- Witness for C20: Ann's credential; both middlewares attach her record. -/
theorem optionalAuth_agrees_with_verifyToken_witness :
    verifyToken toyConfig [annUser] annRequest =
      .next { annRequest with user := some annUser, clerkId := some "ext_1" } ∧
    optionalAuth toyConfig [annUser] annRequest =
      .next { annRequest with user := some annUser, clerkId := some "ext_1" } :=
  ⟨by decide,
   (optionalAuth_agrees_with_verifyToken toyConfig [annUser] annRequest).1 _ (by decide)⟩

/-! ## Authorization policy -/

/-- C11. `requireRole(roles)`: without an attached user the answer is 401
`Authentication required`; with one, `next` is called exactly when the user's `userType` is
in `roles`, and the answer is 403 `Insufficient permissions` otherwise. The decision does not
look at `ngoDetails.verified`: `['donor','ngo']` lets every NGO through and `['ngo']` stops
every donor. -/
theorem requireRole_decision (roles : List String) (req : Request) :
    (req.user = none → requireRole roles req = failure 401 "Authentication required") ∧
    (∀ user, req.user = some user →
      (user.userType ∈ roles → requireRole roles req = .next req) ∧
      (user.userType ∉ roles → requireRole roles req = failure 403 "Insufficient permissions") ∧
      ((∃ req', requireRole roles req = .next req') ↔ user.userType ∈ roles)) ∧
    (∀ (user : User) (verified : Option Bool),
      (∃ req', requireRole roles
          { req with user := some { user with
              ngoDetails := { user.ngoDetails with verified := verified } } } = .next req') ↔
        ∃ req', requireRole roles { req with user := some user } = .next req') ∧
    (∀ user, req.user = some user → user.userType = "ngo" →
      requireRole ["donor", "ngo"] req = .next req) ∧
    (∀ user, req.user = some user → user.userType = "donor" →
      requireRole ["ngo"] req = failure 403 "Insufficient permissions") := by
  refine ⟨?_, ?_, ?_, ?_, ?_⟩
  · intro h
    simp [requireRole, h]
  · intro user h
    refine ⟨?_, ?_, ?_⟩
    · intro hm
      simp [requireRole, h, hm]
    · intro hm
      simp [requireRole, h, hm]
    · by_cases hm : user.userType ∈ roles
      · simp [requireRole, h, hm]
      · simp [requireRole, h, hm, failure]
  · intro user verified
    by_cases hm : user.userType ∈ roles
    · simp [requireRole, hm]
    · simp [requireRole, hm, failure]
  · intro user h ht
    simp [requireRole, h, ht]
  · intro user h ht
    simp [requireRole, h, ht]

/-- Witness for C11: an unverified NGO passes `['donor','ngo']`, a donor fails `['ngo']`. -/
theorem requireRole_decision_witness :
    ngoUser.ngoDetails.verified = some false ∧
    requireRole ["donor", "ngo"] (requestOf ngoUser) = .next (requestOf ngoUser) ∧
    requireRole ["ngo"] (requestOf annUser) = failure 403 "Insufficient permissions" :=
  ⟨rfl,
   (requireRole_decision ["donor", "ngo"] (requestOf ngoUser)).2.2.2.1 ngoUser rfl rfl,
   (requireRole_decision ["ngo"] (requestOf annUser)).2.2.2.2 annUser rfl rfl⟩

/-- C12. `requireVerifiedNGO` on a request with an attached user: `next` is called exactly
when `userType = 'ngo'` and `ngoDetails.verified` is `true`; another `userType` is answered
403 `NGO access required`; an NGO whose flag is `false` or absent is answered 403
`NGO verification required`; the two answers differ; the same NGO passes once the flag is
`true`. -/
theorem requireVerifiedNGO_decision (req : Request) (user : User)
    (h : req.user = some user) :
    ((∃ req', requireVerifiedNGO req = .next req') ↔
      user.userType = "ngo" ∧ user.ngoDetails.verified = some true) ∧
    (user.userType = "ngo" → user.ngoDetails.verified = some true →
      requireVerifiedNGO req = .next req) ∧
    (user.userType ≠ "ngo" → requireVerifiedNGO req = failure 403 "NGO access required") ∧
    (user.userType = "ngo" → user.ngoDetails.verified ≠ some true →
      requireVerifiedNGO req = failure 403 "NGO verification required") ∧
    failure 403 "NGO access required" ≠ failure 403 "NGO verification required" ∧
    (user.userType = "ngo" →
      requireVerifiedNGO
          { req with user := some { user with
              ngoDetails := { user.ngoDetails with verified := some true } } } =
        .next { req with user := some { user with
              ngoDetails := { user.ngoDetails with verified := some true } } }) := by
  refine ⟨?_, ?_, ?_, ?_, by decide, ?_⟩
  · by_cases ht : user.userType = "ngo"
    · by_cases hv : user.ngoDetails.verified = some true
      · simp [requireVerifiedNGO, h, ht, hv]
      · simp [requireVerifiedNGO, h, ht, hv, failure]
    · simp [requireVerifiedNGO, h, ht, failure]
  · intro ht hv
    simp [requireVerifiedNGO, h, ht, hv]
  · intro ht
    simp [requireVerifiedNGO, h, ht]
  · intro ht hv
    simp [requireVerifiedNGO, h, ht, hv]
  · intro ht
    simp [requireVerifiedNGO, ht]

/-- Witness for C12: the NGO is stopped while unverified and passes once verified. -/
theorem requireVerifiedNGO_decision_witness :
    requireVerifiedNGO (requestOf ngoUser) = failure 403 "NGO verification required" ∧
    requireVerifiedNGO (requestOf annUser) = failure 403 "NGO access required" ∧
    requireVerifiedNGO { requestOf ngoUser with user := some verifiedNgoUser } =
      .next { requestOf ngoUser with user := some verifiedNgoUser } :=
  ⟨(requireVerifiedNGO_decision (requestOf ngoUser) ngoUser rfl).2.2.2.1 rfl (by decide),
   (requireVerifiedNGO_decision (requestOf annUser) annUser rfl).2.2.1 (by decide),
   (requireVerifiedNGO_decision (requestOf ngoUser) ngoUser rfl).2.2.2.2.2 rfl⟩

/-! ## Provisioning and the directory invariants -/

/-- The stored address `élan@x.com` and the requested `ÉLAN@X.com` differ only in case, under
a case mapping that lower-cases `É`: the sign-up is answered `Email already registered`, and
a `user.created` event for another id is refused by the unique index. -/
theorem accented_duplicates_rejected :
    @handleSignup latin1CaseMapping 7 [elanUser]
        { clerkId := some "ext_9", firstName := some "Bob", lastName := none,
          email := some "ÉLAN@X.com", userType := some "donor" } =
      ([elanUser], .json 400 { success := false, message := some "Email already registered" }
        none) ∧
    @handleWebhook latin1CaseMapping 7 [elanUser]
        { type := some "user.created",
          data := some { annData with id := some "ext_9",
                                      email_addresses :=
                                        some [{ email_address := some "ÉLAN@X.com",
                                                verification := none }] } } =
      ([elanUser], .threw .duplicateKey) := by
  decide

/-- C21. `handleSignup` rejects duplicates and leaves the directory as it is: a record with
the body's `clerkId` gives 400 `User already exists`, whatever the address (so this check
comes first); otherwise a record whose stored address is the body's address lowercased
gives 400 `Email already registered`. -/
theorem handleSignup_rejects_duplicates [CaseMapping] (now : Int) (d : Directory)
    (body : SignupBody) :
    (∀ r, findByClerkId d body.clerkId = some r →
      handleSignup now d body =
        (d, .json 400 { success := false, message := some "User already exists" } none)) ∧
    (findByClerkId d body.clerkId = none → EmailsNormalised d →
      ∀ email r, body.email = some email → r ∈ d → r.email = toLowerCase email →
      handleSignup now d body =
        (d, .json 400 { success := false, message := some "Email already registered" }
          none)) := by
  constructor
  · intro r hr
    simp [handleSignup, hr]
  · intro hnone hn email r hemail hr hre
    have hfound : ∃ r', findByEmail d email = some r' := by
      unfold findByEmail
      cases hf : d.find? (fun u => u.email == setEmail (toLowerCase email)) with
      | some r' => exact ⟨r', rfl⟩
      | none =>
        exfalso
        rw [List.find?_eq_none] at hf
        have := hf r hr
        rw [← hre, hn r hr] at this
        simp at this
    obtain ⟨r', hr'⟩ := hfound
    simp [handleSignup, hnone, hemail, hr']

/-- Witness for C21: a second sign-up with Ann's address in capitals under another id. -/
theorem handleSignup_rejects_duplicates_witness :
    findByClerkId [annUser] (some "ext_9") = none ∧ EmailsNormalised [annUser] ∧
    handleSignup 7 [annUser]
        { clerkId := some "ext_9", firstName := some "Bob", lastName := none,
          email := some "A@X.COM", userType := some "donor" } =
      ([annUser], .json 400 { success := false, message := some "Email already registered" }
        none) :=
  ⟨by decide, by intro u hu; simp at hu; subst hu; decide,
   (handleSignup_rejects_duplicates 7 [annUser]
      { clerkId := some "ext_9", firstName := some "Bob", lastName := none,
        email := some "A@X.COM", userType := some "donor" }).2 (by decide)
      (by intro u hu; simp at hu; subst hu; decide) "A@X.COM" annUser rfl (by simp)
      (by decide)⟩

/-- C22. Uniqueness is an invariant of `handleSignup` and of `handleWebhook` (every event):
from a directory with unique `_id`, `clerkId` and `email` whose addresses are in the normal
form of the schema setters, the resulting directory again has at most one record per
`clerkId` and per `email` (also compared lowercased), and every stored address is
lowercase. -/
theorem uniqueness_invariant [CaseMapping] (hl : LowercaseStable) (now : Int) (d : Directory)
    (hu : UniqueKeys d) (hn : EmailsNormalised d) :
    (∀ body : SignupBody,
      UniqueKeys (handleSignup now d body).1 ∧
      ((handleSignup now d body).1.map (fun u => toLowerCase u.email)).Nodup ∧
      ∀ u ∈ (handleSignup now d body).1, toLowerCase u.email = u.email) ∧
    (∀ body : WebhookBody,
      UniqueKeys (handleWebhook now d body).1 ∧
      ((handleWebhook now d body).1.map (fun u => toLowerCase u.email)).Nodup ∧
      ∀ u ∈ (handleWebhook now d body).1, toLowerCase u.email = u.email) := by
  have key : ∀ d' : Directory, UniqueKeys d' → EmailsNormalised d' →
      UniqueKeys d' ∧ (d'.map (fun u => toLowerCase u.email)).Nodup ∧
      ∀ u ∈ d', toLowerCase u.email = u.email := by
    intro d' hu' hn'
    have hl : ∀ u ∈ d', toLowerCase u.email = u.email :=
      fun u hu => toLowerCase_of_normalised hl (hn' u hu)
    refine ⟨hu', ?_, hl⟩
    have : d'.map (fun u => toLowerCase u.email) = d'.map (fun u => u.email) :=
      List.map_congr_left hl
    rw [this]
    exact hu'.2.2
  constructor
  · intro body
    obtain ⟨h1, h2⟩ := handleSignup_inv hl now d body hu hn
    exact key _ h1 h2
  · intro body
    obtain ⟨h1, h2⟩ := handleWebhook_inv hl now d body hu hn
    exact key _ h1 h2

/-- Witness for C22: Bob signs up next to Ann. -/
theorem uniqueness_invariant_witness :
    LowercaseStable ∧ UniqueKeys [annUser] ∧ EmailsNormalised [annUser] ∧
    UniqueKeys (handleSignup 7 [annUser]
      { clerkId := some "ext_9", firstName := some "Bob", lastName := none,
        email := some "Bob@X.com", userType := some "donor" }).1 :=
  ⟨asciiCaseMapping_stable, by simp [UniqueKeys], by intro u hu; simp at hu; subst hu; decide,
   ((uniqueness_invariant asciiCaseMapping_stable 7 [annUser] (by simp [UniqueKeys])
      (by intro u hu; simp at hu; subst hu; decide)).1
      { clerkId := some "ext_9", firstName := some "Bob", lastName := none,
        email := some "Bob@X.com", userType := some "donor" }).1⟩

/-- C23. `clerkId` and `userType` are immutable: on a directory with unique `_id`s, every
handler that writes (`handleWebhook` for every event, `handleSignin`, and, for an attached
user that is a stored record, `updateProfile`, `updateEmailVerification`, `deleteAccount`;
`verifyNGO`, `updateUserStatus`), with any body, leaves every record in place with its `_id`,
`clerkId` and `userType`; no record is removed. -/
theorem identity_immutable [CaseMapping] (now : Int) (d : Directory)
    (hids : (d.map (fun u => u._id)).Nodup) :
    (∀ body : WebhookBody, Keeps identityOf d (handleWebhook now d body).1) ∧
    (∀ clerkId : Option String, Keeps identityOf d (handleSignin now d clerkId).1) ∧
    (∀ (req : Request) (user : User), req.user = some user → user ∈ d →
      (∀ body : UpdateProfileBody, Keeps identityOf d (updateProfile now d req body).1) ∧
      (∀ emailVerified : Option Bool,
        Keeps identityOf d (updateEmailVerification now d req emailVerified).1) ∧
      Keeps identityOf d (deleteAccount now d req).1) ∧
    (∀ (id : Nat) (verified : Option Bool),
      Keeps identityOf d (verifyNGO now d id verified).1) ∧
    (∀ (id : Nat) (isActive : Option Bool),
      Keeps identityOf d (updateUserStatus now d id isActive).1) := by
  have hg : ∀ (u : User) (t : Int), identityOf { u with updatedAt := t } = identityOf u :=
    fun _ _ => rfl
  refine ⟨?_, ?_, ?_, ?_, ?_⟩
  · intro body
    exact handleWebhook_keeps identityOf now d body hg (fun _ _ => rfl) (fun _ => rfl) hids
  · intro clerkId
    unfold handleSignin
    split
    · exact keeps_refl _ d
    · rename_i user hfind
      split
      · exact keeps_refl _ d
      · split
        · exact keeps_refl _ d
        · rename_i d' hs
          exact save_keeps identityOf hg hids (findByClerkId_mem hfind) hs rfl rfl
  · intro req user hreq hm
    refine ⟨?_, ?_, ?_⟩
    · intro body
      exact updateProfile_keeps identityOf now d req body user hg (fun _ _ => rfl) rfl hids
        hreq hm
    · intro emailVerified
      unfold updateEmailVerification
      rw [hreq]
      cases emailVerified with
      | some b =>
        simp only
        split
        · exact keeps_refl _ d
        · rename_i d' hs
          exact save_keeps identityOf hg hids hm hs rfl rfl
      | none =>
        simp only
        split
        · exact keeps_refl _ d
        · rename_i d' hs
          exact saveUnset_keeps identityOf hg hids hm hs rfl rfl
    · unfold deleteAccount
      rw [hreq]
      simp only
      split
      · rename_i d' hs
        exact save_keeps identityOf hg hids hm hs rfl rfl
      · exact keeps_refl _ d
  · intro id verified
    unfold verifyNGO
    split
    · exact keeps_refl _ d
    · rename_i ngo hfind
      cases verified with
      | some b =>
        simp only
        split
        · exact keeps_refl _ d
        · rename_i d' hs
          exact save_keeps identityOf hg hids (List.mem_of_find?_eq_some hfind) hs rfl rfl
      | none =>
        simp only
        split
        · exact keeps_refl _ d
        · rename_i d' hs
          exact saveUnset_keeps identityOf hg hids (List.mem_of_find?_eq_some hfind) hs rfl rfl
  · intro id isActive
    unfold updateUserStatus
    split
    · exact keeps_refl _ d
    · rename_i user hfind
      cases isActive with
      | some b =>
        simp only
        split
        · exact keeps_refl _ d
        · rename_i d' hs
          exact save_keeps identityOf hg hids (List.mem_of_find?_eq_some hfind) hs rfl rfl
      | none =>
        simp only
        split
        · exact keeps_refl _ d
        · rename_i d' hs
          exact saveUnset_keeps identityOf hg hids (List.mem_of_find?_eq_some hfind) hs rfl rfl

/-- Witness for C23: Ann's record keeps its identity through a padded `user.updated` event. -/
theorem identity_immutable_witness :
    ([annUser].map (fun u => u._id)).Nodup ∧
    ∃ v', (handleWebhook 7 [annUser] annUpdated).1[0]? = some v' ∧
      identityOf v' = (1, "ext_1", "donor") :=
  ⟨by decide,
   ((identity_immutable 7 [annUser] (by decide)).1 annUpdated) 0 annUser rfl⟩

/-- C24 at the failing input: an authenticated, unverified NGO sends `updateProfile` with
`ngoDetails: { verified: true }`; the spread writes the flag, and the stored record is
verified afterwards. -/
theorem updateProfile_self_verifies :
    ngoUser.userType = "ngo" ∧ ngoUser.ngoDetails.verified = some false ∧
    (findByClerkId (updateProfile 7 [ngoUser] (requestOf ngoUser) selfVerifyBody).1
      (some "ext_2")).map (fun u => u.ngoDetails.verified) = some (some true) ∧
    requireVerifiedNGO (requestOf ngoUser) = failure 403 "NGO verification required" ∧
    (∀ u, findByClerkId (updateProfile 7 [ngoUser] (requestOf ngoUser) selfVerifyBody).1
        (some "ext_2") = some u →
      requireVerifiedNGO (requestOf u) = .next (requestOf u)) := by
  refine ⟨rfl, rfl, by decide, by decide, ?_⟩
  intro u hu
  have h : findByClerkId (updateProfile 7 [ngoUser] (requestOf ngoUser) selfVerifyBody).1
      (some "ext_2") =
      some { ngoUser with
        ngoDetails := { ngoUser.ngoDetails with verified := some true },
        lastActivity := some 7, updatedAt := 7 } := by decide
  rw [h] at hu
  simp only [Option.some.injEq] at hu
  subst hu
  decide

/-- C25. The role-specific details of the other role are neither exposed nor written: the
`data` of `handleSignin`, `getProfile` and `updateProfile` carries `ngoDetails` only for an
NGO and `donorDetails` only for a donor, never both; and `updateProfile` by a user who is
not an NGO leaves every stored `ngoDetails` as it is, by a user who is not a donor every
stored `donorDetails`, whatever the body carries. -/
theorem role_details_own_role_only (now : Int) (d : Directory) :
    (∀ (clerkId : Option String) (user : User) (status : Nat) (body : JsonBody)
        (view : DataView),
      findByClerkId d clerkId = some user →
      (handleSignin now d clerkId).2 = .json status body (some view) →
      ExposesOwnRoleOnly user.userType view) ∧
    (∀ (req : Request) (user : User) (status : Nat) (body : JsonBody) (view : DataView),
      req.user = some user → getProfile req = .json status body (some view) →
      ExposesOwnRoleOnly user.userType view) ∧
    (∀ (req : Request) (user : User) (pbody : UpdateProfileBody) (status : Nat)
        (body : JsonBody) (view : DataView),
      req.user = some user →
      (updateProfile now d req pbody).2 = .json status body (some view) →
      ExposesOwnRoleOnly user.userType view) ∧
    (∀ (req : Request) (user : User) (pbody : UpdateProfileBody),
      req.user = some user → user ∈ d → (d.map (fun u => u._id)).Nodup →
      (user.userType ≠ "ngo" →
        Keeps (fun u => u.ngoDetails) d (updateProfile now d req pbody).1) ∧
      (user.userType ≠ "donor" →
        Keeps (fun u => u.donorDetails) d (updateProfile now d req pbody).1)) := by
  refine ⟨?_, ?_, ?_, ?_⟩
  · intro clerkId user status body view hfind h
    unfold handleSignin at h
    rw [hfind] at h
    simp only at h
    split at h
    · simp at h
    · split at h
      · simp at h
      · simp only [Reply.json.injEq, Option.some.injEq] at h
        obtain ⟨-, -, hview⟩ := h
        subst hview
        exact exposes_own_role user _ rfl rfl
  · intro req user status body view hreq h
    unfold getProfile at h
    rw [hreq] at h
    simp only [Reply.json.injEq, Option.some.injEq] at h
    obtain ⟨-, -, hview⟩ := h
    subst hview
    exact exposes_own_role user _ rfl rfl
  · intro req user pbody status body view hreq h
    unfold updateProfile at h
    rw [hreq] at h
    simp only at h
    split at h
    · simp at h
    · split at h
      · simp at h
      · rename_i r hla
        simp only [Reply.json.injEq, Option.some.injEq] at h
        obtain ⟨-, -, hview⟩ := h
        subst hview
        have hut : r.2.userType = user.userType := by
          unfold updateLastActivity at hla
          split at hla
          · simp only [Except.ok.injEq] at hla
            subst hla
            simp only [saved_userType]
            rfl
          · simp at hla
        rw [← hut]
        exact exposes_own_role r.2 _ rfl rfl
  · intro req user pbody hreq hm hids
    constructor
    · intro hne
      refine updateProfile_keeps (fun u => u.ngoDetails) now d req pbody user (fun _ _ => rfl)
        (fun _ _ => rfl) ?_ hids hreq hm
      simp only [assignRoleDetails, assignBasics]
      split
      · simp [hne]
      · rfl
    · intro hne
      refine updateProfile_keeps (fun u => u.donorDetails) now d req pbody user (fun _ _ => rfl)
        (fun _ _ => rfl) ?_ hids hreq hm
      simp only [assignRoleDetails, assignBasics]
      split
      · simp [hne]
      · rfl

/-- Witness for C25: Ann, a donor, sends the body that sets `ngoDetails.verified`; her stored
`ngoDetails` stays as it is. -/
theorem role_details_own_role_only_witness :
    annUser.userType ≠ "ngo" ∧
    ∃ v', (updateProfile 7 [annUser] (requestOf annUser) selfVerifyBody).1[0]? = some v' ∧
      v'.ngoDetails = annUser.ngoDetails :=
  ⟨by decide,
   (((role_details_own_role_only 7 [annUser]).2.2.2 (requestOf annUser) annUser selfVerifyBody
      rfl (by simp) (by decide)).1 (by decide)) 0 annUser rfl⟩

/-- C26. Each kind of failure of `verifyToken`, `requireRole` and `requireVerifiedNGO` is
answered with its own reason: a missing credential (no header, or not a bearer header), a
missing or empty secret, a token the verifier rejects as invalid or as expired, a missing
subject, an unknown identity, a deactivated account; no attached user, a role outside the
list; not an NGO, an NGO not verified. Every failure response has `success = false` and the
reason of one of the kinds as `message`; the reasons of different kinds are different, and
none is empty. -/
theorem failure_reasons_distinct :
    (∀ (cfg : AuthConfig) (d : Directory) (req : Request),
      (req.authorization = none →
        verifyToken cfg d req = failure 401 (FailureKind.reason .missingCredential)) ∧
      (∀ authHeader, req.authorization = some authHeader →
        startsWithBearer authHeader = false →
        verifyToken cfg d req = failure 401 (FailureKind.reason .missingCredential)) ∧
      (∀ authHeader, req.authorization = some authHeader →
        startsWithBearer authHeader = true →
        cfg.CLERK_SECRET_KEY = none ∨ cfg.CLERK_SECRET_KEY = some "" →
        verifyToken cfg d req = failure 500 (FailureKind.reason .configurationError)) ∧
      (∀ authHeader secret, req.authorization = some authHeader →
        startsWithBearer authHeader = true → cfg.CLERK_SECRET_KEY = some secret →
        secret ≠ "" →
        (cfg.jwtVerify (substring7 authHeader) secret = .error "JsonWebTokenError" →
          verifyToken cfg d req = failure 401 (FailureKind.reason .invalidToken)) ∧
        (cfg.jwtVerify (substring7 authHeader) secret = .error "TokenExpiredError" →
          verifyToken cfg d req = failure 401 (FailureKind.reason .expiredToken)) ∧
        (∀ decoded, cfg.jwtVerify (substring7 authHeader) secret = .ok decoded →
          (truthy (orElse decoded.sub decoded.user_id) = false →
            verifyToken cfg d req = failure 401 (FailureKind.reason .missingSubject)) ∧
          (truthy (orElse decoded.sub decoded.user_id) = true →
            findByClerkId d (orElse decoded.sub decoded.user_id) = none →
            verifyToken cfg d req = failure 404 (FailureKind.reason .unknownIdentity)) ∧
          (∀ user, truthy (orElse decoded.sub decoded.user_id) = true →
            findByClerkId d (orElse decoded.sub decoded.user_id) = some user →
            user.isActive = false →
            verifyToken cfg d req =
              failure 403 (FailureKind.reason .accountDeactivated))))) ∧
    (∀ (roles : List String) (req : Request),
      (req.user = none →
        requireRole roles req = failure 401 (FailureKind.reason .unauthenticated)) ∧
      (∀ user, req.user = some user → roles.contains user.userType = false →
        requireRole roles req = failure 403 (FailureKind.reason .insufficientRole))) ∧
    (∀ req : Request,
      (req.user = none →
        requireVerifiedNGO req = failure 401 (FailureKind.reason .unauthenticated)) ∧
      (∀ user, req.user = some user → user.userType ≠ "ngo" →
        requireVerifiedNGO req = failure 403 (FailureKind.reason .notAnNgo)) ∧
      (∀ user, req.user = some user → user.userType = "ngo" →
        user.ngoDetails.verified ≠ some true →
        requireVerifiedNGO req = failure 403 (FailureKind.reason .ngoNotVerified))) ∧
    (∀ (cfg : AuthConfig) (d : Directory) (req : Request) (status : Nat) (body : JsonBody),
      verifyToken cfg d req = .json status body →
      body.success = false ∧
      ∃ k ∈ [FailureKind.missingCredential, .configurationError, .invalidToken, .expiredToken,
             .authenticationError, .missingSubject, .unknownIdentity, .accountDeactivated],
        body.message = some k.reason) ∧
    (∀ (roles : List String) (req : Request) (status : Nat) (body : JsonBody),
      requireRole roles req = .json status body →
      body.success = false ∧
      ∃ k ∈ [FailureKind.unauthenticated, .insufficientRole], body.message = some k.reason) ∧
    (∀ (req : Request) (status : Nat) (body : JsonBody),
      requireVerifiedNGO req = .json status body →
      body.success = false ∧
      ∃ k ∈ [FailureKind.unauthenticated, .notAnNgo, .ngoNotVerified],
        body.message = some k.reason) ∧
    Function.Injective FailureKind.reason ∧
    (∀ k : FailureKind, k.reason ≠ "") := by
  refine ⟨?_, ?_, ?_, ?_, ?_, ?_, ?_, ?_⟩
  · intro cfg d req
    refine ⟨?_, ?_, ?_, ?_⟩
    · intro hauth
      simp [verifyToken, hauth, FailureKind.reason]
    · intro authHeader hauth hb
      simp [verifyToken, hauth, hb, FailureKind.reason]
    · intro authHeader hauth hb hsec
      rcases hsec with hsec | hsec <;> simp [verifyToken, hauth, hb, hsec, FailureKind.reason]
    · intro authHeader secret hauth hb hsec hne
      refine ⟨?_, ?_, ?_⟩
      · intro hdec
        simp [verifyToken, hauth, hb, hsec, hne, hdec, FailureKind.reason]
      · intro hdec
        simp [verifyToken, hauth, hb, hsec, hne, hdec, FailureKind.reason]
      · intro decoded hdec
        refine ⟨?_, ?_, ?_⟩
        · intro ht
          simp [verifyToken, hauth, hb, hsec, hne, hdec, ht, FailureKind.reason]
        · intro ht hfind
          simp [verifyToken, hauth, hb, hsec, hne, hdec, ht, hfind, FailureKind.reason]
        · intro user ht hfind hact
          simp [verifyToken, hauth, hb, hsec, hne, hdec, ht, hfind, hact, FailureKind.reason]
  · intro roles req
    refine ⟨?_, ?_⟩
    · intro h
      simp [requireRole, h, FailureKind.reason]
    · intro user h hr
      unfold requireRole
      rw [h]
      simp only [hr, Bool.not_false, if_true]
      rfl
  · intro req
    refine ⟨?_, ?_, ?_⟩
    · intro h
      simp [requireVerifiedNGO, h, FailureKind.reason]
    · intro user h ht
      simp [requireVerifiedNGO, h, ht, FailureKind.reason]
    · intro user h ht hv
      simp [requireVerifiedNGO, h, ht, hv, FailureKind.reason]
  · intro cfg d req status body h
    rcases verifyToken_failure_kind cfg d req with ⟨req', h'⟩ | ⟨k, st, hk, h'⟩
    · rw [h'] at h; simp at h
    · rw [h'] at h
      simp only [failure, MiddlewareResult.json.injEq] at h
      obtain ⟨-, rfl⟩ := h
      exact ⟨rfl, k, hk, rfl⟩
  · intro roles req status body h
    unfold requireRole at h
    split at h
    · simp only [failure, MiddlewareResult.json.injEq] at h
      obtain ⟨-, rfl⟩ := h
      exact ⟨rfl, .unauthenticated, by simp, rfl⟩
    · split at h
      · simp only [failure, MiddlewareResult.json.injEq] at h
        obtain ⟨-, rfl⟩ := h
        exact ⟨rfl, .insufficientRole, by simp, rfl⟩
      · simp at h
  · intro req status body h
    unfold requireVerifiedNGO at h
    split at h
    · simp only [failure, MiddlewareResult.json.injEq] at h
      obtain ⟨-, rfl⟩ := h
      exact ⟨rfl, .unauthenticated, by simp, rfl⟩
    · split at h
      · simp only [failure, MiddlewareResult.json.injEq] at h
        obtain ⟨-, rfl⟩ := h
        exact ⟨rfl, .notAnNgo, by simp, rfl⟩
      · split at h
        · simp only [failure, MiddlewareResult.json.injEq] at h
          obtain ⟨-, rfl⟩ := h
          exact ⟨rfl, .ngoNotVerified, by simp, rfl⟩
        · simp at h
  · intro a b h
    cases a <;> cases b <;> first | rfl | (exfalso; revert h; decide)
  · intro k
    cases k <;> decide

/-- Witness for C26: an anonymous request is answered `Access token required` by
`verifyToken`, and Ann, a donor, `Insufficient permissions` by `requireRole(['admin'])`. -/
theorem failure_reasons_distinct_witness :
    anonymousRequest.authorization = none ∧
    verifyToken toyConfig [annUser] anonymousRequest = failure 401 "Access token required" ∧
    (requestOf annUser).user = some annUser ∧
    requireRole ["admin"] (requestOf annUser) = failure 403 "Insufficient permissions" :=
  ⟨rfl, (failure_reasons_distinct.1 toyConfig [annUser] anonymousRequest).1 rfl, rfl,
   (failure_reasons_distinct.2.1 ["admin"] (requestOf annUser)).2 annUser rfl (by decide)⟩

/-- C27, as stated, fails: a payload with a `data` object but without `created_at` (the
`user.deleted` event), or with a `created_at` beyond the range of a date, gets the invalid
date as `createdAt`, not an instant. -/
theorem extractUserData_invalid_dates :
    (extractUserData annDeleted).map (fun x => (x.createdAt, x.updatedAt)) =
      some (none, none) ∧
    farFutureData.created_at = some 10000000000000 ∧
    (extractUserData { type := some "user.created", data := some farFutureData }).map
      (fun x => x.createdAt) = some none := by
  decide

/-- C27, amended. `extractUserData` returns `null` without a `data` object; with one it
returns `clerkId = data.id`, the first address or `''`, the names or `''`, `emailVerified`
true exactly when the status of the first address is `'verified'`, and as `createdAt`
(`updatedAt`) the instant `created_at * 1000` ms when `created_at` is present and that
instant is within the range of a date (8.64e15 ms either side of the epoch), the invalid date
otherwise. -/
theorem extractUserData_fields (payload : WebhookBody) :
    (payload.data = none → extractUserData payload = none) ∧
    (∀ data, payload.data = some data →
      ∃ x, extractUserData payload = some x ∧
        x.clerkId = data.id ∧
        x.email = ((data.email_addresses.bind List.head?).bind
          (fun e => e.email_address)).getD "" ∧
        x.firstName = data.first_name.getD "" ∧
        x.lastName = data.last_name.getD "" ∧
        (x.emailVerified = true ↔
          ∃ e v, data.email_addresses.bind List.head? = some e ∧ e.verification = some v ∧
            v.status = some "verified") ∧
        (∀ s, data.created_at = some s → (s * 1000).natAbs ≤ 8640000000000000 →
          x.createdAt = some (s * 1000)) ∧
        (∀ s, data.updated_at = some s → (s * 1000).natAbs ≤ 8640000000000000 →
          x.updatedAt = some (s * 1000)) ∧
        (data.created_at = none → x.createdAt = none) ∧
        (data.updated_at = none → x.updatedAt = none) ∧
        (∀ s, data.created_at = some s → ¬ (s * 1000).natAbs ≤ 8640000000000000 →
          x.createdAt = none) ∧
        (∀ s, data.updated_at = some s → ¬ (s * 1000).natAbs ≤ 8640000000000000 →
          x.updatedAt = none)) := by
  constructor
  · intro h
    simp [extractUserData, h]
  · intro data h
    refine ⟨_, extractUserData_some h, rfl, rfl, rfl, rfl, ?_, ?_, ?_, ?_, ?_, ?_, ?_⟩
    · simp only [firstEmailVerified, firstEmailAddress, beq_iff_eq]
      constructor
      · intro hv
        cases he : data.email_addresses.bind List.head? with
        | none => rw [he] at hv; simp at hv
        | some e =>
          rw [he] at hv
          cases hver : e.verification with
          | none => simp [hver] at hv
          | some v =>
            simp only [Option.some_bind, hver] at hv
            exact ⟨e, v, rfl, hver, hv⟩
      · rintro ⟨e, v, he, hver, hst⟩
        simp [he, hver, hst]
    · intro s hs hr
      simp [dateOfSeconds, hs, hr]
    · intro s hs hr
      simp [dateOfSeconds, hs, hr]
    · intro hs
      simp [dateOfSeconds, hs]
    · intro hs
      simp [dateOfSeconds, hs]
    · intro s hs hr
      simp [dateOfSeconds, hs, hr]
    · intro s hs hr
      simp [dateOfSeconds, hs, hr]

/-- Witness for C27 (amended): Ann's payload, created at second 1000. -/
theorem extractUserData_fields_witness :
    ∃ x, extractUserData annCreated = some x ∧ x.clerkId = some "ext_1" ∧
      x.email = "a@x.com" ∧ x.createdAt = some 1000000 :=
  match (extractUserData_fields annCreated).2 annData rfl with
  | ⟨x, h1, h2, h3, _, _, _, h4, _⟩ =>
    ⟨x, h1, h2, h3.trans (by decide), h4 1000 rfl (by decide)⟩

/-- C30. The admin routes are unreachable: on a directory whose records pass the schema
validators, whatever the configuration, the request and the handler, the chain
`verifyToken, requireRole(['admin'])` answers the request itself and the handler is not run;
an authenticated user is answered 403 `Insufficient permissions`; the directory is as
before, so `verifyNGO` behind its route changes no `verified` flag. -/
theorem admin_routes_unreachable (d : Directory) (hv : SchemaValid d) :
    (∀ (cfg : AuthConfig) (req req' : Request), verifyToken cfg d req = .next req' →
      requireRole ["admin"] req' = failure 403 "Insufficient permissions") ∧
    (∀ (cfg : AuthConfig) (handler : Directory → Request → Directory × Reply) (req : Request),
      ∃ status body, adminRoute cfg handler d req = (d, .rejected status body)) ∧
    (∀ (cfg : AuthConfig) (now : Int) (id : Nat) (verified : Option Bool) (req : Request),
      (adminRoute cfg (fun d' _ => verifyNGO now d' id verified) d req).1 = d) := by
  have h403 : ∀ (cfg : AuthConfig) (req req' : Request), verifyToken cfg d req = .next req' →
      requireRole ["admin"] req' = failure 403 "Insufficient permissions" := by
    intro cfg req req' h
    rcases auth_cases cfg d req with ⟨user, subject, hA, hvt, -⟩ | ⟨-, ⟨st, b, hvt⟩, -⟩
    · rw [hvt] at h
      simp only [MiddlewareResult.next.injEq] at h
      subst h
      obtain ⟨_, _, _, _, _, _, _, _, _, _, hfind, _⟩ := hA
      have hval := hv user (findByClerkId_mem hfind)
      rcases validate_userType hval with ht | ht <;> simp [requireRole, ht]
    · rw [hvt] at h
      simp at h
  have hroute : ∀ (cfg : AuthConfig) (handler : Directory → Request → Directory × Reply)
      (req : Request), ∃ status body, adminRoute cfg handler d req = (d, .rejected status body) := by
    intro cfg handler req
    unfold adminRoute
    cases hvt : verifyToken cfg d req with
    | json status body => exact ⟨status, body, rfl⟩
    | next req1 =>
      simp only
      rw [h403 cfg req req1 hvt]
      exact ⟨403, _, rfl⟩
  refine ⟨h403, hroute, ?_⟩
  intro cfg now id verified req
  obtain ⟨status, body, h⟩ := hroute cfg (fun d' _ => verifyNGO now d' id verified) req
  rw [h]

/-- Witness for C30: Ann, authenticated, asks for the verification of the NGO with `_id` 2;
the route answers 403 and the handler is not run. -/
theorem admin_routes_unreachable_witness :
    SchemaValid [annUser, ngoUser] ∧
    requireRole ["admin"] { annRequest with user := some annUser, clerkId := some "ext_1" } =
      failure 403 "Insufficient permissions" ∧
    adminRoute toyConfig (fun d' _ => verifyNGO 7 d' 2 (some true)) [annUser, ngoUser]
        annRequest =
      ([annUser, ngoUser],
       .rejected 403 { success := false, message := some "Insufficient permissions" }) ∧
    (verifyNGO 7 [annUser, ngoUser] 2 (some true)).1 ≠ [annUser, ngoUser] :=
  ⟨by decide,
   (admin_routes_unreachable [annUser, ngoUser] (by decide)).1 toyConfig annRequest _
     (by decide),
   by decide, by decide⟩

/-- C28, as stated, fails. Events for different ids are not independent. Bob's and Ann's
`user.created` events carry different ids and the same address: whichever is processed
first takes the address, and the other insertion fails on the unique index, so the two
orders leave different records. And two `user.created` events with different addresses
leave the same two records in the two orders, but in the other insertion order and with
the other `_id`s, so the directories are not the same. -/
theorem created_events_interfere :
    eventId annCreated ≠ eventId bobCreated ∧
    (handleWebhook 6 (handleWebhook 5 [] annCreated).1 bobCreated).1 = [annUser] ∧
    ((handleWebhook 5 (handleWebhook 6 [] bobCreated).1 annCreated).1.map
      (fun u => u.clerkId)) = ["ext_3"] ∧
    ¬ SameRecords (handleWebhook 6 (handleWebhook 5 [] annCreated).1 bobCreated).1
        (handleWebhook 5 (handleWebhook 6 [] bobCreated).1 annCreated).1 ∧
    eventId annCreated ≠ eventId cyCreated ∧
    (handleWebhook 6 (handleWebhook 5 [] annCreated).1 cyCreated).1 ≠
      (handleWebhook 5 (handleWebhook 6 [] cyCreated).1 annCreated).1 := by
  refine ⟨by decide, by decide, by decide, ?_, by decide, by decide⟩
  intro h
  have h2 := List.Perm.map (fun u : User => u.clerkId) h
  have e1 : ((handleWebhook 6 (handleWebhook 5 [] annCreated).1 bobCreated).1.map
      forgetId).map (fun u : User => u.clerkId) = ["ext_1"] := by decide
  have e2 : ((handleWebhook 5 (handleWebhook 6 [] bobCreated).1 annCreated).1.map
      forgetId).map (fun u : User => u.clerkId) = ["ext_3"] := by decide
  rw [e1, e2] at h2
  have := h2.subset (List.mem_singleton.mpr rfl)
  simp at this

/-- C28, amended. Events for different ids that touch different addresses are
independent. Let `d` have unique keys, let the two events carry different `data.id`s, and
let no address touched by the one (the address stored under its id, and for a
`user.created` or `user.updated` event the normalised address it delivers) be touched by
the other. Then processing `e1` at `t1` and then `e2` at `t2` leaves the same records as
processing `e2` at `t2` and then `e1` at `t1`, up to insertion order and `_id`; and the
two directories are equal unless both events are `user.created`. -/
theorem independent_events [CaseMapping] (t1 t2 : Int) (d : Directory) (e1 e2 : WebhookBody)
    (hu : UniqueKeys d) (hid : eventId e1 ≠ eventId e2)
    (hem : ∀ a ∈ touchedEmails d e1, a ∉ touchedEmails d e2) :
    SameRecords (handleWebhook t2 (handleWebhook t1 d e1).1 e2).1
        (handleWebhook t1 (handleWebhook t2 d e2).1 e1).1 ∧
    (¬ (e1.type = some "user.created" ∧ e2.type = some "user.created") →
      (handleWebhook t2 (handleWebhook t1 d e1).1 e2).1 =
        (handleWebhook t1 (handleWebhook t2 d e2).1 e1).1) := by
  have hids := hu.1
  rcases handleWebhook_step e1 with n1 | ⟨c1, ud1, hc1, hm1, s1⟩ | ⟨c1, f, hf, hfc, hm1, s1⟩
  · have : (handleWebhook t2 (handleWebhook t1 d e1).1 e2).1 =
        (handleWebhook t1 (handleWebhook t2 d e2).1 e1).1 := by rw [n1, n1]
    exact ⟨sameRecords_of_eq this, fun _ => this⟩
  · rcases handleWebhook_step e2 with n2 | ⟨c2, ud2, hc2, hm2, s2⟩ | ⟨c2, g, hg, hgc, hm2, s2⟩
    · have : (handleWebhook t2 (handleWebhook t1 d e1).1 e2).1 =
          (handleWebhook t1 (handleWebhook t2 d e2).1 e1).1 := by rw [n2, n2]
      exact ⟨sameRecords_of_eq this, fun _ => this⟩
    · refine ⟨?_, fun h => absurd ⟨c1, c2⟩ h⟩
      rw [s1, s2, s2, s1]
      apply insert_insert_comm
      · rw [hc1, hc2]; exact hid
      · intro h
        exact hem _ (hm1 d) (h ▸ hm2 d)
    · have : (handleWebhook t2 (handleWebhook t1 d e1).1 e2).1 =
          (handleWebhook t1 (handleWebhook t2 d e2).1 e1).1 := by
        rw [s1, s2, s2, s1]
        apply insert_modify_comm t1 t2 d ud1 (eventId e2) g _ hg hgc hids
        · intro r2 hr2
          refine ⟨?_, ?_⟩
          · intro h
            exact hem _ (hm1 d) (h ▸ stored_mem_touchedEmails hr2)
          · intro h
            exact hem _ (hm1 d) (h ▸ hm2 d r2 hr2)
        · rw [hc1]; exact hid
      exact ⟨sameRecords_of_eq this, fun _ => this⟩
  · rcases handleWebhook_step e2 with n2 | ⟨c2, ud2, hc2, hm2, s2⟩ | ⟨c2, g, hg, hgc, hm2, s2⟩
    · have : (handleWebhook t2 (handleWebhook t1 d e1).1 e2).1 =
          (handleWebhook t1 (handleWebhook t2 d e2).1 e1).1 := by rw [n2, n2]
      exact ⟨sameRecords_of_eq this, fun _ => this⟩
    · have : (handleWebhook t2 (handleWebhook t1 d e1).1 e2).1 =
          (handleWebhook t1 (handleWebhook t2 d e2).1 e1).1 := by
        rw [s1, s2, s2, s1]
        symm
        apply insert_modify_comm t2 t1 d ud2 (eventId e1) f _ hf hfc hids
        · intro r1 hr1
          refine ⟨?_, ?_⟩
          · intro h
            exact hem _ (stored_mem_touchedEmails hr1) (h ▸ hm2 d)
          · intro h
            exact hem _ (hm1 d r1 hr1) (h ▸ hm2 d)
        · rw [hc2]; exact fun h => hid h.symm
      exact ⟨sameRecords_of_eq this, fun _ => this⟩
    · have : (handleWebhook t2 (handleWebhook t1 d e1).1 e2).1 =
          (handleWebhook t1 (handleWebhook t2 d e2).1 e1).1 := by
        rw [s1, s2, s2, s1]
        apply modify_modify_comm t1 t2 d _ _ f g hids hid hf hfc hg hgc
        intro r1 r2 hr1 hr2
        refine ⟨?_, ?_, ?_⟩
        · intro h
          exact hem _ (hm1 d r1 hr1) (h ▸ stored_mem_touchedEmails hr2)
        · intro h
          exact hem _ (hm1 d r1 hr1) (h ▸ hm2 d r2 hr2)
        · intro h
          exact hem _ (stored_mem_touchedEmails hr1) (h ▸ hm2 d r2 hr2)
      exact ⟨sameRecords_of_eq this, fun _ => this⟩

/-- Witness for C28 (amended): Ann's `user.deleted` event and Cy's `user.created` event on the
directory that holds Ann; the two orders leave the same directory. -/
theorem independent_events_witness :
    UniqueKeys [annUser] ∧ eventId annDeleted ≠ eventId cyCreated ∧
    (handleWebhook 6 (handleWebhook 5 [annUser] annDeleted).1 cyCreated).1 =
      (handleWebhook 5 (handleWebhook 6 [annUser] cyCreated).1 annDeleted).1 :=
  ⟨by simp [UniqueKeys], by decide,
    (independent_events 5 6 [annUser] annDeleted cyCreated (by simp [UniqueKeys]) (by decide)
      (by decide)).2 (by decide)⟩

/-- C29, as stated, fails. Ann's `handleSignup` and her `user.created` webhook race for
`ext_1`; when the sign-up runs first, the webhook finds the record and answers
`200 { success: true }`: one creation, and no failure. And of two `handleSignup` calls for
the same id and address, the one whose `clerkId` lookup ran before the other's insert and
whose address lookup ran after it answers `Email already registered`. -/
theorem concurrent_create_without_failure :
    (CreateCall.signup annSignup).clerkId = some "ext_1" ∧
    (CreateCall.created annCreated).clerkId = some "ext_1" ∧
    race 5 6 [true, true, true, true, false, false]
        ([], (CreateCall.signup annSignup).start, (CreateCall.created annCreated).start) =
      ((handleSignup 5 [] annSignup).1,
       .signup annSignup (.done (handleSignup 5 [] annSignup).2),
       .created annCreated (.done ok200)) ∧
    (handleSignup 5 [] annSignup).1.length = 1 ∧
    (handleSignup 5 [] annSignup).2 =
      .json 201 { success := true, message := some "User created successfully" }
        (some { emptyView with id := some 1, clerkId := some "ext_1",
                               firstName := some "Ann", lastName := none,
                               email := some "a@x.com", userType := some "donor",
                               emailVerified := some false }) ∧
    (race 5 6 [true, false, false, false, false, true]
        ([], (CreateCall.signup annSignup).start, (CreateCall.signup annSignup).start)).2.1 =
      .signup annSignup (.done (.json 400
        { success := false, message := some "Email already registered" } none)) := by
  decide

/-- C29, amended. Two create calls for the same `clerkId`, each of which creates its record
when processed on its own, are run under any interleaving of their steps (a step runs a call
up to its next `await`; the schedule gives each call at least four steps, which finishes
it). Both calls answer, and exactly one of them has created: the directory and that call's
answer are those of that call processed on its own, and the other call has lost, with a
duplicate answer (`User already exists`, `Email already registered`, or the duplicate-key
error) from `handleSignup`, and with the duplicate-key error or `200 { success: true }`
without an insert from the webhook. The directory holds exactly one record for the
`clerkId`. -/
theorem concurrent_creates [CaseMapping] (now1 now2 : Int) (d : Directory) (a b : CreateCall)
    (c : String) (schedule : List Bool)
    (ha : a.clerkId = some c) (hb : b.clerkId = some c)
    (hca : a.CreatesAlone now1 d) (hcb : b.CreatesAlone now2 d)
    (h1 : 4 ≤ schedule.count true) (h2 : 4 ≤ schedule.count false) :
    ∃ oa ob,
      (race now1 now2 schedule (d, a.start, b.start)).2.1.outcome = some oa ∧
      (race now1 now2 schedule (d, a.start, b.start)).2.2.outcome = some ob ∧
      ((((race now1 now2 schedule (d, a.start, b.start)).1, oa) = a.alone now1 d ∧
          b.Lost ob) ∨
       (((race now1 now2 schedule (d, a.start, b.start)).1, ob) = b.alone now2 d ∧
          a.Lost oa)) ∧
      ((race now1 now2 schedule (d, a.start, b.start)).1.filter
        (fun u => u.clerkId == c)).length = 1 := by
  have hra := ready_of_createsAlone ha hca
  have hrb := ready_of_createsAlone hb hcb
  have hinv := raceInv_race hra hrb schedule _ (raceInv_start now1 now2 d c a b)
  obtain ⟨hk1, hk2⟩ := rank_race now1 now2 schedule (d, a.start, b.start)
  obtain ⟨oa, hoa⟩ :=
    @outcome_of_rank (race now1 now2 schedule (d, a.start, b.start)).2.1 (by omega)
  obtain ⟨ob, hob⟩ :=
    @outcome_of_rank (race now1 now2 schedule (d, a.start, b.start)).2.2 (by omega)
  refine ⟨oa, ob, hoa, hob, ?_⟩
  rcases hinv with ⟨-, -, hpa, -, -⟩ | ⟨hw, ⟨-, hbt⟩, -⟩ | ⟨hw, ⟨-, hbt⟩, -⟩
  · rw [pending_outcome hpa] at hoa
    simp at hoa
  · rcases hw with ⟨body, u, -, hs, -⟩ | ⟨-, o, ho, halone⟩
    · rw [hs] at hoa
      simp [InFlight.outcome] at hoa
    · rw [hoa] at ho
      simp only [Option.some.injEq] at ho
      subst ho
      rcases hbt with hp | ⟨o', ho', hl⟩
      · rw [pending_outcome hp] at hob
        simp at hob
      · rw [hob] at ho'
        simp only [Option.some.injEq] at ho'
        subst ho'
        refine ⟨Or.inl ⟨halone, hl⟩, ?_⟩
        have := alone_one_record hra
        rw [← halone] at this
        exact this
  · rcases hw with ⟨body, u, -, hs, -⟩ | ⟨-, o, ho, halone⟩
    · rw [hs] at hob
      simp [InFlight.outcome] at hob
    · rw [hob] at ho
      simp only [Option.some.injEq] at ho
      subst ho
      rcases hbt with hp | ⟨o', ho', hl⟩
      · rw [pending_outcome hp] at hoa
        simp at hoa
      · rw [hoa] at ho'
        simp only [Option.some.injEq] at ho'
        subst ho'
        refine ⟨Or.inr ⟨halone, hl⟩, ?_⟩
        have := alone_one_record hrb
        rw [← halone] at this
        exact this

/-- Witness for C29 (amended): Ann's sign-up and her `user.created` webhook, step by step in
turns, from the empty directory. -/
theorem concurrent_creates_witness :
    (CreateCall.signup annSignup).CreatesAlone 5 [] ∧
    (CreateCall.created annCreated).CreatesAlone 6 [] ∧
    ∃ oa ob,
      (race 5 6 [true, false, true, false, true, false, true, false]
        ([], (CreateCall.signup annSignup).start,
          (CreateCall.created annCreated).start)).2.1.outcome = some oa ∧
      (race 5 6 [true, false, true, false, true, false, true, false]
        ([], (CreateCall.signup annSignup).start,
          (CreateCall.created annCreated).start)).2.2.outcome = some ob ∧
      ((((race 5 6 [true, false, true, false, true, false, true, false]
          ([], (CreateCall.signup annSignup).start,
            (CreateCall.created annCreated).start)).1, oa) =
            (CreateCall.signup annSignup).alone 5 [] ∧
          (CreateCall.created annCreated).Lost ob) ∨
       (((race 5 6 [true, false, true, false, true, false, true, false]
          ([], (CreateCall.signup annSignup).start,
            (CreateCall.created annCreated).start)).1, ob) =
            (CreateCall.created annCreated).alone 6 [] ∧
          (CreateCall.signup annSignup).Lost oa)) ∧
      ((race 5 6 [true, false, true, false, true, false, true, false]
        ([], (CreateCall.signup annSignup).start,
          (CreateCall.created annCreated).start)).1.filter
        (fun u => u.clerkId == "ext_1")).length = 1 :=
  ⟨⟨some { emptyView with id := some 1, clerkId := some "ext_1", firstName := some "Ann",
                          lastName := none, email := some "a@x.com",
                          userType := some "donor", emailVerified := some false },
     by decide⟩,
   ⟨rfl, by decide⟩,
   concurrent_creates 5 6 [] (.signup annSignup) (.created annCreated) "ext_1"
     [true, false, true, false, true, false, true, false] rfl rfl
     ⟨some { emptyView with id := some 1, clerkId := some "ext_1", firstName := some "Ann",
                            lastName := none, email := some "a@x.com",
                            userType := some "donor", emailVerified := some false },
       by decide⟩
     ⟨rfl, by decide⟩ (by decide) (by decide)⟩

end Backend
